import Mathlib

/-!
# Realtime voice chat: audio codec and upstream session client

A shallow embedding of

* `frontend/src/utils/audioUtils.js` (resampling, PCM16 quantisation, base64 transport,
  decode path of `playAudioFromBase64`),
* `backend/realtime-client.js` (the `RealtimeClient` session: `sendEvent`, `commitAudio`,
  `handleReconnection`, `connect`, `disconnect`, `handleServerEvent`, `handleFunctionCall`),
* `backend/server.js` (the relay: the `connections` map and the handlers of a browser
  channel), and
* `frontend/src/components/VoiceChat.jsx` (`getErrorMessage`).

Conventions.

* A JavaScript string is the list of its UTF-16 code units (`JSString`).
* An `ArrayBuffer` is the list of its bytes; typed-array views are little-endian.
* A JavaScript number is a rational held exactly, or `none` for `NaN` (`Num`).  Every
  product and quotient the codec forms on 16-bit data is exact in binary64, so the
  quantiser and the decode path are modelled without loss.  The resampler divides,
  multiplies and adds numbers that are not exact in binary64, so each of its operations is
  followed by the rounding of binary64 (`fl64`), and its store into the `Float32Array` by
  the rounding of binary32 (`fl32`).
-/

namespace RealtimeVoice

/-! ## Base64 transport (`btoa`, `atob`) -/

/-- A JavaScript string, as the list of its UTF-16 code units. -/
abbrev JSString := List Nat

/-- The code unit of the base64 digit of value `i` (alphabet `A-Z a-z 0-9 + /`). -/
def b64Char (i : Nat) : Nat :=
  if i < 26 then 65 + i
  else if i < 52 then 71 + i
  else if i < 62 then i - 4
  else if i = 62 then 43
  else 47

/-- The value of a base64 digit, `none` for a code unit outside the alphabet. -/
def b64Val (c : Nat) : Option Nat :=
  if 65 ≤ c ∧ c ≤ 90 then some (c - 65)
  else if 97 ≤ c ∧ c ≤ 122 then some (c - 71)
  else if 48 ≤ c ∧ c ≤ 57 then some (c + 4)
  else if c = 43 then some 62
  else if c = 47 then some 63
  else none

/-- Base64 of a byte sequence, three bytes to four digits, padded with `=` (code 61). -/
def b64Encode : List Nat → List Nat
  | [] => []
  | [a] => [b64Char (a / 4), b64Char (a % 4 * 16), 61, 61]
  | [a, b] => [b64Char (a / 4), b64Char (a % 4 * 16 + b / 16), b64Char (b % 16 * 4), 61]
  | a :: b :: c :: rest =>
      b64Char (a / 4) :: b64Char (a % 4 * 16 + b / 16) :: b64Char (b % 16 * 4 + c / 64)
        :: b64Char (c % 64) :: b64Encode rest

/-- The builtin `btoa`: `none` (InvalidCharacterError) when a code unit exceeds 255. -/
def btoa (binary : JSString) : Option JSString :=
  if binary.all (fun c => decide (c ≤ 255)) then some (b64Encode binary) else none

/-- ASCII whitespace: tab, line feed, form feed, carriage return, space. -/
def isAsciiWhitespace (c : Nat) : Bool :=
  c = 9 || c = 10 || c = 12 || c = 13 || c = 32

/-- Removal of one or two trailing `=` signs. -/
def stripPadding : List Nat → List Nat
  | [] => []
  | c :: rest => if c = 61 ∧ (rest = [] ∨ rest = [61]) then [] else c :: stripPadding rest

/-- The digit values of a string, `none` when some code unit is not a base64 digit. -/
def b64Values : List Nat → Option (List Nat)
  | [] => some []
  | c :: cs =>
    match b64Val c, b64Values cs with
    | some v, some vs => some (v :: vs)
    | _, _ => none

/-- Bytes of a sequence of 6-bit values: 24 bits give three bytes; a final group of 12 bits
gives one byte (last four bits dropped), one of 18 bits two bytes (last two dropped); a
final group of a single value is a failure. -/
def b64DecodeValues : List Nat → Option (List Nat)
  | [] => some []
  | [_] => none
  | [v0, v1] => some [(v0 * 64 + v1) / 16]
  | [v0, v1, v2] => some [((v0 * 64 + v1) * 64 + v2) / 4 / 256, ((v0 * 64 + v1) * 64 + v2) / 4 % 256]
  | v0 :: v1 :: v2 :: v3 :: rest =>
    match b64DecodeValues rest with
    | some bytes =>
        some ((((v0 * 64 + v1) * 64 + v2) * 64 + v3) / 65536
          :: (((v0 * 64 + v1) * 64 + v2) * 64 + v3) / 256 % 256
          :: (((v0 * 64 + v1) * 64 + v2) * 64 + v3) % 256 :: bytes)
    | none => none

/-- The builtin `atob` (forgiving base64 decode): whitespace is removed, padding is removed
when the length is a multiple of four, and the rest must be base64 digits whose count is
not 1 modulo 4.  The result is a binary string; `none` is an InvalidCharacterError. -/
def atob (data : JSString) : Option JSString :=
  let d := data.filter (fun c => !isAsciiWhitespace c)
  let d := if d.length % 4 = 0 then stripPadding d else d
  if d.length % 4 = 1 then none
  else (b64Values d).bind b64DecodeValues

/-! ## `audioUtils.js` -/

/-- The function `String.fromCharCode` on one argument: the code unit `ToUint16 n`. -/
def fromCharCode (n : Nat) : Nat := n % 65536

/-- Storing a number into a `Uint8Array` element. -/
def toUint8 (n : Nat) : Nat := n % 256

/-- The function `arrayBufferToBase64`: each byte becomes one code unit of `binary`, which
is handed to `btoa`. -/
def arrayBufferToBase64 (buffer : List Nat) : Option JSString :=
  btoa (buffer.map fromCharCode)

/-- The function `base64ToArrayBuffer`: `atob`, then each code unit is stored as a byte. -/
def base64ToArrayBuffer (base64 : JSString) : Option (List Nat) :=
  (atob base64).map (fun binaryString => binaryString.map toUint8)

/-- The two bytes of a 16-bit signed sample (the `.buffer` of an `Int16Array`). -/
def int16Bytes (s : Int) : List Nat :=
  [(s % 65536).toNat % 256, (s % 65536).toNat / 256]

/-- The bytes behind an `Int16Array` holding `samples`. -/
def int16ArrayBuffer : List Int → List Nat
  | [] => []
  | s :: rest => int16Bytes s ++ int16ArrayBuffer rest

/-- The signed sample held in two bytes. -/
def int16OfBytes (lo hi : Nat) : Int :=
  if lo + 256 * hi < 32768 then (lo + 256 * hi : Nat) else ((lo + 256 * hi : Nat) : Int) - 65536

/-- The view `new Int16Array(arrayBuffer)`: `none` (RangeError) for an odd byte length. -/
def newInt16Array : List Nat → Option (List Int)
  | [] => some []
  | [_] => none
  | lo :: hi :: rest =>
    match newInt16Array rest with
    | some samples => some (int16OfBytes lo hi :: samples)
    | none => none

/-- Base64 of a byte sequence without the padding. -/
def b64Digits : List Nat → List Nat
  | [] => []
  | [a] => [b64Char (a / 4), b64Char (a % 4 * 16)]
  | [a, b] => [b64Char (a / 4), b64Char (a % 4 * 16 + b / 16), b64Char (b % 16 * 4)]
  | a :: b :: c :: rest =>
      b64Char (a / 4) :: b64Char (a % 4 * 16 + b / 16) :: b64Char (b % 16 * 4 + c / 64)
        :: b64Char (c % 64) :: b64Digits rest

/-! ## Numbers, resampling, quantisation, decode path -/

/-- A JavaScript number: a finite value held exactly, or `none` for `NaN`.  Reading an
array out of range gives `undefined`, which arithmetic turns into `NaN`. -/
abbrev Num := Option ℚ

/-- The function `Math.round`: the nearest integer, a tie going toward plus infinity. -/
def Math_round (x : ℚ) : ℤ := ⌊x + 1 / 2⌋

/-- Storing an integral number into an `Int16Array` element (`ToInt16`): reduction modulo
`2^16` into `[-32768, 32767]`. -/
def toInt16 (n : ℤ) : ℤ := (n + 32768) % 65536 - 32768

/-- Element read `data[i]` used as an operand: `NaN` when `i` is out of range. -/
def readAt (data : List Num) (i : ℤ) : Num :=
  if i < 0 then none else (data[i.toNat]?).join

/-- Rounding of a rational to the nearest integer, a tie going to the even neighbour: the
rounding of the last kept bit in IEEE 754 arithmetic. -/
def roundHalfEven (x : ℚ) : ℤ :=
  if x - ⌊x⌋ < 1 / 2 then ⌊x⌋
  else if 1 / 2 < x - ⌊x⌋ then ⌊x⌋ + 1
  else if ⌊x⌋ % 2 = 0 then ⌊x⌋ else ⌊x⌋ + 1

/-- Rounding to the nearest number of a binary format with `p` significant bits and least
normal exponent `emin` (ties to even): the spacing of the format around `x` is
`2 ^ (e - (p - 1))` with `e` the binary exponent of `x`, and `emin` below the normal range
(gradual underflow).  The exponent is not bounded above: overflow is decided by the caller
on the rounded value, as IEEE 754 does. -/
def roundTo (p : ℕ) (emin : ℤ) (x : ℚ) : ℚ :=
  let e := max (Int.log 2 |x|) emin
  (roundHalfEven (x / (2 : ℚ) ^ (e - ((p : ℤ) - 1))) : ℚ) * (2 : ℚ) ^ (e - ((p : ℤ) - 1))

/-- Rounding to binary64, the format of a JavaScript number. -/
def fl64 (x : ℚ) : ℚ := roundTo 53 (-1022) x

/-- Rounding to binary32, the format of a `Float32Array` element. -/
def fl32 (x : ℚ) : ℚ := roundTo 24 (-126) x

/-- The result of a binary64 division: a finite number, an infinity (of either sign, the
sign of a zero divisor not being held by a rational), or `NaN`. -/
inductive Float64 where
  | finite (q : ℚ)
  | infinite
  | nan

/-- The binary64 number nearest to `x`: an infinity when the rounded magnitude reaches
`2 ^ 1024`. -/
def toFloat64 (x : ℚ) : Float64 :=
  if (2 : ℚ) ^ 1024 ≤ |fl64 x| then Float64.infinite else Float64.finite (fl64 x)

/-- The operator `/` on two finite numbers: `0 / 0` is `NaN`, any other division by zero
is an infinity, and every other quotient is rounded to binary64. -/
def div64 (a b : ℚ) : Float64 :=
  if b = 0 then (if a = 0 then Float64.nan else Float64.infinite)
  else toFloat64 (a / b)

/-- The largest finite binary32 number, `(2 ^ 24 - 1) * 2 ^ 104`. -/
def float32Max : ℚ := (2 ^ 24 - 1) * 2 ^ 104

/-- The samples of a `Float32Array`: every element that is not `NaN` has a magnitude of at
most `float32Max`. -/
def inFloat32Range (data : List Num) : Bool :=
  data.all fun v =>
    match v with
    | none => true
    | some q => decide (|q| ≤ float32Max)

/-- The body of the loop of `resampleAudio`: output sample `i`, interpolated between the
input samples at the floor of `i * sampleRateRatio` and at the next index, the latter
clamped to the last index.  The product, the two differences, the two products by the
samples and their sum are each rounded to binary64; `Math.floor`, the increment of the floor
and `Math.min` are exact on the integers they meet; the store `output[i] = ...` rounds to
binary32.  On samples of a `Float32Array` (`inFloat32Range`) no operation overflows, and
overflow of a sample is not modelled. -/
def resampleAt (inputData : List Num) (sampleRateRatio : ℚ) (i : ℕ) : Num :=
  let inputIndex := fl64 ((i : ℚ) * sampleRateRatio)
  let inputIndexFloor := ⌊inputIndex⌋
  let inputIndexCeil := min (inputIndexFloor + 1) ((inputData.length : ℤ) - 1)
  let fraction := fl64 (inputIndex - inputIndexFloor)
  (readAt inputData inputIndexFloor).bind fun a =>
    (readAt inputData inputIndexCeil).bind fun b =>
      some (fl32 (fl64 (fl64 (a * fl64 (1 - fraction)) + fl64 (b * fraction))))

/-- The function `resampleAudio`.  Both quotients are binary64 divisions.  An infinite
`sampleRateRatio` (a zero output rate, or overflow) makes `inputData.length / sampleRateRatio`
zero and the output empty.  With a finite ratio, the quotient `inputData.length /
sampleRateRatio` is `NaN` for `0 / 0`, which `new Float32Array` takes as length 0, and
infinite for another division by zero or overflow, which it rejects.  `none` is the
RangeError of `new Float32Array(n)` for a negative `n`, an infinite `n`, or an `n` above
`2 ^ 53 - 1`; a failure to allocate for lack of memory is not modelled.  The length of
`inputData` is taken as a number exactly, which it is below `2 ^ 53`. -/
def resampleAudio (inputData : List Num) (inputSampleRate outputSampleRate : ℚ) :
    Option (List Num) :=
  if inputSampleRate = outputSampleRate then some inputData
  else
    match div64 inputSampleRate outputSampleRate with
    | Float64.finite sampleRateRatio =>
      match div64 (inputData.length : ℚ) sampleRateRatio with
      | Float64.finite quotient =>
        let outputLength := Math_round quotient
        if outputLength < 0 ∨ 2 ^ 53 ≤ outputLength then none
        else some ((List.range outputLength.toNat).map (resampleAt inputData sampleRateRatio))
      | Float64.infinite => none
      | Float64.nan => some []
    | _ => some []

/-- One iteration of the loop of `convertToPCM16`: clamp to `[-1, 1]`, scale by 32767,
round, store into the `Int16Array`.  `NaN` passes through `Math.min`, `Math.max` and
`Math.round` and is stored as 0. -/
def convertSample : Num → ℤ
  | none => 0
  | some x => toInt16 (Math_round (max (-1) (min 1 x) * 32767))

/-- The function `convertToPCM16`. -/
def convertToPCM16 (float32Array : List Num) : List ℤ :=
  float32Array.map convertSample

/-- The loop of `playAudioFromBase64` that fills `channelData` from `pcm16Data`. -/
def channelDataOfPCM16 (pcm16Data : List ℤ) : List ℚ :=
  pcm16Data.map fun (s : ℤ) => (s : ℚ) / 32768

/-- The decode path of `playAudioFromBase64`, from the base64 text to the channel data
of the audio buffer it plays.  `none` is an exception: of `atob`, of the `Int16Array` view,
or of `createBuffer`, which rejects a length of 0 (NotSupportedError). -/
def playAudioChannelData (base64Audio : JSString) : Option (List ℚ) :=
  (base64ToArrayBuffer base64Audio).bind fun arrayBuffer =>
    (newInt16Array arrayBuffer).bind fun pcm16Data =>
      if pcm16Data.length = 0 then none else some (channelDataOfPCM16 pcm16Data)

/-! ## `realtime-client.js`: the upstream session -/

/-- A JSON value: what `JSON.parse` returns and `JSON.stringify` serialises. -/
inductive Json where
  | null
  | bool (b : Bool)
  | num (q : ℚ)
  | str (s : String)
  | arr (items : List Json)
  | obj (fields : List (String × Json))

/-- The ready state of a `ws` WebSocket. -/
inductive ReadyState where
  | CONNECTING
  | OPEN
  | CLOSING
  | CLOSED
  deriving DecidableEq, Repr

/-- A WebSocket created by `connect`.  `sent` lists the frames handed to `send`, oldest
first; the entry `v` stands for the text frame `JSON.stringify(v)`. -/
structure Socket where
  readyState : ReadyState
  sent : List Json

/-- A call of `this.emit`: `emit('message', event)` or `emit('error', err)`, the latter
recorded by `err.message`. -/
inductive Emitted where
  | message (event : Json)
  | error (message : String)

/-- The fields of a `RealtimeClient` object (`this.url` is a constant and is left out);
`ws` is `null` or a reference to a socket, by its index in `World.sockets`. -/
structure RealtimeClient where
  ws : Option ℕ
  apiKey : Option String
  isConnected : Bool
  reconnectAttempts : ℕ
  maxReconnectAttempts : ℕ

/-- A session together with what it acts on: the sockets it created (by creation order),
the delays of its `setTimeout` calls (oldest first) and how many of those timers have fired,
and the events it emitted to its subscribers (oldest first). -/
structure World where
  client : RealtimeClient
  sockets : List Socket
  scheduled : List ℕ
  fired : ℕ
  emitted : List Emitted

/-- The constructor: `new RealtimeClient()`, with `process.env.OPENAI_API_KEY` as `apiKey`. -/
def World.fresh (apiKey : Option String) : World :=
  { client := { ws := none, apiKey := apiKey, isConnected := false, reconnectAttempts := 0,
                maxReconnectAttempts := 5 },
    sockets := [], scheduled := [], fired := 0, emitted := [] }

/-- The method `ws.send(frame)` on socket `k`. -/
def World.send (w : World) (k : ℕ) (sock : Socket) (frame : Json) : World :=
  { w with sockets := w.sockets.set k { sock with sent := sock.sent ++ [frame] } }

/-- The method `sendEvent`: the frame is sent and `true` returned when `this.ws` is set and
its ready state is `OPEN`; otherwise nothing is sent and `false` is returned. -/
def sendEvent (w : World) (event : Json) : World × Bool :=
  match w.client.ws with
  | none => (w, false)
  | some k =>
    match w.sockets[k]? with
    | none => (w, false)
    | some sock =>
      if sock.readyState = ReadyState.OPEN then (w.send k sock event, true) else (w, false)

/-- The session has a transport whose ready state is `OPEN`. -/
def transportOpen (w : World) : Prop :=
  ∃ k sock, w.client.ws = some k ∧ w.sockets[k]? = some sock ∧
    sock.readyState = ReadyState.OPEN

/-- The number of frames sent so far, over all the sockets of the session. -/
def framesSent (w : World) : ℕ :=
  (w.sockets.map fun sock => sock.sent.length).sum

/-- The object `sessionConfig` of `setupSession`. -/
def sessionConfig : Json :=
  Json.obj [("type", Json.str "session.update"),
    ("session", Json.obj [
      ("modalities", Json.arr [Json.str "text", Json.str "audio"]),
      ("instructions", Json.str "You are a helpful AI assistant. Respond naturally and conversationally. Keep responses concise but engaging."),
      ("voice", Json.str "alloy"),
      ("input_audio_format", Json.str "pcm16"),
      ("output_audio_format", Json.str "pcm16"),
      ("input_audio_transcription", Json.obj [("model", Json.str "whisper-1")]),
      ("turn_detection", Json.obj [("type", Json.str "server_vad"), ("threshold", Json.num (1 / 2)),
        ("prefix_padding_ms", Json.num 300), ("silence_duration_ms", Json.num 500)]),
      ("tools", Json.arr [Json.obj [("type", Json.str "function"),
        ("name", Json.str "get_current_time"),
        ("description", Json.str "Get the current time"),
        ("parameters", Json.obj [("type", Json.str "object"), ("properties", Json.obj []),
          ("required", Json.arr [])])]]),
      ("tool_choice", Json.str "auto"),
      ("temperature", Json.num (4 / 5)),
      ("max_response_output_tokens", Json.num 2048)])]

/-- The method `setupSession`; the result of `sendEvent` is dropped. -/
def setupSession (w : World) : World :=
  (sendEvent w sessionConfig).1

/-- The method `commitAudio`: two sends in sequence, the result their conjunction. -/
def commitAudio (w : World) : World × Bool :=
  let r1 := sendEvent w (Json.obj [("type", Json.str "input_audio_buffer.commit")])
  let r2 := sendEvent r1.1 (Json.obj [("type", Json.str "response.create")])
  (r2.1, r1.2 && r2.2)

/-- The message of the error emitted when the retries are used up. -/
def maxAttemptsMessage : String := "Connection lost and max reconnection attempts reached"

/-- The method `handleReconnection`: below the ceiling the counter is incremented and a
reconnect is scheduled after `2 ^ reconnectAttempts * 1000` ms, with the counter as
incremented; at the ceiling an error is emitted. -/
def handleReconnection (w : World) : World :=
  if w.client.reconnectAttempts < w.client.maxReconnectAttempts then
    let c := { w.client with reconnectAttempts := w.client.reconnectAttempts + 1 }
    let delay := 2 ^ c.reconnectAttempts * 1000
    { w with client := c, scheduled := w.scheduled ++ [delay] }
  else
    { w with emitted := w.emitted ++ [Emitted.error maxAttemptsMessage] }

/-- The method `connect`: it throws when the API key is missing or empty; otherwise it
creates a socket in state `CONNECTING`, stores it in `this.ws` and registers the four
handlers on it. -/
def connect (w : World) : Except String World :=
  if w.client.apiKey = none ∨ w.client.apiKey = some "" then
    Except.error "OpenAI API key not found. Please set OPENAI_API_KEY in your .env file"
  else
    Except.ok { w with
      client := { w.client with ws := some w.sockets.length },
      sockets := w.sockets ++ [{ readyState := ReadyState.CONNECTING, sent := [] }] }

/-- The `open` handler registered by `connect`. -/
def onOpen (w : World) : World :=
  setupSession { w with client := { w.client with isConnected := true, reconnectAttempts := 0 } }

/-- The `error` handler registered by `connect`. -/
def onError (w : World) (message : String) : World :=
  { w with emitted := w.emitted ++ [Emitted.error message] }

/-- The `close` handler registered by `connect`. -/
def onClose (w : World) : World :=
  handleReconnection { w with client := { w.client with isConnected := false } }

/-- The method `close()` of a socket: a closed socket stays closed, any other goes to
`CLOSING` until its `close` event. -/
def Socket.close (sock : Socket) : Socket :=
  if sock.readyState = ReadyState.CLOSED then sock
  else { sock with readyState := ReadyState.CLOSING }

/-- The method `disconnect`. -/
def disconnect (w : World) : World :=
  match w.client.ws with
  | none => w
  | some k =>
    { w with
      client := { w.client with isConnected := false, ws := none },
      sockets := match w.sockets[k]? with
        | some sock => w.sockets.set k sock.close
        | none => w.sockets }

/-- What can happen to a session: a call of `connect()` or `disconnect()` by the relay, a
reconnect timer firing, and the `open`, `error` and `close` events of socket `k`. -/
inductive Step where
  | connect
  | timerFired
  | socketOpen (k : ℕ)
  | socketError (k : ℕ) (message : String)
  | socketClose (k : ℕ)
  | disconnect

/-- One step.  A failed `connect()` leaves the state as it was (the relay and the timer
callback catch the rejection).  A timer fires only if one is pending.  A socket emits
`open` only while `CONNECTING` and `close` only once; the event sets its ready state and
runs the handler. -/
def step (w : World) : Step → World
  | Step.connect =>
    match connect w with
    | Except.ok w' => w'
    | Except.error _ => w
  | Step.timerFired =>
    if w.fired < w.scheduled.length then
      match connect { w with fired := w.fired + 1 } with
      | Except.ok w' => w'
      | Except.error _ => { w with fired := w.fired + 1 }
    else w
  | Step.socketOpen k =>
    match w.sockets[k]? with
    | some sock =>
      if sock.readyState = ReadyState.CONNECTING then
        onOpen { w with sockets := w.sockets.set k { sock with readyState := ReadyState.OPEN } }
      else w
    | none => w
  | Step.socketError k message =>
    if k < w.sockets.length then onError w message else w
  | Step.socketClose k =>
    match w.sockets[k]? with
    | some sock =>
      if sock.readyState = ReadyState.CLOSED then w
      else onClose { w with sockets := w.sockets.set k { sock with readyState := ReadyState.CLOSED } }
    | none => w
  | Step.disconnect => disconnect w

/-- A sequence of steps. -/
def run (w : World) (steps : List Step) : World :=
  steps.foldl step w

/-- The states reachable from a freshly constructed session. -/
inductive Reachable : World → Prop where
  | fresh (apiKey : Option String) : Reachable (World.fresh apiKey)
  | step (w : World) (st : Step) : Reachable w → Reachable (step w st)

/-- The step is a closure: the `close` event of a socket of the session that has not
closed before, so that the `close` handler runs. -/
def isClosure (w : World) : Step → Bool
  | Step.socketClose k =>
    match w.sockets[k]? with
    | some sock => decide (sock.readyState ≠ ReadyState.CLOSED)
    | none => false
  | _ => false

/-- The number of closures in a sequence of steps run from `w`. -/
def closures : World → List Step → ℕ
  | _, [] => 0
  | w, st :: rest => (if isClosure w st then 1 else 0) + closures (step w st) rest

/-- The emitted event is the error of `handleReconnection` at the ceiling. -/
def Emitted.isFatal : Emitted → Bool
  | Emitted.error msg => decide (msg = maxAttemptsMessage)
  | Emitted.message _ => false

/-- How many times the session has emitted the error of `handleReconnection`. -/
def fatalErrors (w : World) : ℕ :=
  (w.emitted.filter Emitted.isFatal).length

/-- A step of a run without a successful open: any step but the `open` event of a socket.
A transport error is told from the error of `handleReconnection` by its message. -/
def Step.quiet : Step → Bool
  | Step.socketOpen _ => false
  | Step.socketError _ message => decide (message ≠ maxAttemptsMessage)
  | _ => true

/-- The delays scheduled by `k` closures in a row starting with the counter at `c`, for a
ceiling of 5. -/
def backoffFrom : ℕ → ℕ → List ℕ
  | _, 0 => []
  | c, k + 1 => if c < 5 then 2 ^ (c + 1) * 1000 :: backoffFrom (c + 1) k else []

/-- A session whose transport is open: `connect()`, then the `open` event of the socket. -/
def openWorld : World :=
  run (World.fresh (some "sk-test")) [Step.connect, Step.socketOpen 0]

/-- A session that has called `connect()` and waits for its socket. -/
def connectingWorld : World :=
  step (World.fresh (some "sk-test")) Step.connect

/-- Six failed connections in a row, each with the `error` and `close` events of its
socket and each reconnect made by the timer of the closure before it; then one more
`connect()` by the relay and a seventh closure. -/
def sevenClosures : List Step :=
  [Step.connect, Step.socketError 0 "connect ECONNREFUSED", Step.socketClose 0,
    Step.timerFired, Step.socketError 1 "connect ECONNREFUSED", Step.socketClose 1,
    Step.timerFired, Step.socketError 2 "connect ECONNREFUSED", Step.socketClose 2,
    Step.timerFired, Step.socketError 3 "connect ECONNREFUSED", Step.socketClose 3,
    Step.timerFired, Step.socketError 4 "connect ECONNREFUSED", Step.socketClose 4,
    Step.timerFired, Step.socketError 5 "connect ECONNREFUSED", Step.socketClose 5,
    Step.connect, Step.socketError 6 "connect ECONNREFUSED", Step.socketClose 6]

/-- The method `disconnect`, together with the sockets on which it calls `close()`. -/
def disconnectLog (w : World) : World × List ℕ :=
  match w.client.ws with
  | none => (w, [])
  | some k => (disconnect w, [k])

/-- The socket is live: it has not closed yet (it is connecting, open or closing). -/
def Socket.live (sock : Socket) : Bool :=
  decide (sock.readyState ≠ ReadyState.CLOSED)

/-- The number of live sockets among those the session has created. -/
def liveSockets (w : World) : ℕ :=
  (w.sockets.filter Socket.live).length

/-- The step runs `connect()`: a call by the relay or a reconnect timer firing. -/
def Step.connects : Step → Bool
  | Step.connect => true
  | Step.timerFired => true
  | _ => false

/-- Every `connect()` of the run, by the relay or by a timer, happens in a state in which
no socket of the session is live. -/
def connectsWhenIdle : World → List Step → Bool
  | _, [] => true
  | w, st :: rest =>
    (!st.connects || decide (liveSockets w = 0)) && connectsWhenIdle (step w st) rest

/-! ## JavaScript values, inbound events -/

/-- What the platform supplies to the code below: `JSON.stringify` on a JSON value, the
conversion of a number to a string, and, at the time of a call, the results of
`new Date().toLocaleString()` and `Intl.DateTimeFormat().resolvedOptions().timeZone`. -/
structure Platform where
  stringify : Json → String
  numberToString : ℚ → String
  localeString : String
  timeZone : String

/-- A value read from a parsed frame: a JSON value, or `none` for `undefined`. -/
abbrev JSValue := Option Json

/-- The property read `v.key` on a value that is neither `null` nor `undefined`, for a key
that is no built-in property (`type`, `error`, `message`, `details`, `name`, ...): the
field of an object, `undefined` on an array or a primitive.  An object lists each of its
keys once. -/
def Json.prop : Json → String → JSValue
  | Json.obj fields, key => fields.lookup key
  | _, _ => none

/-- The optional chain `v?.key`: `undefined` when `v` is `null` or `undefined`. -/
def optProp : JSValue → String → JSValue
  | none, _ => none
  | some Json.null, _ => none
  | some v, key => v.prop key

/-- Truthiness of a value: `undefined`, `null`, `false`, `0` and the empty string are falsy. -/
def truthy : JSValue → Bool
  | none => false
  | some Json.null => false
  | some (Json.bool b) => b
  | some (Json.num q) => decide (q ≠ 0)
  | some (Json.str s) => decide (s ≠ "")
  | some (Json.arr _) => true
  | some (Json.obj _) => true

mutual
/-- The conversion of a JSON value to a string (`String(v)`, a template literal, the
argument of `new Error`); `none` when it throws a TypeError.  An object is converted by the
`toString` it inherits, which gives "[object Object]", unless it has a key `toString` of its
own: the value of that key comes from JSON, so it is not callable, and `valueOf` does not
give a primitive either. -/
def Json.toStringJS (P : Platform) : Json → Option String
  | Json.null => some "null"
  | Json.bool true => some "true"
  | Json.bool false => some "false"
  | Json.num q => some (P.numberToString q)
  | Json.str s => some s
  | Json.arr items => Json.joinJS P items
  | Json.obj fields =>
    if (fields.lookup "toString").isSome then none else some "[object Object]"
/-- The conversion of an array: its elements converted and joined by commas, `null` giving
nothing; it throws when the conversion of an element throws. -/
def Json.joinJS (P : Platform) : List Json → Option String
  | [] => some ""
  | [Json.null] => some ""
  | [v] => Json.toStringJS P v
  | Json.null :: rest =>
    match Json.joinJS P rest with
    | some s => some ("," ++ s)
    | none => none
  | v :: rest =>
    match Json.toStringJS P v, Json.joinJS P rest with
    | some a, some s => some (a ++ "," ++ s)
    | _, _ => none
end

/-- The conversion of a value to a string; `none` when it throws a TypeError. -/
def toStringJS (P : Platform) : JSValue → Option String
  | none => some "undefined"
  | some v => v.toStringJS P

/-- The message of the TypeError thrown by the conversion of an object to a string. -/
def toPrimitiveTypeMessage : String := "Cannot convert object to primitive value"

/-- The comparison `v === 'text'` of a value with a string literal. -/
def isText : JSValue → String → Bool
  | some (Json.str s), text => decide (s = text)
  | _, _ => false

/-- The JSON value of an object literal: a property whose value is `undefined` is left out,
as `JSON.stringify` does. -/
def jsObject (fields : List (String × JSValue)) : Json :=
  Json.obj (fields.filterMap fun (kv : String × JSValue) => kv.2.map fun v => (kv.1, v))

/-- How a call ends: it returns, or it throws (a TypeError, on reading a property of `null`
or `undefined`). -/
inductive Completion where
  | normal
  | thrown
  deriving DecidableEq, Repr

/-- The call `this.emit(...)`, recorded in the log. -/
def World.emit (w : World) (e : Emitted) : World :=
  { w with emitted := w.emitted ++ [e] }

/-- The `switch` of `handleFunctionCall`, which computes `result`: the time for
`get_current_time`, an error naming the function otherwise.  `none` is the TypeError thrown
by the template literal when `name` does not convert to a string. -/
def functionResult (P : Platform) (name : JSValue) : Option Json :=
  if isText name "get_current_time" then
    some (Json.obj [("time", Json.str P.localeString), ("timezone", Json.str P.timeZone)])
  else
    match toStringJS P name with
    | some text => some (Json.obj [("error", Json.str ("Unknown function: " ++ text))])
    | none => none

/-- The method `handleFunctionCall`, on an event that is an object: `call_id` and `name`
are read from it; in the `try` block the result is computed and sent back by one call of
`sendEvent`; when the computation of the result throws, the `catch` block sends back the
message of the exception instead, again by one call of `sendEvent`.  The result of
`sendEvent` is dropped, and `sendEvent` itself does not throw. -/
def handleFunctionCall (P : Platform) (w : World) (event : Json) : World :=
  match functionResult P (event.prop "name") with
  | some result =>
    (sendEvent w (jsObject [("type", some (Json.str "conversation.item.create")),
      ("item", some (jsObject [("type", some (Json.str "function_call_output")),
        ("call_id", event.prop "call_id"),
        ("output", some (Json.str (P.stringify result)))]))])).1
  | none =>
    (sendEvent w (jsObject [("type", some (Json.str "conversation.item.create")),
      ("item", some (jsObject [("type", some (Json.str "function_call_output")),
        ("call_id", event.prop "call_id"),
        ("output", some (Json.str (P.stringify
          (Json.obj [("error", Json.str toPrimitiveTypeMessage)]))))]))])).1

/-- The method `handleServerEvent`: the event goes to the `message` subscribers, then the
`switch` on `event.type` runs.  Reading `event.type` throws on `null`; the case
`session.created` reads `event.session.id` and the case `error` reads `event.error.message`,
which throw when `event.session` or `event.error` is `null` or `undefined`; in the case
`error`, `new Error(...)` converts a truthy message to a string, which throws for a message
that does not convert, before anything is emitted; the other cases only log. -/
def handleServerEvent (P : Platform) (w : World) (event : Json) : World × Completion :=
  match event with
  | Json.null => (w.emit (Emitted.message event), Completion.thrown)
  | _ =>
    if isText (event.prop "type") "session.created" then
      match event.prop "session" with
      | none => (w.emit (Emitted.message event), Completion.thrown)
      | some Json.null => (w.emit (Emitted.message event), Completion.thrown)
      | some _ => (w.emit (Emitted.message event), Completion.normal)
    else if isText (event.prop "type") "response.function_call_arguments.done" then
      (handleFunctionCall P (w.emit (Emitted.message event)) event, Completion.normal)
    else if isText (event.prop "type") "error" then
      match event.prop "error" with
      | none => (w.emit (Emitted.message event), Completion.thrown)
      | some Json.null => (w.emit (Emitted.message event), Completion.thrown)
      | some err =>
        if truthy (err.prop "message") then
          match toStringJS P (err.prop "message") with
          | some text =>
            ((w.emit (Emitted.message event)).emit (Emitted.error text), Completion.normal)
          | none => (w.emit (Emitted.message event), Completion.thrown)
        else
          ((w.emit (Emitted.message event)).emit (Emitted.error "Unknown API error"),
            Completion.normal)
    else (w.emit (Emitted.message event), Completion.normal)

/-- The event `{type: 'conversation.item.create', item: {type: 'function_call_output',
call_id, output}}` that answers a function call. -/
def functionCallOutput (call_id : Json) (output : String) : Json :=
  Json.obj [("type", Json.str "conversation.item.create"),
    ("item", Json.obj [("type", Json.str "function_call_output"), ("call_id", call_id),
      ("output", Json.str output)])]

/-- The content of a text frame, as `JSON.parse` sees it: a JSON value, or a text on which
`JSON.parse` throws a SyntaxError with the given message. -/
inductive Frame where
  | json (v : Json)
  | malformed (syntaxError : String)

/-- The `message` handler registered by `connect`: the frame is parsed and handed to
`handleServerEvent`; an exception of either is caught and logged. -/
def onMessage (P : Platform) (w : World) : Frame → World
  | Frame.json event => (handleServerEvent P w event).1
  | Frame.malformed _ => w

/-- The function `getErrorMessage` of `VoiceChat.jsx`: the value it returns. -/
def getErrorMessage (P : Platform) (errorData : JSValue) : Json :=
  match errorData with
  | some (Json.str s) => Json.str s
  | some (Json.obj fields) =>
    if truthy ((Json.obj fields).prop "message") then
      ((Json.obj fields).prop "message").getD Json.null
    else if truthy (optProp ((Json.obj fields).prop "error") "message") then
      (optProp ((Json.obj fields).prop "error") "message").getD Json.null
    else if truthy ((Json.obj fields).prop "details") then
      ((Json.obj fields).prop "details").getD Json.null
    else Json.str (P.stringify (Json.obj fields))
  | some (Json.arr items) => Json.str (P.stringify (Json.arr items))
  | _ => Json.str "Unknown error occurred"

/-- The result of `typeof v === 'string'`. -/
def Json.isString : Json → Bool
  | Json.str _ => true
  | _ => false

/-- A platform for the examples: numbers and JSON texts are not spelled out. -/
def samplePlatform : Platform :=
  { stringify := fun _ => "<json>", numberToString := fun _ => "<number>",
    localeString := "11/6/2026, 10:00:00 AM", timeZone := "UTC" }

/-- An upstream `error` event without an `error` payload. -/
def bareErrorEvent : Json :=
  Json.obj [("type", Json.str "error")]

/-- An upstream `error` event whose payload has an empty message. -/
def emptyMessageErrorEvent : Json :=
  Json.obj [("type", Json.str "error"), ("error", Json.obj [("message", Json.str "")])]

/-- An upstream `error` event as the API sends it. -/
def apiErrorEvent : Json :=
  Json.obj [("type", Json.str "error"),
    ("error", Json.obj [("type", Json.str "invalid_request_error"),
      ("message", Json.str "Invalid value")])]

/-- An upstream `error` event whose message is an object with a key `toString`. -/
def unprintableErrorEvent : Json :=
  Json.obj [("type", Json.str "error"),
    ("error", Json.obj [("message", Json.obj [("toString", Json.num 1)])])]

/-- A completed function call whose name is an object with a key `toString`. -/
def unprintableCallEvent : Json :=
  Json.obj [("type", Json.str "response.function_call_arguments.done"),
    ("call_id", Json.str "call_2"), ("name", Json.obj [("toString", Json.num 1)]),
    ("arguments", Json.str "")]

/-- A completed function call for a function the session does not have. -/
def unknownCallEvent : Json :=
  Json.obj [("type", Json.str "response.function_call_arguments.done"),
    ("call_id", Json.str "call_3"), ("name", Json.str "get_weather"),
    ("arguments", Json.str "")]

/-- A session on which `connect()` was called again while its transport was open: `this.ws`
is the new socket, still connecting, and the first socket is open and delivers events. -/
def reconnectingWorld : World :=
  run (World.fresh (some "sk-test")) [Step.connect, Step.socketOpen 0, Step.connect]

/-- A completed function call for `get_current_time`. -/
def timeCallEvent : Json :=
  Json.obj [("type", Json.str "response.function_call_arguments.done"),
    ("call_id", Json.str "call_1"), ("name", Json.str "get_current_time"),
    ("arguments", Json.str "")]

/-! ## `server.js`: the relay -/

/-- The method `sendAudioData`; an `audio` that is `undefined` leaves no property. -/
def sendAudioData (w : World) (audioBase64 : JSValue) : World × Bool :=
  sendEvent w (jsObject [("type", some (Json.str "input_audio_buffer.append")),
    ("audio", audioBase64)])

/-- The method `sendTextMessage`: the item is sent, and a `response.create` follows only if
that send succeeded; the result is that of the first send. -/
def sendTextMessage (w : World) (text : JSValue) : World × Bool :=
  let r := sendEvent w (jsObject [("type", some (Json.str "conversation.item.create")),
    ("item", some (jsObject [("type", some (Json.str "message")),
      ("role", some (Json.str "user")),
      ("content", some (Json.arr [jsObject [("type", some (Json.str "input_text")),
        ("text", text)]]))]))])
  if r.2 then ((sendEvent r.1 (Json.obj [("type", Json.str "response.create")])).1, r.2) else r

/-- The browser side WebSocket of a connection, as the relay holds it.  `sent` lists the
frames written with `send`, oldest first, each as the JSON value whose text it is. -/
structure Channel where
  readyState : ReadyState
  sent : List Json

/-- The method `ws.send(text)` on the browser channel: the frame leaves on an open channel;
on a closing or closed one it is dropped (the error goes to the callback, and none is
given). -/
def Channel.send (ch : Channel) (frame : Json) : Channel :=
  if ch.readyState = ReadyState.OPEN then { ch with sent := ch.sent ++ [frame] } else ch

/-- The same frame written by each of `n` listeners, one after the other; a listener
writes `if (ws.readyState === WebSocket.OPEN)`, which is also when `send` lets it out. -/
def Channel.sendTimes (ch : Channel) (frame : Json) : ℕ → Channel
  | 0 => ch
  | n + 1 => (ch.send frame).sendTimes frame n

/-- The frame `{type: 'error', error: message}`. -/
def errorFrame (message : String) : Json :=
  Json.obj [("type", Json.str "error"), ("error", Json.str message)]

/-- The frame `{type: 'connected', message: 'Connected to OpenAI Realtime API'}`. -/
def connectedFrame : Json :=
  Json.obj [("type", Json.str "connected"),
    ("message", Json.str "Connected to OpenAI Realtime API")]

/-- The message of the TypeError thrown by `data.type` when `data` is `null`. -/
def nullTypeMessage : String := "Cannot read properties of null (reading 'type')"

/-- What the closure of one `wss.on('connection', ...)` call holds: the browser channel
`ws`, the session `realtimeClient`, the identifier (the value of `Date.now()`, whose decimal
text is the key), and the numbers of listeners registered on the session for `message` and
for `error`.  `upstreamCloses` logs the sockets on which a `disconnect()` made by the relay
called `close()`, oldest first. -/
structure Connection where
  ws : Channel
  realtimeClient : World
  connectionId : ℕ
  messageListeners : ℕ
  errorListeners : ℕ
  upstreamCloses : List ℕ

/-- The state of a connection when it is accepted. -/
def Connection.fresh (now : ℕ) (apiKey : Option String) : Connection :=
  { ws := { readyState := ReadyState.OPEN, sent := [] },
    realtimeClient := World.fresh apiKey, connectionId := now,
    messageListeners := 0, errorListeners := 0, upstreamCloses := [] }

/-- The call `realtimeClient.disconnect()` made by the relay. -/
def Connection.disconnect (c : Connection) : Connection :=
  { c with realtimeClient := (disconnectLog c.realtimeClient).1,
           upstreamCloses := c.upstreamCloses ++ (disconnectLog c.realtimeClient).2 }

/-- The `message` handler of the browser channel.  An exception (of `JSON.parse`, of
`data.type` on `null`, of `connect()`) is caught and reported to the browser as an error
frame.  A `connect` command that succeeds registers one more `message` listener and one
more `error` listener and acknowledges with the `connected` frame. -/
def Connection.onMessage (c : Connection) : Frame → Connection
  | Frame.malformed syntaxError => { c with ws := c.ws.send (errorFrame syntaxError) }
  | Frame.json Json.null => { c with ws := c.ws.send (errorFrame nullTypeMessage) }
  | Frame.json data =>
    if isText (data.prop "type") "connect" then
      match connect c.realtimeClient with
      | Except.error message => { c with ws := c.ws.send (errorFrame message) }
      | Except.ok w' =>
        { c with realtimeClient := w', messageListeners := c.messageListeners + 1,
                 errorListeners := c.errorListeners + 1, ws := c.ws.send connectedFrame }
    else if isText (data.prop "type") "audio_data" then
      { c with realtimeClient := (sendAudioData c.realtimeClient (data.prop "audio")).1 }
    else if isText (data.prop "type") "text_message" then
      { c with realtimeClient := (sendTextMessage c.realtimeClient (data.prop "text")).1 }
    else if isText (data.prop "type") "commit_audio" then
      { c with realtimeClient := (commitAudio c.realtimeClient).1 }
    else if isText (data.prop "type") "disconnect" then c.disconnect
    else c

/-- The listeners the relay registered on the session, run on one emitted event: each
`message` listener writes the event, each `error` listener an error frame. -/
def Connection.deliver (c : Connection) : Emitted → Connection
  | Emitted.message event => { c with ws := c.ws.sendTimes event c.messageListeners }
  | Emitted.error message =>
    { c with ws := c.ws.sendTimes (errorFrame message) c.errorListeners }

/-- The session of the connection moves from its state to `w'`; what it emitted on the way
goes through the listeners, in order. -/
def Connection.upstream (c : Connection) (w' : World) : Connection :=
  (w'.emitted.drop c.realtimeClient.emitted.length).foldl Connection.deliver
    { c with realtimeClient := w' }

/-- A frame arrives from the upstream API on a socket of the session. -/
def Connection.upstreamMessage (P : Platform) (c : Connection) (frame : Frame) : Connection :=
  c.upstream (RealtimeVoice.onMessage P c.realtimeClient frame)

/-- The relay: every connection accepted so far, by order of accept, and the map
`connections`, in insertion order, each entry a key and the connection whose record
`{clientWs, realtimeClient}` it holds (by its index in `accepted`). -/
structure Relay where
  accepted : List Connection
  connections : List (ℕ × ℕ)

/-- The relay at start. -/
def Relay.empty : Relay :=
  { accepted := [], connections := [] }

/-- The method `Map.set`: the value of an existing key is replaced, a new key is added. -/
def mapSet (m : List (ℕ × ℕ)) (key value : ℕ) : List (ℕ × ℕ) :=
  if m.any (fun e => decide (e.1 = key)) then
    m.map fun e => if e.1 = key then (key, value) else e
  else m ++ [(key, value)]

/-- The method `Map.get`. -/
def mapGet (m : List (ℕ × ℕ)) (key : ℕ) : Option ℕ :=
  (m.find? fun e => decide (e.1 = key)).map Prod.snd

/-- The method `Map.delete`. -/
def mapDelete (m : List (ℕ × ℕ)) (key : ℕ) : List (ℕ × ℕ) :=
  m.filter fun e => decide (e.1 ≠ key)

/-- The handler of `wss.on('connection')` when the clock reads `now`: a session is created
and the record is stored under the key made of `now`. -/
def Relay.accept (r : Relay) (now : ℕ) (apiKey : Option String) : Relay :=
  { accepted := r.accepted ++ [Connection.fresh now apiKey],
    connections := mapSet r.connections now r.accepted.length }

/-- A frame from the browser of connection `i`. -/
def Relay.onMessage (r : Relay) (i : ℕ) (frame : Frame) : Relay :=
  match r.accepted[i]? with
  | none => r
  | some c =>
    if c.ws.readyState = ReadyState.CLOSED then r
    else { r with accepted := r.accepted.set i (c.onMessage frame) }

/-- The browser channel of the connection has closed. -/
def Connection.closed (c : Connection) : Connection :=
  { c with ws := { c.ws with readyState := ReadyState.CLOSED } }

/-- The call `connection.realtimeClient.disconnect()` on the connection whose record was
found in the map. -/
def disconnectAt (accepted : List Connection) (j : ℕ) : List Connection :=
  match accepted[j]? with
  | some cj => accepted.set j cj.disconnect
  | none => accepted

/-- The `close` handler of the browser channel of connection `i`: the record stored under
the identifier of the connection is looked up; if there is one, the session of that record
is disconnected and the record deleted. -/
def Relay.onClose (r : Relay) (i : ℕ) : Relay :=
  match r.accepted[i]? with
  | none => r
  | some c =>
    if c.ws.readyState = ReadyState.CLOSED then r
    else
      match mapGet r.connections c.connectionId with
      | none => { r with accepted := r.accepted.set i c.closed }
      | some j =>
        { accepted := disconnectAt (r.accepted.set i c.closed) j,
          connections := mapDelete r.connections c.connectionId }

/-- The command `{type: 'connect'}`. -/
def connectCommand : Frame :=
  Frame.json (Json.obj [("type", Json.str "connect")])

/-- The command `{type: 'disconnect'}`. -/
def disconnectCommand : Frame :=
  Frame.json (Json.obj [("type", Json.str "disconnect")])

/-- A step of the session of the connection: a socket event or a timer. -/
def Connection.sessionStep (c : Connection) (st : Step) : Connection :=
  c.upstream (step c.realtimeClient st)

/-- A sequence of events arrives from the upstream API, one frame each. -/
def Connection.upstreamMessages (P : Platform) (c : Connection) (events : List Json) :
    Connection :=
  events.foldl (fun c' event => c'.upstreamMessage P (Frame.json event)) c

/-- An upstream text delta. -/
def textDeltaEvent : Json :=
  Json.obj [("type", Json.str "response.text.delta"), ("delta", Json.str "Hi")]

/-- A connection whose browser sent `connect` once and whose upstream socket is open. -/
def connectedOnce : Connection :=
  ((Connection.fresh 1000 (some "sk-test")).onMessage connectCommand).sessionStep
    (Step.socketOpen 0)

/-- A connection whose browser sent `connect` twice; the socket of the second `connect()`
is open. -/
def connectedTwice : Connection :=
  (((Connection.fresh 1000 (some "sk-test")).onMessage connectCommand).onMessage
    connectCommand).sessionStep (Step.socketOpen 1)

/-- The identifiers of the connections accepted so far, by order of accept. -/
def Relay.ids (r : Relay) : List ℕ :=
  r.accepted.map Connection.connectionId

/-- No two accepted connections have the same identifier, every record of the map is
stored under the identifier of the connection it belongs to, and every connection whose
browser channel has not closed has its record in the map. -/
def Relay.consistent (r : Relay) : Prop :=
  r.ids.Nodup ∧ (∀ e ∈ r.connections, r.ids[e.2]? = some e.1) ∧
    ∀ (i : ℕ) (c : Connection), r.accepted[i]? = some c →
      ¬ c.ws.readyState = ReadyState.CLOSED →
      mapGet r.connections c.connectionId = some i

/-- Two connections accepted while the clock reads 1000 and 1001; the first browser has
sent `connect`. -/
def twoTickRelay : Relay :=
  ((Relay.empty.accept 1000 (some "sk-test")).accept 1001 (some "sk-test")).onMessage 0
    connectCommand

/-- Two connections accepted while the clock reads 1000; both browsers have sent
`connect`. -/
def sameTickRelay : Relay :=
  (((Relay.empty.accept 1000 (some "sk-test")).accept 1000 (some "sk-test")).onMessage 0
    connectCommand).onMessage 1 connectCommand

/-! # Theorems -/

/-! ## Base64 transport of PCM16 -/


theorem b64Val_b64Char (i : Nat) (h : i < 64) : b64Val (b64Char i) = some i := by
  unfold b64Char
  split_ifs with h1 h2 h3 h4
  · simp only [b64Val]
    rw [if_pos (by omega)]
    congr 1
    omega
  · simp only [b64Val]
    rw [if_neg (by omega), if_pos (by omega)]
    congr 1
    omega
  · simp only [b64Val]
    rw [if_neg (by omega), if_neg (by omega), if_pos (by omega)]
    congr 1
    omega
  · subst h4
    rfl
  · have : i = 63 := by omega
    subst this
    rfl

theorem b64Char_not_whitespace (i : Nat) : isAsciiWhitespace (b64Char i) = false := by
  unfold b64Char isAsciiWhitespace
  split_ifs <;> simp <;> omega

theorem b64Char_ne_pad (i : Nat) : b64Char i ≠ 61 := by
  unfold b64Char
  split_ifs <;> omega

theorem b64Encode_filter (bs : List Nat) :
    (b64Encode bs).filter (fun c => !isAsciiWhitespace c) = b64Encode bs := by
  induction bs using b64Encode.induct with
  | case1 => rfl
  | case2 a =>
    have hp : isAsciiWhitespace 61 = false := by decide
    simp [b64Encode, b64Char_not_whitespace, hp]
  | case3 a b =>
    have hp : isAsciiWhitespace 61 = false := by decide
    simp [b64Encode, b64Char_not_whitespace, hp]
  | case4 a b c rest ih => simp [b64Encode, b64Char_not_whitespace, ih]

theorem b64Encode_length (bs : List Nat) : (b64Encode bs).length % 4 = 0 := by
  induction bs using b64Encode.induct with
  | case1 => rfl
  | case2 a => simp [b64Encode]
  | case3 a b => simp [b64Encode]
  | case4 a b c rest ih =>
    simp only [b64Encode, List.length_cons]
    omega

theorem b64Digits_length (bs : List Nat) : (b64Digits bs).length % 4 ≠ 1 := by
  induction bs using b64Digits.induct with
  | case1 => simp [b64Digits]
  | case2 a => simp [b64Digits]
  | case3 a b => simp [b64Digits]
  | case4 a b c rest ih =>
    simp only [b64Digits, List.length_cons]
    omega

theorem stripPadding_b64Encode (bs : List Nat) : stripPadding (b64Encode bs) = b64Digits bs := by
  induction bs using b64Encode.induct with
  | case1 => rfl
  | case2 a => simp [b64Encode, b64Digits, stripPadding, b64Char_ne_pad]
  | case3 a b => simp [b64Encode, b64Digits, stripPadding, b64Char_ne_pad]
  | case4 a b c rest ih => simp [b64Encode, b64Digits, stripPadding, b64Char_ne_pad, ih]

theorem b64Decode_b64Digits (bs : List Nat) (h : ∀ b ∈ bs, b < 256) :
    (b64Values (b64Digits bs)).bind b64DecodeValues = some bs := by
  induction bs using b64Digits.induct with
  | case1 => rfl
  | case2 a =>
    have ha : a < 256 := h a (by simp)
    simp only [b64Digits, b64Values, b64Val_b64Char (a / 4) (by omega),
      b64Val_b64Char (a % 4 * 16) (by omega), Option.some_bind, b64DecodeValues]
    congr 2
    omega
  | case3 a b =>
    have ha : a < 256 := h a (by simp)
    have hb : b < 256 := h b (by simp)
    simp only [b64Digits, b64Values, b64Val_b64Char (a / 4) (by omega),
      b64Val_b64Char (a % 4 * 16 + b / 16) (by omega),
      b64Val_b64Char (b % 16 * 4) (by omega), Option.some_bind, b64DecodeValues]
    congr 2
    · omega
    · congr 1
      omega
  | case4 a b c rest ih =>
    have ha : a < 256 := h a (by simp)
    have hb : b < 256 := h b (by simp)
    have hc : c < 256 := h c (by simp)
    have hrest : ∀ x ∈ rest, x < 256 := fun x hx => h x (by simp [hx])
    have ih' := ih hrest
    cases hv : b64Values (b64Digits rest) with
    | none => simp [hv] at ih'
    | some vs =>
      rw [hv] at ih'
      simp only [Option.some_bind] at ih'
      simp only [b64Digits, b64Values, b64Val_b64Char (a / 4) (by omega),
        b64Val_b64Char (a % 4 * 16 + b / 16) (by omega),
        b64Val_b64Char (b % 16 * 4 + c / 64) (by omega),
        b64Val_b64Char (c % 64) (by omega), hv, Option.some_bind, b64DecodeValues, ih']
      congr 2
      · omega
      · congr 1
        · omega
        · congr 1
          omega

theorem atob_b64Encode (bs : List Nat) (h : ∀ b ∈ bs, b < 256) :
    atob (b64Encode bs) = some bs := by
  simp only [atob, b64Encode_filter, b64Encode_length, if_true, stripPadding_b64Encode,
    if_neg (b64Digits_length bs), b64Decode_b64Digits bs h]

theorem int16ArrayBuffer_lt (samples : List ℤ) : ∀ b ∈ int16ArrayBuffer samples, b < 256 := by
  induction samples with
  | nil => simp [int16ArrayBuffer]
  | cons s rest ih =>
    intro b hb
    simp only [int16ArrayBuffer, int16Bytes, List.cons_append, List.nil_append,
      List.mem_cons] at hb
    rcases hb with hb | hb | hb
    · omega
    · omega
    · exact ih b hb

theorem int16OfBytes_int16Bytes (s : ℤ) (h : -32768 ≤ s ∧ s ≤ 32767) :
    int16OfBytes ((s % 65536).toNat % 256) ((s % 65536).toNat / 256) = s := by
  unfold int16OfBytes
  split_ifs with h1 <;> omega

theorem newInt16Array_int16ArrayBuffer (samples : List ℤ)
    (h : ∀ s ∈ samples, -32768 ≤ s ∧ s ≤ 32767) :
    newInt16Array (int16ArrayBuffer samples) = some samples := by
  induction samples with
  | nil => rfl
  | cons s rest ih =>
    have hs := h s (by simp)
    have hrest := ih (fun x hx => h x (by simp [hx]))
    have hb : int16ArrayBuffer (s :: rest) =
        (s % 65536).toNat % 256 :: (s % 65536).toNat / 256 :: int16ArrayBuffer rest := rfl
    rw [hb, newInt16Array, hrest, int16OfBytes_int16Bytes s hs]

theorem arrayBufferToBase64_bytes (bs : List Nat) (h : ∀ b ∈ bs, b < 256) :
    arrayBufferToBase64 bs = some (b64Encode bs) := by
  have hmap : bs.map fromCharCode = bs := by
    conv_rhs => rw [← List.map_id bs]
    apply List.map_congr_left
    intro b hb
    have := h b hb
    simp only [fromCharCode, id]
    omega
  have hall : (bs.all fun c => decide (c ≤ 255)) = true := by
    rw [List.all_eq_true]
    intro b hb
    have := h b hb
    simp only [decide_eq_true_eq]
    omega
  simp only [arrayBufferToBase64, btoa, hmap, hall, if_true]

theorem base64ToArrayBuffer_b64Encode (bs : List Nat) (h : ∀ b ∈ bs, b < 256) :
    base64ToArrayBuffer (b64Encode bs) = some bs := by
  have hmap : bs.map toUint8 = bs := by
    conv_rhs => rw [← List.map_id bs]
    apply List.map_congr_left
    intro b hb
    have := h b hb
    simp only [toUint8, id]
    omega
  simp only [base64ToArrayBuffer, atob_b64Encode bs h, Option.map_some', hmap]

/-- C1.  For every sequence of 16-bit signed samples, the bytes of the sample buffer encoded
by `arrayBufferToBase64`, decoded by `base64ToArrayBuffer` and viewed as an `Int16Array`
(as `playAudioFromBase64` does) are again the original samples, in the same number. -/
theorem pcm16_base64_roundtrip (samples : List ℤ)
    (h : ∀ s ∈ samples, -32768 ≤ s ∧ s ≤ 32767) :
    ∃ base64 arrayBuffer pcm16Data,
      arrayBufferToBase64 (int16ArrayBuffer samples) = some base64 ∧
      base64ToArrayBuffer base64 = some arrayBuffer ∧
      newInt16Array arrayBuffer = some pcm16Data ∧
      pcm16Data = samples ∧ pcm16Data.length = samples.length :=
  ⟨b64Encode (int16ArrayBuffer samples), int16ArrayBuffer samples, samples,
    arrayBufferToBase64_bytes _ (int16ArrayBuffer_lt samples),
    base64ToArrayBuffer_b64Encode _ (int16ArrayBuffer_lt samples),
    newInt16Array_int16ArrayBuffer samples h, rfl, rfl⟩

theorem pcm16_base64_roundtrip_witness :
    (∀ s ∈ [0, 1, -1, 32767, -32768, 12345], -32768 ≤ s ∧ s ≤ (32767 : ℤ)) ∧
    ∃ base64 arrayBuffer pcm16Data,
      arrayBufferToBase64 (int16ArrayBuffer [0, 1, -1, 32767, -32768, 12345]) = some base64 ∧
      base64ToArrayBuffer base64 = some arrayBuffer ∧
      newInt16Array arrayBuffer = some pcm16Data ∧
      pcm16Data = [0, 1, -1, 32767, -32768, 12345] ∧
      pcm16Data.length = [0, 1, -1, 32767, -32768, (12345 : ℤ)].length :=
  ⟨by decide, pcm16_base64_roundtrip [0, 1, -1, 32767, -32768, 12345] (by decide)⟩

/-- The samples `0, 1, -1, 32767, -32768, 12345` travel as the text `AAABAP///38AgDkw`. -/
theorem arrayBufferToBase64_sample_text :
    arrayBufferToBase64 (int16ArrayBuffer [0, 1, -1, 32767, -32768, 12345]) =
      some [65, 65, 65, 66, 65, 80, 47, 47, 47, 51, 56, 65, 103, 68, 107, 119] := by decide

/-! ## Quantisation -/

theorem toInt16_of_range (n : ℤ) (h1 : -32768 ≤ n) (h2 : n ≤ 32767) : toInt16 n = n := by
  unfold toInt16
  omega

theorem Math_round_scaled_range (c : ℚ) (h1 : -1 ≤ c) (h2 : c ≤ 1) :
    -32767 ≤ Math_round (c * 32767) ∧ Math_round (c * 32767) ≤ 32767 := by
  unfold Math_round
  constructor
  · rw [Int.le_floor]
    push_cast
    linarith
  · have : ⌊c * 32767 + 1 / 2⌋ < 32768 := by
      rw [Int.floor_lt]
      push_cast
      linarith
    omega

theorem clamp_range (x : ℚ) : -1 ≤ max (-1) (min 1 x) ∧ max (-1) (min 1 x) ≤ 1 :=
  ⟨le_max_left _ _, max_le (by norm_num) (min_le_left _ _)⟩

theorem convertSample_finite (x : ℚ) :
    convertSample (some x) = Math_round (max (-1) (min 1 x) * 32767) := by
  have h := Math_round_scaled_range _ (clamp_range x).1 (clamp_range x).2
  simp only [convertSample]
  exact toInt16_of_range _ (by omega) (by omega)

theorem Math_round_int (n : ℤ) : Math_round (n : ℚ) = n := by
  unfold Math_round
  rw [Int.floor_eq_iff]
  constructor <;> linarith

/-- C2.  The function `convertToPCM16` keeps the length and maps each sample `x` to
`round(clamp(x, -1, 1) * 32767)`: 1 gives 32767, -1 gives -32767, every input above 1 gives
32767, every input below -1 gives -32767, and every result (that of `NaN` included) lies
in `[-32767, 32767]`, so the store into the 16-bit array never wraps. -/
theorem convertToPCM16_spec (float32Array : List Num) :
    (convertToPCM16 float32Array).length = float32Array.length ∧
    (∀ (i : ℕ) (x : ℚ), float32Array[i]? = some (some x) →
      (convertToPCM16 float32Array)[i]? = some (Math_round (max (-1) (min 1 x) * 32767))) ∧
    convertToPCM16 [some 1] = [32767] ∧
    convertToPCM16 [some (-1)] = [-32767] ∧
    (∀ x : ℚ, 1 < x → convertToPCM16 [some x] = [32767]) ∧
    (∀ x : ℚ, x < -1 → convertToPCM16 [some x] = [-32767]) ∧
    (∀ y ∈ convertToPCM16 float32Array, -32767 ≤ y ∧ y ≤ 32767) := by
  have hone : Math_round ((1 : ℚ) * 32767) = 32767 := by
    have := Math_round_int 32767
    norm_num at this ⊢
    exact this
  have hneg : Math_round ((-1 : ℚ) * 32767) = -32767 := by
    have := Math_round_int (-32767)
    norm_num at this ⊢
    exact this
  refine ⟨by simp [convertToPCM16], ?_, ?_, ?_, ?_, ?_, ?_⟩
  · intro i x hx
    simp only [convertToPCM16, List.getElem?_map, hx, Option.map_some', convertSample_finite]
  · simp only [convertToPCM16, List.map_cons, List.map_nil, convertSample_finite]
    rw [min_self, max_eq_right (by norm_num), hone]
  · simp only [convertToPCM16, List.map_cons, List.map_nil, convertSample_finite]
    rw [min_eq_right (by norm_num), max_self, hneg]
  · intro x hx
    simp only [convertToPCM16, List.map_cons, List.map_nil, convertSample_finite]
    rw [min_eq_left hx.le, max_eq_right (by norm_num), hone]
  · intro x hx
    simp only [convertToPCM16, List.map_cons, List.map_nil, convertSample_finite]
    rw [min_eq_right (by linarith), max_eq_left hx.le, hneg]
  · intro y hy
    simp only [convertToPCM16, List.mem_map] at hy
    obtain ⟨x, _, rfl⟩ := hy
    cases x with
    | none => simp [convertSample]
    | some x =>
      rw [convertSample_finite]
      exact Math_round_scaled_range _ (clamp_range x).1 (clamp_range x).2

theorem convertToPCM16_spec_witness :
    (1 : ℚ) < 2 ∧ convertToPCM16 [some 2] = [32767] ∧
    (-3 : ℚ) < -1 ∧ convertToPCM16 [some (-3)] = [-32767] ∧
    (convertToPCM16 [some (1 / 2), none, some 2]).length = 3 :=
  ⟨by norm_num, (convertToPCM16_spec [some 2]).2.2.2.2.1 2 (by norm_num),
    by norm_num, (convertToPCM16_spec [some (-3)]).2.2.2.2.2.1 (-3) (by norm_num),
    (convertToPCM16_spec [some (1 / 2), none, some 2]).1⟩

/-! ## Decode path -/

/-- C5.  The decode loop of `playAudioFromBase64` turns every 16-bit signed sample `s` into
`s / 32768`, a value in `[-1, 1)`, and the channel has as many samples as the PCM16 data. -/
theorem channelDataOfPCM16_range (pcm16Data : List ℤ)
    (h : ∀ s ∈ pcm16Data, -32768 ≤ s ∧ s ≤ 32767) :
    (channelDataOfPCM16 pcm16Data).length = pcm16Data.length ∧
    ∀ (i : ℕ) (s : ℤ), pcm16Data[i]? = some s →
      (channelDataOfPCM16 pcm16Data)[i]? = some ((s : ℚ) / 32768) ∧
      (-1 : ℚ) ≤ (s : ℚ) / 32768 ∧ (s : ℚ) / 32768 < 1 := by
  refine ⟨by simp only [channelDataOfPCM16, List.length_map], ?_⟩
  intro i s hs
  have hmem : s ∈ pcm16Data := List.getElem?_mem hs
  obtain ⟨h1, h2⟩ := h s hmem
  have h1q : (-32768 : ℚ) ≤ s := by exact_mod_cast h1
  have h2q : (s : ℚ) ≤ 32767 := by exact_mod_cast h2
  refine ⟨by simp only [channelDataOfPCM16, List.getElem?_map, hs, Option.map_some'], ?_, ?_⟩
  · rw [le_div_iff₀ (by norm_num)]
    linarith
  · rw [div_lt_iff₀ (by norm_num)]
    linarith

theorem channelDataOfPCM16_range_witness :
    (∀ s ∈ [-32768, 0, 32767], -32768 ≤ s ∧ s ≤ (32767 : ℤ)) ∧
    (channelDataOfPCM16 [-32768, 0, 32767]).length = 3 ∧
    (channelDataOfPCM16 [-32768, 0, 32767])[0]? = some (((-32768 : ℤ) : ℚ) / 32768) ∧
    (channelDataOfPCM16 [-32768, 0, 32767])[2]? = some (((32767 : ℤ) : ℚ) / 32768) :=
  ⟨by decide, (channelDataOfPCM16_range [-32768, 0, 32767] (by decide)).1,
    ((channelDataOfPCM16_range [-32768, 0, 32767] (by decide)).2 0 (-32768) (by decide)).1,
    ((channelDataOfPCM16_range [-32768, 0, 32767] (by decide)).2 2 32767 (by decide)).1⟩

/-- Every sample of an `Int16Array` view is a 16-bit signed integer. -/
theorem newInt16Array_range (arrayBuffer : List Nat) (hb : ∀ b ∈ arrayBuffer, b < 256) :
    ∀ pcm16Data, newInt16Array arrayBuffer = some pcm16Data →
      ∀ s ∈ pcm16Data, -32768 ≤ s ∧ s ≤ 32767 := by
  induction arrayBuffer using newInt16Array.induct with
  | case1 =>
    intro pcm h s hs
    simp only [newInt16Array, Option.some.injEq] at h
    subst h
    simp at hs
  | case2 b =>
    intro pcm h
    simp [newInt16Array] at h
  | case3 lo hi rest samples hrest ih =>
    intro pcm h s hs
    have hlo : lo < 256 := hb lo (by simp)
    have hhi : hi < 256 := hb hi (by simp)
    simp only [newInt16Array, hrest, Option.some.injEq] at h
    subst h
    rcases List.mem_cons.mp hs with rfl | hs
    · unfold int16OfBytes
      split_ifs <;> omega
    · exact ih (fun b hb' => hb b (by simp [hb'])) samples hrest s hs
  | case4 lo hi rest hrest ih =>
    intro pcm h
    simp [newInt16Array, hrest] at h

/-- The whole decode path on the text that the encode path makes of a non-empty buffer of
16-bit samples: the channel data are the samples divided by 32768. -/
theorem playAudioChannelData_encoded (samples : List ℤ) (hne : samples ≠ [])
    (h : ∀ s ∈ samples, -32768 ≤ s ∧ s ≤ 32767) :
    playAudioChannelData (b64Encode (int16ArrayBuffer samples))
      = some (channelDataOfPCM16 samples) := by
  have hlen : ¬ samples.length = 0 := fun h0 => hne (List.length_eq_zero.mp h0)
  simp only [playAudioChannelData,
    base64ToArrayBuffer_b64Encode _ (int16ArrayBuffer_lt samples), Option.some_bind,
    newInt16Array_int16ArrayBuffer samples h, hlen, if_false]

/-! ## Resampling -/

theorem Math_round_nonneg (x : ℚ) (h : 0 ≤ x) : 0 ≤ Math_round x := by
  unfold Math_round
  rw [Int.le_floor]
  push_cast
  linarith

theorem resample_index_bounds (L : ℕ) (R T : ℚ) (hR : 0 < R) (hT : 0 < T) (i : ℕ)
    (hi : (i : ℤ) < Math_round ((L : ℚ) / (R / T))) :
    0 ≤ ⌊(i : ℚ) * (R / T)⌋ ∧ ⌊(i : ℚ) * (R / T)⌋ ≤ (L : ℤ) - 1 := by
  have hr : 0 < R / T := div_pos hR hT
  constructor
  · exact Int.floor_nonneg.mpr (mul_nonneg (Nat.cast_nonneg _) hr.le)
  · have h1 : ((i : ℤ) + 1 : ℤ) ≤ ⌊(L : ℚ) / (R / T) + 1 / 2⌋ := hi
    rw [Int.le_floor] at h1
    push_cast at h1
    have h2 : (i : ℚ) + 1 / 2 ≤ (L : ℚ) / (R / T) := by linarith
    rw [le_div_iff₀ hr] at h2
    have h3 : (i : ℚ) * (R / T) < ((L : ℤ) : ℚ) := by
      push_cast
      nlinarith
    have := Int.floor_lt.mpr h3
    omega

/-! ### Rounding to binary64 and binary32 -/

theorem roundHalfEven_near (x : ℚ) : |(roundHalfEven x : ℚ) - x| ≤ 1 / 2 := by
  have h1 := Int.floor_le x
  have h2 := Int.lt_floor_add_one x
  unfold roundHalfEven
  rw [abs_le]
  split_ifs <;> push_cast <;> constructor <;> linarith

theorem roundHalfEven_nonneg (x : ℚ) (h : 0 ≤ x) : 0 ≤ roundHalfEven x := by
  have h0 : 0 ≤ ⌊x⌋ := Int.floor_nonneg.mpr h
  unfold roundHalfEven
  split_ifs <;> omega

theorem roundHalfEven_eq (x : ℚ) (m : ℤ) (h1 : (m : ℚ) - 1 / 2 < x) (h2 : x < (m : ℚ) + 1 / 2) :
    roundHalfEven x = m := by
  have hf1 := Int.floor_le x
  have hf2 := Int.lt_floor_add_one x
  have hlo : m - 1 ≤ ⌊x⌋ := by
    rw [Int.le_floor]; push_cast; linarith
  have hhi : ⌊x⌋ ≤ m := by
    have : ⌊x⌋ < m + 1 := by rw [Int.floor_lt]; push_cast; linarith
    omega
  rcases (by omega : ⌊x⌋ = m - 1 ∨ ⌊x⌋ = m) with hc | hc
  · have hc' : ((⌊x⌋ : ℤ) : ℚ) = (m : ℚ) - 1 := by rw [hc]; push_cast; ring
    unfold roundHalfEven
    rw [if_neg (by rw [hc']; linarith), if_pos (by rw [hc']; linarith), hc]
    ring
  · have hc' : ((⌊x⌋ : ℤ) : ℚ) = (m : ℚ) := by rw [hc]
    unfold roundHalfEven
    rw [if_pos (by rw [hc']; linarith), hc]

theorem roundHalfEven_tie_even (m : ℤ) (hm : m % 2 = 0) :
    roundHalfEven ((m : ℚ) + 1 / 2) = m := by
  have hf : ⌊(m : ℚ) + 1 / 2⌋ = m := by
    rw [Int.floor_eq_iff]; constructor <;> linarith
  unfold roundHalfEven
  rw [hf, if_neg (by linarith), if_neg (by linarith), if_pos hm]

theorem roundTo_zero (p : ℕ) (emin : ℤ) : roundTo p emin 0 = 0 := by
  have h : roundHalfEven 0 = 0 := roundHalfEven_eq 0 0 (by norm_num) (by norm_num)
  simp [roundTo, h]

theorem roundTo_nonneg (p : ℕ) (emin : ℤ) (x : ℚ) (h : 0 ≤ x) : 0 ≤ roundTo p emin x := by
  unfold roundTo
  have h2 : (0 : ℚ) < (2 : ℚ) ^ (max (Int.log 2 |x|) emin - ((p : ℤ) - 1)) := by positivity
  have h3 := roundHalfEven_nonneg _ (div_nonneg h h2.le)
  have h4 : (0 : ℚ) ≤ (roundHalfEven (x / (2 : ℚ) ^ (max (Int.log 2 |x|) emin - ((p : ℤ) - 1))) : ℚ) := by
    exact_mod_cast h3
  exact mul_nonneg h4 h2.le

theorem roundTo_error (p : ℕ) (emin : ℤ) (x : ℚ) :
    |roundTo p emin x - x| ≤ |x| / 2 ^ p + (2 : ℚ) ^ (emin - (p : ℤ)) := by
  by_cases hx : x = 0
  · subst hx
    rw [roundTo_zero]
    simp
    positivity
  have hpos : 0 < |x| := abs_pos.mpr hx
  set e := max (Int.log 2 |x|) emin with he
  have hu : (0 : ℚ) < (2 : ℚ) ^ (e - ((p : ℤ) - 1)) := by positivity
  have hnear := roundHalfEven_near (x / (2 : ℚ) ^ (e - ((p : ℤ) - 1)))
  have herr : |roundTo p emin x - x| ≤ (2 : ℚ) ^ (e - (p : ℤ)) := by
    have h1 : roundTo p emin x - x
        = ((roundHalfEven (x / (2 : ℚ) ^ (e - ((p : ℤ) - 1))) : ℚ)
            - x / (2 : ℚ) ^ (e - ((p : ℤ) - 1))) * (2 : ℚ) ^ (e - ((p : ℤ) - 1)) := by
      unfold roundTo
      rw [sub_mul, div_mul_cancel₀ _ hu.ne']
    rw [h1, abs_mul, abs_of_pos hu]
    have h2 : (2 : ℚ) ^ (e - ((p : ℤ) - 1)) = 2 * (2 : ℚ) ^ (e - (p : ℤ)) := by
      rw [show e - ((p : ℤ) - 1) = (e - (p : ℤ)) + 1 by ring, zpow_add_one₀ (by norm_num)]
      ring
    have h3 : (0 : ℚ) < (2 : ℚ) ^ (e - (p : ℤ)) := by positivity
    calc |(roundHalfEven (x / (2 : ℚ) ^ (e - ((p : ℤ) - 1))) : ℚ)
            - x / (2 : ℚ) ^ (e - ((p : ℤ) - 1))| * (2 : ℚ) ^ (e - ((p : ℤ) - 1))
        ≤ 1 / 2 * (2 : ℚ) ^ (e - ((p : ℤ) - 1)) := mul_le_mul_of_nonneg_right hnear hu.le
      _ = (2 : ℚ) ^ (e - (p : ℤ)) := by rw [h2]; ring
  have hsplit : (2 : ℚ) ^ (e - (p : ℤ)) ≤ |x| / 2 ^ p + (2 : ℚ) ^ (emin - (p : ℤ)) := by
    rcases le_total emin (Int.log 2 |x|) with hle | hle
    · have : e = Int.log 2 |x| := by rw [he]; exact max_eq_left hle
      rw [this, zpow_sub₀ (by norm_num), zpow_natCast]
      have h4 := Int.zpow_log_le_self (b := 2) (by norm_num) hpos
      have h5 : ((2 : ℕ) : ℚ) ^ Int.log 2 |x| ≤ |x| := h4
      have h6 : (0 : ℚ) < (2 : ℚ) ^ (emin - (p : ℤ)) := by positivity
      have h7 : (2 : ℚ) ^ Int.log 2 |x| / 2 ^ p ≤ |x| / 2 ^ p := by
        apply div_le_div_of_nonneg_right _ (by positivity)
        exact_mod_cast h5
      linarith
    · have : e = emin := by rw [he]; exact max_eq_right hle
      rw [this]
      have : (0 : ℚ) ≤ |x| / 2 ^ p := by positivity
      linarith
  exact herr.trans hsplit

theorem fl64_error (x : ℚ) : |fl64 x - x| ≤ |x| / 2 ^ 53 + 1 / 2 ^ 1075 := by
  have h := roundTo_error 53 (-1022) x
  have h2 : (2 : ℚ) ^ ((-1022 : ℤ) - ((53 : ℕ) : ℤ)) = 1 / 2 ^ 1075 := by
    rw [show ((-1022 : ℤ) - ((53 : ℕ) : ℤ)) = -((1075 : ℕ) : ℤ) by norm_num, zpow_neg, zpow_natCast]
    simp
  rw [h2] at h
  exact h

theorem roundTo_eq (p : ℕ) (emin : ℤ) (x : ℚ) (e m : ℤ) (hemin : emin ≤ e)
    (hlo : (2 : ℚ) ^ e ≤ |x|) (hhi : |x| < (2 : ℚ) ^ (e + 1))
    (h1 : (m : ℚ) - 1 / 2 < x / (2 : ℚ) ^ (e - ((p : ℤ) - 1)))
    (h2 : x / (2 : ℚ) ^ (e - ((p : ℤ) - 1)) < (m : ℚ) + 1 / 2) :
    roundTo p emin x = (m : ℚ) * (2 : ℚ) ^ (e - ((p : ℤ) - 1)) := by
  have hpos : 0 < |x| := lt_of_lt_of_le (by positivity) hlo
  have hlog : Int.log 2 |x| = e := by
    have a1 : e ≤ Int.log 2 |x| := (Int.zpow_le_iff_le_log (by norm_num) hpos).mp (by exact_mod_cast hlo)
    have a2 : Int.log 2 |x| < e + 1 := (Int.lt_zpow_iff_log_lt (by norm_num) hpos).mp (by exact_mod_cast hhi)
    omega
  unfold roundTo
  simp only [hlog, max_eq_left hemin]
  rw [roundHalfEven_eq _ m h1 h2]

theorem roundTo_eq_tie_even (p : ℕ) (emin : ℤ) (x : ℚ) (e m : ℤ) (hemin : emin ≤ e)
    (hlo : (2 : ℚ) ^ e ≤ |x|) (hhi : |x| < (2 : ℚ) ^ (e + 1))
    (h1 : x / (2 : ℚ) ^ (e - ((p : ℤ) - 1)) = (m : ℚ) + 1 / 2) (hm : m % 2 = 0) :
    roundTo p emin x = (m : ℚ) * (2 : ℚ) ^ (e - ((p : ℤ) - 1)) := by
  have hpos : 0 < |x| := lt_of_lt_of_le (by positivity) hlo
  have hlog : Int.log 2 |x| = e := by
    have a1 : e ≤ Int.log 2 |x| := (Int.zpow_le_iff_le_log (by norm_num) hpos).mp (by exact_mod_cast hlo)
    have a2 : Int.log 2 |x| < e + 1 := (Int.lt_zpow_iff_log_lt (by norm_num) hpos).mp (by exact_mod_cast hhi)
    omega
  unfold roundTo
  simp only [hlog, max_eq_left hemin]
  rw [h1, roundHalfEven_tie_even m hm]

theorem fl64_zero : fl64 0 = 0 := roundTo_zero 53 (-1022)

theorem fl32_zero : fl32 0 = 0 := roundTo_zero 24 (-126)

theorem fl64_nonneg (x : ℚ) (h : 0 ≤ x) : 0 ≤ fl64 x := roundTo_nonneg 53 (-1022) x h

theorem fl64_le (x : ℚ) (h : 0 ≤ x) : fl64 x ≤ x + x / 2 ^ 53 + 1 / 2 ^ 1075 := by
  have h1 := fl64_error x
  rw [abs_of_nonneg h, abs_le] at h1
  linarith [h1.2]

theorem fl64_ge (x : ℚ) (h : 0 ≤ x) : x - x / 2 ^ 53 - 1 / 2 ^ 1075 ≤ fl64 x := by
  have h1 := fl64_error x
  rw [abs_of_nonneg h, abs_le] at h1
  linarith [h1.1]

theorem fl64_eq (x y : ℚ) (e m : ℤ) (hemin : -1022 ≤ e)
    (hlo : (2 : ℚ) ^ e ≤ |x|) (hhi : |x| < (2 : ℚ) ^ (e + 1))
    (h1 : (m : ℚ) - 1 / 2 < x / (2 : ℚ) ^ (e - 52))
    (h2 : x / (2 : ℚ) ^ (e - 52) < (m : ℚ) + 1 / 2)
    (hy : y = (m : ℚ) * (2 : ℚ) ^ (e - 52)) : fl64 x = y := by
  rw [hy]
  exact roundTo_eq 53 (-1022) x e m hemin hlo hhi h1 h2

theorem fl32_eq (x y : ℚ) (e m : ℤ) (hemin : -126 ≤ e)
    (hlo : (2 : ℚ) ^ e ≤ |x|) (hhi : |x| < (2 : ℚ) ^ (e + 1))
    (h1 : (m : ℚ) - 1 / 2 < x / (2 : ℚ) ^ (e - 23))
    (h2 : x / (2 : ℚ) ^ (e - 23) < (m : ℚ) + 1 / 2)
    (hy : y = (m : ℚ) * (2 : ℚ) ^ (e - 23)) : fl32 x = y := by
  rw [hy]
  exact roundTo_eq 24 (-126) x e m hemin hlo hhi h1 h2

theorem fl64_eq_tie_even (x y : ℚ) (e m : ℤ) (hemin : -1022 ≤ e)
    (hlo : (2 : ℚ) ^ e ≤ |x|) (hhi : |x| < (2 : ℚ) ^ (e + 1))
    (h1 : x / (2 : ℚ) ^ (e - 52) = (m : ℚ) + 1 / 2) (hm : m % 2 = 0)
    (hy : y = (m : ℚ) * (2 : ℚ) ^ (e - 52)) : fl64 x = y := by
  rw [hy]
  exact roundTo_eq_tie_even 53 (-1022) x e m hemin hlo hhi h1 hm

/-! ### The run of `resampleAudio` -/

theorem ratio_lower (L : ℕ) (R T : ℚ) (hT : 0 < T) (hL1 : 1 ≤ L)
    (hL : (L : ℚ) * T ≤ R * 2 ^ 49) : (L : ℚ) ≤ fl64 (R / T) * 2 ^ 50 := by
  have h1 : (L : ℚ) ≤ R / T * 2 ^ 49 := by
    rw [div_mul_eq_mul_div, le_div_iff₀ hT]
    exact hL
  have hL1' : (1 : ℚ) ≤ (L : ℚ) := by exact_mod_cast hL1
  have h0 : 0 ≤ R / T := by
    have : (0 : ℚ) ≤ R / T * 2 ^ 49 := by linarith
    by_contra hneg
    push_neg at hneg
    have : R / T * 2 ^ 49 < 0 := mul_neg_of_neg_of_pos hneg (by norm_num)
    linarith
  have h2 := fl64_ge (R / T) h0
  norm_num at h1 h2 ⊢
  linarith

theorem resample_reads (L : ℕ) (R T : ℚ) (hT : 0 < T) (hL1 : 1 ≤ L)
    (hL : (L : ℚ) * T ≤ R * 2 ^ 49) (i : ℕ)
    (hi : (i : ℤ) < Math_round (fl64 ((L : ℚ) / fl64 (R / T)))) :
    0 ≤ ⌊fl64 ((i : ℚ) * fl64 (R / T))⌋ ∧ ⌊fl64 ((i : ℚ) * fl64 (R / T))⌋ ≤ (L : ℤ) - 1 := by
  have hr := ratio_lower L R T hT hL1 hL
  have hL1' : (1 : ℚ) ≤ (L : ℚ) := by exact_mod_cast hL1
  set r := fl64 (R / T) with hrdef
  have hrpos : 0 < r := by
    by_contra hneg
    push_neg at hneg
    have : r * 2 ^ 50 ≤ 0 := mul_nonpos_of_nonpos_of_nonneg hneg (by norm_num)
    linarith
  have hxnn : 0 ≤ (L : ℚ) / r := div_nonneg (by linarith) hrpos.le
  have hq := fl64_le ((L : ℚ) / r) hxnn
  set q := fl64 ((L : ℚ) / r) with hqdef
  have hpnn : 0 ≤ (i : ℚ) * r := mul_nonneg (Nat.cast_nonneg _) hrpos.le
  have hs := fl64_le ((i : ℚ) * r) hpnn
  have hsnn := fl64_nonneg ((i : ℚ) * r) hpnn
  set s := fl64 ((i : ℚ) * r) with hsdef
  refine ⟨Int.floor_nonneg.mpr hsnn, ?_⟩
  have h1 : ((i : ℤ) + 1 : ℤ) ≤ ⌊q + 1 / 2⌋ := hi
  rw [Int.le_floor] at h1
  push_cast at h1
  have hxr : (L : ℚ) / r * r = L := div_mul_cancel₀ _ hrpos.ne'
  have h2 : (i : ℚ) * r ≤ ((L : ℚ) / r + (L : ℚ) / r / 2 ^ 53 + 1 / 2 ^ 1075 - 1 / 2) * r :=
    mul_le_mul_of_nonneg_right (by linarith) hrpos.le
  have h3 : ((L : ℚ) / r + (L : ℚ) / r / 2 ^ 53 + 1 / 2 ^ 1075 - 1 / 2) * r
      = (L : ℚ) + (L : ℚ) / 2 ^ 53 + (1 / 2 ^ 1075 - 1 / 2) * r := by
    field_simp
    ring
  rw [h3] at h2
  have h4 : s < (L : ℚ) := by
    norm_num at h2 hs hr ⊢
    linarith
  have h5 : ⌊s⌋ < (L : ℤ) := Int.floor_lt.mpr (by exact_mod_cast h4)
  omega

theorem Math_round_small (q : ℚ) (h0 : 0 ≤ q) (h1 : q < 1 / 2) : Math_round q = 0 := by
  unfold Math_round
  rw [Int.floor_eq_iff]
  constructor <;> push_cast <;> linarith

theorem toFloat64_finite (x : ℚ) (h : |fl64 x| < 2 ^ 1024) :
    toFloat64 x = Float64.finite (fl64 x) := by
  unfold toFloat64
  rw [if_neg (not_le.mpr h)]

theorem toFloat64_infinite (x : ℚ) (h : (2 : ℚ) ^ 1024 ≤ |fl64 x|) :
    toFloat64 x = Float64.infinite := by
  unfold toFloat64
  rw [if_pos h]

theorem div64_of_ne (a b : ℚ) (hb : b ≠ 0) : div64 a b = toFloat64 (a / b) := by
  unfold div64
  rw [if_neg hb]

theorem resampleAudio_infinite (inputData : List Num) (R T : ℚ) (hRT : R ≠ T)
    (h : div64 R T = Float64.infinite) : resampleAudio inputData R T = some [] := by
  simp only [resampleAudio, if_neg hRT, h]

theorem resampleAudio_nan (inputData : List Num) (R T r : ℚ) (hRT : R ≠ T)
    (h : div64 R T = Float64.finite r)
    (h2 : div64 (inputData.length : ℚ) r = Float64.nan) :
    resampleAudio inputData R T = some [] := by
  simp only [resampleAudio, if_neg hRT, h, h2]

theorem resampleAudio_finite (inputData : List Num) (R T r q : ℚ) (hRT : R ≠ T)
    (h : div64 R T = Float64.finite r)
    (h2 : div64 (inputData.length : ℚ) r = Float64.finite q)
    (h3 : 0 ≤ Math_round q) (h4 : Math_round q < 2 ^ 53) :
    resampleAudio inputData R T
      = some ((List.range (Math_round q).toNat).map (resampleAt inputData r)) := by
  have h5 : ¬ (Math_round q < 0 ∨ 2 ^ 53 ≤ Math_round q) := by omega
  simp only [resampleAudio, if_neg hRT, h, h2, if_neg h5]

theorem resampleAudio_run (inputData : List Num) (R T : ℚ) (hT : 0 < T) (hRT : R ≠ T)
    (hL53 : inputData.length < 2 ^ 53)
    (hL : (inputData.length : ℚ) * T ≤ R * 2 ^ 49) :
    0 ≤ Math_round (fl64 ((inputData.length : ℚ) / fl64 (R / T))) ∧
    resampleAudio inputData R T
      = some ((List.range (Math_round (fl64 ((inputData.length : ℚ) / fl64 (R / T)))).toNat).map
          (resampleAt inputData (fl64 (R / T)))) := by
  have hdiv := div64_of_ne R T hT.ne'
  rcases Nat.eq_zero_or_pos inputData.length with h0 | hpos
  · have hz : Math_round (fl64 ((inputData.length : ℚ) / fl64 (R / T))) = 0 := by
      rw [h0, Nat.cast_zero, zero_div, fl64_zero]
      exact Math_round_small 0 (le_refl _) (by norm_num)
    refine ⟨by rw [hz], ?_⟩
    rw [hz]
    simp only [Int.toNat_zero, List.range_zero, List.map_nil]
    rcases lt_or_le |fl64 (R / T)| (2 ^ 1024) with hfin | hinf
    · rw [toFloat64_finite _ hfin] at hdiv
      by_cases hr0 : fl64 (R / T) = 0
      · apply resampleAudio_nan inputData R T _ hRT hdiv
        simp [div64, hr0, h0]
      · have h2 : div64 (inputData.length : ℚ) (fl64 (R / T)) = Float64.finite 0 := by
          rw [div64_of_ne _ _ hr0, h0, Nat.cast_zero, zero_div, toFloat64_finite, fl64_zero]
          rw [fl64_zero]
          norm_num
        have hm : Math_round 0 = 0 := Math_round_small 0 (le_refl _) (by norm_num)
        rw [resampleAudio_finite inputData R T _ 0 hRT hdiv h2 (by rw [hm]) (by rw [hm]; norm_num),
          hm]
        rfl
    · rw [toFloat64_infinite _ hinf] at hdiv
      exact resampleAudio_infinite inputData R T hRT hdiv
  · have hL1 : 1 ≤ inputData.length := hpos
    have hL1' : (1 : ℚ) ≤ (inputData.length : ℚ) := by exact_mod_cast hL1
    have hL53' : (inputData.length : ℚ) < 2 ^ 53 := by exact_mod_cast hL53
    have hr := ratio_lower inputData.length R T hT hL1 hL
    set r := fl64 (R / T) with hrdef
    have hrpos : 0 < r := by
      by_contra hneg
      push_neg at hneg
      have : r * 2 ^ 50 ≤ 0 := mul_nonpos_of_nonpos_of_nonneg hneg (by norm_num)
      linarith
    have hxnn : 0 ≤ (inputData.length : ℚ) / r := div_nonneg (by linarith) hrpos.le
    have hq := fl64_le _ hxnn
    have hqnn := fl64_nonneg _ hxnn
    set q := fl64 ((inputData.length : ℚ) / r) with hqdef
    have hnn : 0 ≤ Math_round q := Math_round_nonneg q hqnn
    refine ⟨hnn, ?_⟩
    rcases lt_or_le |r| (2 ^ 1024) with hfin | hinf
    · rw [toFloat64_finite _ hfin] at hdiv
      have hx50 : (inputData.length : ℚ) / r ≤ 2 ^ 50 := by
        rw [div_le_iff₀ hrpos]
        linarith
      have hq53 : q < 2 ^ 53 - 1 := by
        norm_num at hq hx50 ⊢
        linarith
      have h2 : div64 (inputData.length : ℚ) r = Float64.finite q := by
        rw [div64_of_ne _ _ hrpos.ne', toFloat64_finite]
        rw [← hqdef, abs_of_nonneg hqnn]
        norm_num at hq53 ⊢
        linarith
      have hn53 : Math_round q < 2 ^ 53 := by
        unfold Math_round
        rw [Int.floor_lt]
        push_cast
        linarith
      exact resampleAudio_finite inputData R T r q hRT hdiv h2 hnn hn53
    · rw [toFloat64_infinite _ hinf] at hdiv
      rw [resampleAudio_infinite inputData R T hRT hdiv]
      rw [abs_of_pos hrpos] at hinf
      have hx : (inputData.length : ℚ) / r ≤ 2 ^ 53 / 2 ^ 1024 := by
        rw [div_le_div_iff₀ hrpos (by positivity)]
        nlinarith
      have hq2 : q < 1 / 2 := by
        norm_num at hq hx ⊢
        linarith
      rw [Math_round_small q hqnn hq2]
      rfl

theorem readAt_in_range (data : List Num) (j : ℤ) (h0 : 0 ≤ j)
    (h1 : j ≤ (data.length : ℤ) - 1) :
    ∃ v, data[j.toNat]? = some v ∧ readAt data j = v := by
  have hlt : j.toNat < data.length := by omega
  refine ⟨data[j.toNat], List.getElem?_eq_getElem hlt, ?_⟩
  unfold readAt
  rw [if_neg (by omega), List.getElem?_eq_getElem hlt]
  rfl

theorem resampleAt_reads (inputData : List Num) (R T : ℚ) (hT : 0 < T)
    (hL : (inputData.length : ℚ) * T ≤ R * 2 ^ 49) (i : ℕ)
    (hi : (i : ℤ) < Math_round (fl64 ((inputData.length : ℚ) / fl64 (R / T)))) :
    ∃ (f c : ℕ) (va vb : Num), f < inputData.length ∧ c < inputData.length ∧
      (f : ℤ) = ⌊fl64 ((i : ℚ) * fl64 (R / T))⌋ ∧ c = min (f + 1) (inputData.length - 1) ∧
      inputData[f]? = some va ∧ inputData[c]? = some vb ∧
      readAt inputData ⌊fl64 ((i : ℚ) * fl64 (R / T))⌋ = va ∧
      readAt inputData
        (min (⌊fl64 ((i : ℚ) * fl64 (R / T))⌋ + 1) ((inputData.length : ℤ) - 1)) = vb ∧
      resampleAt inputData (fl64 (R / T)) i =
        va.bind fun a => vb.bind fun b =>
          some (fl32 (fl64 (fl64 (a * fl64 (1 - fl64 (fl64 ((i : ℚ) * fl64 (R / T)) - f)))
            + fl64 (b * fl64 (fl64 ((i : ℚ) * fl64 (R / T)) - f))))) := by
  have hL1 : 1 ≤ inputData.length := by
    by_contra h0
    have h0' : inputData.length = 0 := by omega
    rw [h0', Nat.cast_zero, zero_div, fl64_zero,
      Math_round_small 0 (le_refl _) (by norm_num)] at hi
    omega
  obtain ⟨h0, h1⟩ := resample_reads inputData.length R T hT hL1 hL i hi
  set s := fl64 ((i : ℚ) * fl64 (R / T)) with hs
  obtain ⟨va, ha, hra⟩ := readAt_in_range inputData ⌊s⌋ h0 h1
  obtain ⟨vb, hb, hrb⟩ := readAt_in_range inputData
    (min (⌊s⌋ + 1) ((inputData.length : ℤ) - 1)) (by omega) (min_le_right _ _)
  have hf : ((⌊s⌋.toNat : ℕ) : ℤ) = ⌊s⌋ := Int.toNat_of_nonneg h0
  have hc : (min (⌊s⌋ + 1) ((inputData.length : ℤ) - 1)).toNat
      = min (⌊s⌋.toNat + 1) (inputData.length - 1) := by omega
  have hfq : ((⌊s⌋.toNat : ℕ) : ℚ) = ((⌊s⌋ : ℤ) : ℚ) := by exact_mod_cast hf
  refine ⟨⌊s⌋.toNat, min (⌊s⌋.toNat + 1) (inputData.length - 1), va, vb, by omega, by omega,
    hf, rfl, ha, by rw [← hc]; exact hb, hra, hrb, ?_⟩
  simp only [resampleAt, ← hs, hra, hrb, hfq]

theorem getElem?_range_map (n : ℕ) (g : ℕ → Num) (i : ℕ) (hi : i < n) :
    ((List.range n).map g)[i]? = some (g i) := by
  have hin : i < (List.range n).length := by rw [List.length_range]; exact hi
  rw [List.getElem?_map, List.getElem?_eq_getElem hin, List.getElem_range, Option.map_some']

theorem resampleAudio_getElem (inputData : List Num) (R T : ℚ) (hT : 0 < T) (hRT : R ≠ T)
    (hL53 : inputData.length < 2 ^ 53) (hL : (inputData.length : ℚ) * T ≤ R * 2 ^ 49) :
    ∃ out, resampleAudio inputData R T = some out ∧
      (out.length : ℤ) = Math_round (fl64 ((inputData.length : ℚ) / fl64 (R / T))) ∧
      ∀ i : ℕ, i < out.length → out[i]? = some (resampleAt inputData (fl64 (R / T)) i) := by
  obtain ⟨hnn, hrun⟩ := resampleAudio_run inputData R T hT hRT hL53 hL
  refine ⟨_, hrun, ?_, ?_⟩
  · rw [List.length_map, List.length_range]
    exact Int.toNat_of_nonneg hnn
  · intro i hi
    rw [List.length_map, List.length_range] at hi
    exact getElem?_range_map _ _ i hi

theorem resampleAudio_zeros_run (R : ℚ) (L : ℕ) (hRT : R ≠ 24000) (hL53 : L < 2 ^ 53)
    (hL : (L : ℚ) * 24000 ≤ R * 2 ^ 49) :
    ∃ out, resampleAudio (List.replicate L (some 0)) R 24000 = some out ∧
      (∀ y ∈ out, y = some 0) ∧
      (out.length : ℤ) = Math_round (fl64 ((L : ℚ) / fl64 (R / 24000))) := by
  have hT : (0 : ℚ) < 24000 := by norm_num
  have hlen : (List.replicate L (some (0 : ℚ))).length = L := List.length_replicate _ _
  obtain ⟨hnn, hrun⟩ := resampleAudio_run (List.replicate L (some 0)) R 24000 hT hRT
    (by rw [hlen]; exact hL53) (by rw [hlen]; exact hL)
  rw [hlen] at hnn hrun
  refine ⟨_, hrun, ?_, ?_⟩
  · intro y hy
    obtain ⟨i, hi, rfl⟩ := List.mem_map.mp hy
    rw [List.mem_range] at hi
    obtain ⟨f, c, va, vb, _, _, _, _, ha, hb, _, _, hres⟩ :=
      resampleAt_reads (List.replicate L (some 0)) R 24000 hT (by rw [hlen]; exact hL) i
        (by rw [hlen]; omega)
    have ha0 : va = some 0 := (List.mem_replicate.mp (List.getElem?_mem ha)).2
    have hb0 : vb = some 0 := (List.mem_replicate.mp (List.getElem?_mem hb)).2
    rw [hres, ha0, hb0]
    simp only [Option.some_bind, zero_mul, fl64_zero, add_zero, fl32_zero]
  · rw [List.length_map, List.length_range]
    exact Int.toNat_of_nonneg hnn

/-! ### Two runs evaluated -/

theorem fl64_ratio_13440 : fl64 (13440 / 24000) = 5044031582654956 / 2 ^ 53 := by
  have h := roundTo_eq 53 (-1022) (13440 / 24000) (-1) 5044031582654956 (by norm_num)
    (by norm_num [abs_of_pos]) (by norm_num [abs_of_pos]) (by norm_num) (by norm_num)
  unfold fl64
  rw [h]
  norm_num

theorem fl64_quotient_13440 :
    fl64 (7 / (5044031582654956 / 2 ^ 53)) = 7036874417766399 / 2 ^ 49 := by
  have h := roundTo_eq 53 (-1022) (7 / (5044031582654956 / 2 ^ 53)) 3 7036874417766399
    (by norm_num) (by norm_num [abs_of_pos]) (by norm_num [abs_of_pos]) (by norm_num)
    (by norm_num)
  unfold fl64
  rw [h]
  norm_num

theorem outputLength_13440 :
    Math_round (fl64 (((7 : ℕ) : ℚ) / fl64 (13440 / 24000))) = 12 := by
  rw [fl64_ratio_13440]
  have h : (((7 : ℕ) : ℚ) / (5044031582654956 / 2 ^ 53))
      = (7 / (5044031582654956 / 2 ^ 53) : ℚ) := by norm_num
  rw [h, fl64_quotient_13440]
  unfold Math_round
  rw [Int.floor_eq_iff]
  constructor <;> norm_num

theorem fl64_ratio_16000 : fl64 (16000 / 24000) = 6004799503160661 / 2 ^ 53 :=
  fl64_eq _ _ (-1) 6004799503160661 (by norm_num) (by norm_num [abs_of_pos])
    (by norm_num [abs_of_pos]) (by norm_num) (by norm_num) (by norm_num)

theorem outputLength_16000 :
    Math_round (fl64 (((4 : ℕ) : ℚ) / fl64 (16000 / 24000))) = 6 := by
  rw [fl64_ratio_16000]
  have h : fl64 (((4 : ℕ) : ℚ) / (6004799503160661 / 2 ^ 53)) = 6 :=
    fl64_eq _ _ 2 6755399441055744 (by norm_num) (by norm_num [abs_of_pos])
      (by norm_num [abs_of_pos]) (by norm_num) (by norm_num) (by norm_num)
  rw [h]
  unfold Math_round
  rw [Int.floor_eq_iff]
  constructor <;> norm_num

theorem resampleAt_example :
    resampleAt [some 1, some 2, some 3, some 4] (6004799503160661 / 2 ^ 53) 1
      = some (13981013 / 8388608) := by
  have h1 : fl64 (((1 : ℕ) : ℚ) * (6004799503160661 / 2 ^ 53)) = 6004799503160661 / 2 ^ 53 :=
    fl64_eq _ _ (-1) 6004799503160661 (by norm_num) (by norm_num [abs_of_pos])
      (by norm_num [abs_of_pos]) (by norm_num) (by norm_num) (by norm_num)
  have h2 : ⌊(6004799503160661 / 2 ^ 53 : ℚ)⌋ = 0 := by
    rw [Int.floor_eq_iff]
    constructor <;> norm_num
  have h3 : fl64 (6004799503160661 / 2 ^ 53 - ((0 : ℤ) : ℚ)) = 6004799503160661 / 2 ^ 53 :=
    fl64_eq _ _ (-1) 6004799503160661 (by norm_num) (by norm_num [abs_of_pos])
      (by norm_num [abs_of_pos]) (by norm_num) (by norm_num) (by norm_num)
  have h4 : fl64 (1 - 6004799503160661 / 2 ^ 53) = 3002399751580331 / 2 ^ 53 :=
    fl64_eq _ _ (-2) 6004799503160662 (by norm_num) (by norm_num [abs_of_pos])
      (by norm_num [abs_of_pos]) (by norm_num) (by norm_num) (by norm_num)
  have h5 : fl64 (1 * (3002399751580331 / 2 ^ 53)) = 3002399751580331 / 2 ^ 53 :=
    fl64_eq _ _ (-2) 6004799503160662 (by norm_num) (by norm_num [abs_of_pos])
      (by norm_num [abs_of_pos]) (by norm_num) (by norm_num) (by norm_num)
  have h6 : fl64 (2 * (6004799503160661 / 2 ^ 53)) = 6004799503160661 / 2 ^ 52 :=
    fl64_eq _ _ 0 6004799503160661 (by norm_num) (by norm_num [abs_of_pos])
      (by norm_num [abs_of_pos]) (by norm_num) (by norm_num) (by norm_num)
  have h7 : fl64 (3002399751580331 / 2 ^ 53 + 6004799503160661 / 2 ^ 52)
      = 7505999378950826 / 2 ^ 52 :=
    fl64_eq_tie_even _ _ 0 7505999378950826 (by norm_num) (by norm_num [abs_of_pos])
      (by norm_num [abs_of_pos]) (by norm_num) (by norm_num) (by norm_num)
  have h8 : fl32 (7505999378950826 / 2 ^ 52) = 13981013 / 8388608 :=
    fl32_eq _ _ 0 13981013 (by norm_num) (by norm_num [abs_of_pos])
      (by norm_num [abs_of_pos]) (by norm_num) (by norm_num) (by norm_num)
  have hr0 : readAt [some 1, some 2, some 3, some 4] 0 = some 1 := rfl
  have hr1 : readAt [some 1, some 2, some 3, some 4]
      (min (0 + 1) ((([some 1, some 2, some 3, some 4] : List Num).length : ℤ) - 1))
      = some 2 := rfl
  simp only [resampleAt, h1, h2, h3, h4, hr0, hr1, Option.some_bind, h5, h6, h7, h8]

/-- C3, amended.  For every positive source rate `R` and every length `L` below `2 ^ 53`
with `L * 24000 ≤ 2 ^ 49 * R`, resampling `L` zero samples from `R` to 24000 returns a buffer
whose samples are all zero.  Its length is `L` when `R = 24000`; otherwise it is
`round(fl(L / fl(R / 24000)))`, both quotients rounded to binary64 as the code forms them. -/
theorem resampleAudio_zeros (R : ℚ) (hR : 0 < R) (L : ℕ) (hL53 : L < 2 ^ 53)
    (hL : (L : ℚ) * 24000 ≤ R * 2 ^ 49) :
    ∃ out, resampleAudio (List.replicate L (some 0)) R 24000 = some out ∧
      (∀ y ∈ out, y = some 0) ∧
      (R = 24000 → out.length = L) ∧
      (R ≠ 24000 → (out.length : ℤ) = Math_round (fl64 ((L : ℚ) / fl64 (R / 24000)))) := by
  have _ := hR
  by_cases hRT : R = 24000
  · subst hRT
    refine ⟨List.replicate L (some 0), by simp [resampleAudio], ?_, ?_, ?_⟩
    · intro y hy
      exact (List.mem_replicate.mp hy).2
    · intro _
      simp
    · intro h
      exact absurd rfl h
  · obtain ⟨out, hout, hz, hl⟩ := resampleAudio_zeros_run R L hRT hL53 hL
    exact ⟨out, hout, hz, fun h => absurd h hRT, fun _ => hl⟩

/-- C3, as stated, fails.  Seven zero samples at 13440 Hz give 12 samples, not the
`round(7 * 24000 / 13440) = 13` of the claim: the binary64 quotient `13440 / 24000` lies
above 0.56, so `7` divided by it rounds to a number below 12.5. -/
theorem resampleAudio_zeros_13440 :
    resampleAudio (List.replicate 7 (some 0)) 13440 24000 = some (List.replicate 12 (some 0)) ∧
    Math_round (((7 : ℕ) : ℚ) * 24000 / 13440) = 13 := by
  constructor
  · obtain ⟨out, hout, hz, hl⟩ := resampleAudio_zeros_run 13440 7 (by norm_num) (by norm_num)
      (by norm_num)
    rw [outputLength_13440] at hl
    have hl2 : out.length = 12 := by omega
    rw [hout, ← hl2]
    exact congrArg some (List.eq_replicate_iff.mpr ⟨rfl, hz⟩)
  · unfold Math_round
    rw [Int.floor_eq_iff]
    constructor <;> norm_num

theorem resampleAudio_zeros_witness :
    (0 : ℚ) < 44100 ∧ 441 < 2 ^ 53 ∧ ((441 : ℕ) : ℚ) * 24000 ≤ 44100 * 2 ^ 49 ∧
    ∃ out, resampleAudio (List.replicate 441 (some 0)) 44100 24000 = some out ∧
      (∀ y ∈ out, y = some 0) ∧
      ((44100 : ℚ) = 24000 → out.length = 441) ∧
      ((44100 : ℚ) ≠ 24000 →
        (out.length : ℤ) = Math_round (fl64 (((441 : ℕ) : ℚ) / fl64 (44100 / 24000)))) :=
  ⟨by norm_num, by norm_num, by norm_num,
    resampleAudio_zeros 44100 (by norm_num) 441 (by norm_num) (by norm_num)⟩

/-- C4, amended.  When the rates are equal `resampleAudio` returns its input unchanged.
Otherwise, for a non-empty buffer `x` of `L < 2 ^ 53` samples of a `Float32Array`, rates
`R > 0` and `T > 0` with `L * T ≤ 2 ^ 49 * R`, and `r = fl(R / T)`, the output has
`round(fl(L / r))` samples, and for every index `i` below that number output sample `i` is
`fl32(fl(fl(x[f] * fl(1 - t)) + fl(x[min(f + 1, L - 1)] * t)))` with `s = fl(i * r)`,
`f = floor(s)` and `t = fl(s - f)`, both reads being in range; `fl` is the rounding of
binary64 and `fl32` that of the store into the `Float32Array`. -/
theorem resampleAudio_interpolates (x : List ℚ) (R T : ℚ) :
    resampleAudio (x.map some) T T = some (x.map some) ∧
    ∀ i : ℕ, x ≠ [] → 0 < R → 0 < T → R ≠ T → x.length < 2 ^ 53 →
      (x.length : ℚ) * T ≤ R * 2 ^ 49 → inFloat32Range (x.map some) = true →
      (i : ℤ) < Math_round (fl64 ((x.length : ℚ) / fl64 (R / T))) →
      ∃ (out : List Num) (f : ℕ) (a b : ℚ),
        resampleAudio (x.map some) R T = some out ∧
        (out.length : ℤ) = Math_round (fl64 ((x.length : ℚ) / fl64 (R / T))) ∧
        (f : ℤ) = ⌊fl64 ((i : ℚ) * fl64 (R / T))⌋ ∧
        x[f]? = some a ∧ x[min (f + 1) (x.length - 1)]? = some b ∧
        out[i]? = some (some (fl32 (fl64
          (fl64 (a * fl64 (1 - fl64 (fl64 ((i : ℚ) * fl64 (R / T)) - f)))
            + fl64 (b * fl64 (fl64 ((i : ℚ) * fl64 (R / T)) - f)))))) := by
  refine ⟨by simp [resampleAudio], ?_⟩
  intro i _ _ hT hRT hL53 hL _ hi
  have hlen : (x.map some).length = x.length := List.length_map _ _
  obtain ⟨out, hout, hl, hget⟩ := resampleAudio_getElem (x.map some) R T hT hRT
    (by rw [hlen]; exact hL53) (by rw [hlen]; exact hL)
  rw [hlen] at hl
  obtain ⟨f, c, va, vb, _, _, hf, hc, ha, hb, _, _, hres⟩ :=
    resampleAt_reads (x.map some) R T hT (by rw [hlen]; exact hL) i (by rw [hlen]; exact hi)
  rw [hlen] at hc
  rw [List.getElem?_map] at ha hb
  obtain ⟨a, ha1, ha2⟩ := Option.map_eq_some'.mp ha
  obtain ⟨b, hb1, hb2⟩ := Option.map_eq_some'.mp hb
  subst ha2 hb2
  refine ⟨out, f, a, b, hout, hl, hf, ha1, by rw [← hc]; exact hb1, ?_⟩
  rw [hget i (by omega), hres]
  rfl

/-- C4, as stated, fails.  For `x = [1, 2, 3, 4]` resampled from 16000 to 24000, output sample 1
is `13981013 / 8388608`, while the formula of the claim in exact arithmetic (`f = 0`,
`t = 2 / 3`) gives `1 * (1 - 2 / 3) + 2 * (2 / 3) = 5 / 3`. -/
theorem resampleAudio_rounds_sample :
    ∃ out, resampleAudio ([1, 2, 3, 4].map some) 16000 24000 = some out ∧
      out[1]? = some (some (13981013 / 8388608)) ∧
      ((1 : ℕ) : ℤ) < Math_round ((([1, 2, 3, (4 : ℚ)].length : ℕ) : ℚ) * 24000 / 16000) ∧
      ⌊((1 : ℕ) : ℚ) * ((16000 : ℚ) / 24000)⌋ = 0 ∧
      [1, 2, 3, (4 : ℚ)][0]? = some 1 ∧
      [1, 2, 3, (4 : ℚ)][min (0 + 1) ([1, 2, 3, (4 : ℚ)].length - 1)]? = some 2 ∧
      (1 : ℚ) * (1 - (((1 : ℕ) : ℚ) * (16000 / 24000) - ((0 : ℤ) : ℚ)))
        + 2 * (((1 : ℕ) : ℚ) * (16000 / 24000) - ((0 : ℤ) : ℚ)) ≠ 13981013 / 8388608 := by
  obtain ⟨out, hout, hl, hget⟩ := resampleAudio_getElem ([1, 2, 3, 4].map some) 16000 24000
    (by norm_num) (by norm_num) (by norm_num) (by norm_num)
  have hl6 : out.length = 6 := by
    have h := outputLength_16000
    simp only [List.map_cons, List.map_nil, List.length_cons, List.length_nil] at hl
    norm_num at hl h
    rw [h] at hl
    omega
  refine ⟨out, hout, ?_, ?_, ?_, rfl, rfl, by norm_num⟩
  · rw [hget 1 (by omega), fl64_ratio_16000]
    exact congrArg some resampleAt_example
  · unfold Math_round
    have : (((([1, 2, 3, (4 : ℚ)].length : ℕ) : ℚ) * 24000 / 16000 + 1 / 2 : ℚ)) = 13 / 2 := by
      norm_num
    rw [this]
    have h6 : ⌊(13 / 2 : ℚ)⌋ = 6 := by
      rw [Int.floor_eq_iff]
      constructor <;> norm_num
    rw [h6]
    norm_num
  · rw [Int.floor_eq_iff]
    constructor <;> norm_num

theorem resampleAudio_interpolates_witness :
    ∃ (out : List Num) (f : ℕ) (a b : ℚ),
      resampleAudio ([1, 2, 3, 4].map some) 16000 24000 = some out ∧
      (out.length : ℤ)
        = Math_round (fl64 ((([1, 2, 3, (4 : ℚ)].length : ℕ) : ℚ) / fl64 (16000 / 24000))) ∧
      (f : ℤ) = ⌊fl64 (((1 : ℕ) : ℚ) * fl64 (16000 / 24000))⌋ ∧
      [1, 2, 3, (4 : ℚ)][f]? = some a ∧
      [1, 2, 3, (4 : ℚ)][min (f + 1) ([1, 2, 3, (4 : ℚ)].length - 1)]? = some b ∧
      out[1]? = some (some (fl32 (fl64
        (fl64 (a * fl64 (1 - fl64 (fl64 (((1 : ℕ) : ℚ) * fl64 (16000 / 24000)) - f)))
          + fl64 (b * fl64 (fl64 (((1 : ℕ) : ℚ) * fl64 (16000 / 24000)) - f)))))) :=
  (resampleAudio_interpolates [1, 2, 3, 4] 16000 24000).2 1 (by simp) (by norm_num)
    (by norm_num) (by norm_num) (by norm_num) (by norm_num) (by
      simp only [inFloat32Range, float32Max, List.map_cons, List.map_nil, List.all_cons,
        List.all_nil, Bool.and_true, Bool.and_eq_true, decide_eq_true_eq]
      norm_num [abs_of_pos]) (by
      have h := outputLength_16000
      simp only [List.length_cons, List.length_nil]
      norm_num at h ⊢
      rw [h]
      norm_num)

/-! ## The upstream session: sends -/

theorem framesSent_set (sockets : List Socket) (k : ℕ) (sock : Socket) (frame : Json)
    (h : sockets[k]? = some sock) :
    ((sockets.set k { sock with sent := sock.sent ++ [frame] }).map
        fun s => s.sent.length).sum
      = (sockets.map fun s => s.sent.length).sum + 1 := by
  induction sockets generalizing k with
  | nil => simp at h
  | cons s0 rest ih =>
    cases k with
    | zero =>
      simp only [List.getElem?_cons_zero, Option.some.injEq] at h
      subst h
      simp only [List.set_cons_zero, List.map_cons, List.sum_cons, List.length_append,
        List.length_singleton]
      omega
    | succ k =>
      simp only [List.getElem?_cons_succ] at h
      simp only [List.set_cons_succ, List.map_cons, List.sum_cons, ih k h]
      omega

theorem sendEvent_closed (w : World) (event : Json) (h : ¬ transportOpen w) :
    sendEvent w event = (w, false) := by
  cases hws : w.client.ws with
  | none => simp only [sendEvent, hws]
  | some k =>
    cases hs : w.sockets[k]? with
    | none => simp only [sendEvent, hws, hs]
    | some sock =>
      by_cases hopen : sock.readyState = ReadyState.OPEN
      · exact absurd ⟨k, sock, hws, hs, hopen⟩ h
      · simp only [sendEvent, hws, hs, hopen, if_false]

theorem sendEvent_open (w : World) (event : Json) (k : ℕ) (sock : Socket)
    (hws : w.client.ws = some k) (hs : w.sockets[k]? = some sock)
    (hopen : sock.readyState = ReadyState.OPEN) :
    sendEvent w event = (w.send k sock event, true) := by
  unfold sendEvent
  simp only [hws, hs, hopen, if_true]

theorem sendEvent_client (w : World) (event : Json) :
    (sendEvent w event).1.client = w.client ∧
    (sendEvent w event).1.scheduled = w.scheduled ∧
    (sendEvent w event).1.fired = w.fired ∧
    (sendEvent w event).1.emitted = w.emitted := by
  cases hws : w.client.ws with
  | none => simp only [sendEvent, hws, and_self]
  | some k =>
    cases hs : w.sockets[k]? with
    | none => simp only [sendEvent, hws, hs, and_self]
    | some sock =>
      by_cases hopen : sock.readyState = ReadyState.OPEN
      · simp only [sendEvent, hws, hs, hopen, if_true, World.send, and_self]
      · simp only [sendEvent, hws, hs, hopen, if_false, and_self]

theorem transportOpen_send (w : World) (event : Json) (h : transportOpen w) :
    transportOpen (sendEvent w event).1 := by
  obtain ⟨k, sock, hws, hs, hopen⟩ := h
  rw [sendEvent_open w event k sock hws hs hopen]
  refine ⟨k, { sock with sent := sock.sent ++ [event] }, hws, ?_, hopen⟩
  have hlt : k < w.sockets.length := by
    by_contra hge
    rw [List.getElem?_eq_none (by omega)] at hs
    cases hs
  simp only [World.send, List.getElem?_set_self hlt]

theorem sendEvent_true_iff (w : World) (event : Json) :
    (sendEvent w event).2 = true ↔ transportOpen w := by
  constructor
  · intro h
    by_contra hno
    rw [sendEvent_closed w event hno] at h
    cases h
  · rintro ⟨k, sock, hws, hs, hopen⟩
    rw [sendEvent_open w event k sock hws hs hopen]

theorem sendEvent_frames (w : World) (event : Json) (h : transportOpen w) :
    ∃ k sock, w.client.ws = some k ∧ w.sockets[k]? = some sock ∧
      (sendEvent w event).1.sockets = w.sockets.set k { sock with sent := sock.sent ++ [event] } ∧
      framesSent (sendEvent w event).1 = framesSent w + 1 := by
  obtain ⟨k, sock, hws, hs, hopen⟩ := h
  refine ⟨k, sock, hws, hs, ?_, ?_⟩
  · rw [sendEvent_open w event k sock hws hs hopen]
    rfl
  · rw [sendEvent_open w event k sock hws hs hopen]
    exact framesSent_set w.sockets k sock event hs

/-- C6.  The method `sendEvent` returns `true` exactly when the session has a transport in
state `OPEN`, and then hands exactly one frame, the serialised event, to that transport;
otherwise it returns `false` and sends nothing.  In both cases the fields of the session
(transport reference, connected flag, reconnect counter) are as before. -/
theorem sendEvent_spec (w : World) (event : Json) :
    ((sendEvent w event).2 = true ↔ transportOpen w) ∧
    (transportOpen w → ∃ k sock, w.client.ws = some k ∧ w.sockets[k]? = some sock ∧
      (sendEvent w event).1.sockets = w.sockets.set k { sock with sent := sock.sent ++ [event] } ∧
      framesSent (sendEvent w event).1 = framesSent w + 1) ∧
    (¬ transportOpen w → sendEvent w event = (w, false)) ∧
    (sendEvent w event).1.client = w.client :=
  ⟨sendEvent_true_iff w event, sendEvent_frames w event, sendEvent_closed w event,
    (sendEvent_client w event).1⟩

theorem openWorld_transportOpen : transportOpen openWorld :=
  ⟨0, { readyState := ReadyState.OPEN, sent := [sessionConfig] }, rfl, rfl, rfl⟩

theorem sendEvent_spec_witness :
    transportOpen openWorld ∧
    (sendEvent openWorld (Json.obj [("type", Json.str "response.cancel")])).2 = true ∧
    ¬ transportOpen (World.fresh (some "sk-test")) ∧
    sendEvent (World.fresh (some "sk-test")) (Json.obj [("type", Json.str "response.cancel")])
      = (World.fresh (some "sk-test"), false) :=
  have hclosed : ¬ transportOpen (World.fresh (some "sk-test")) := by
    rintro ⟨k, sock, hws, _, _⟩
    cases hws
  ⟨openWorld_transportOpen,
    (sendEvent_spec openWorld _).1.mpr openWorld_transportOpen,
    hclosed,
    (sendEvent_spec (World.fresh (some "sk-test")) _).2.2.1 hclosed⟩

/-- C7.  On a session whose transport is absent or not `OPEN`, `commitAudio` makes both
sends, both return `false`, nothing is sent and the result is `false`.  In general the
result is the conjunction of the two send results, the second send being made on the state
the first one left, whatever the first returned; on an open transport both frames are sent
and the result is `true`. -/
theorem commitAudio_spec (w : World) :
    (¬ transportOpen w →
      sendEvent w (Json.obj [("type", Json.str "input_audio_buffer.commit")]) = (w, false) ∧
      sendEvent w (Json.obj [("type", Json.str "response.create")]) = (w, false) ∧
      commitAudio w = (w, false)) ∧
    (commitAudio w).2 =
      ((sendEvent w (Json.obj [("type", Json.str "input_audio_buffer.commit")])).2 &&
        (sendEvent (sendEvent w (Json.obj [("type", Json.str "input_audio_buffer.commit")])).1
          (Json.obj [("type", Json.str "response.create")])).2) ∧
    (commitAudio w).1 =
      (sendEvent (sendEvent w (Json.obj [("type", Json.str "input_audio_buffer.commit")])).1
        (Json.obj [("type", Json.str "response.create")])).1 ∧
    (transportOpen w → (commitAudio w).2 = true ∧
      framesSent (commitAudio w).1 = framesSent w + 2) := by
  refine ⟨?_, rfl, rfl, ?_⟩
  · intro h
    refine ⟨sendEvent_closed w _ h, sendEvent_closed w _ h, ?_⟩
    simp only [commitAudio, sendEvent_closed w _ h, Bool.and_self]
  · intro h
    have hopen1 := transportOpen_send w
      (Json.obj [("type", Json.str "input_audio_buffer.commit")]) h
    obtain ⟨_, _, _, _, _, hf1⟩ :=
      sendEvent_frames w (Json.obj [("type", Json.str "input_audio_buffer.commit")]) h
    obtain ⟨_, _, _, _, _, hf2⟩ :=
      sendEvent_frames (sendEvent w (Json.obj [("type", Json.str "input_audio_buffer.commit")])).1
        (Json.obj [("type", Json.str "response.create")]) hopen1
    refine ⟨?_, ?_⟩
    · simp only [commitAudio, (sendEvent_true_iff _ _).mpr h,
        (sendEvent_true_iff _ _).mpr hopen1, Bool.and_self]
    · simp only [commitAudio, hf2, hf1]

theorem commitAudio_spec_witness :
    ¬ transportOpen (World.fresh (some "sk-test")) ∧
    commitAudio (World.fresh (some "sk-test")) = (World.fresh (some "sk-test"), false) ∧
    transportOpen openWorld ∧ (commitAudio openWorld).2 = true :=
  have hclosed : ¬ transportOpen (World.fresh (some "sk-test")) := by
    rintro ⟨k, sock, hws, _, _⟩
    cases hws
  ⟨hclosed, ((commitAudio_spec (World.fresh (some "sk-test"))).1 hclosed).2.2,
    openWorld_transportOpen, ((commitAudio_spec openWorld).2.2.2 openWorld_transportOpen).1⟩

/-! ## The upstream session: reconnection -/

theorem connect_fields (w w' : World) (h : connect w = Except.ok w') :
    w'.client.reconnectAttempts = w.client.reconnectAttempts ∧
    w'.client.maxReconnectAttempts = w.client.maxReconnectAttempts ∧
    w'.scheduled = w.scheduled ∧ w'.emitted = w.emitted ∧ w'.fired = w.fired := by
  unfold connect at h
  split_ifs at h
  cases h
  exact ⟨rfl, rfl, rfl, rfl, rfl⟩

theorem onClose_below (w : World)
    (h : w.client.reconnectAttempts < w.client.maxReconnectAttempts) :
    (onClose w).client.reconnectAttempts = w.client.reconnectAttempts + 1 ∧
    (onClose w).client.maxReconnectAttempts = w.client.maxReconnectAttempts ∧
    (onClose w).scheduled = w.scheduled ++ [2 ^ (w.client.reconnectAttempts + 1) * 1000] ∧
    (onClose w).emitted = w.emitted := by
  simp only [onClose, handleReconnection, h, if_true, and_self]

theorem onClose_ceiling (w : World)
    (h : ¬ w.client.reconnectAttempts < w.client.maxReconnectAttempts) :
    (onClose w).client.reconnectAttempts = w.client.reconnectAttempts ∧
    (onClose w).client.maxReconnectAttempts = w.client.maxReconnectAttempts ∧
    (onClose w).scheduled = w.scheduled ∧
    (onClose w).emitted = w.emitted ++ [Emitted.error maxAttemptsMessage] := by
  simp only [onClose, handleReconnection, h, if_false, and_self]

theorem step_closure (w : World) (st : Step) (h : isClosure w st = true) :
    ∃ k sock, st = Step.socketClose k ∧ w.sockets[k]? = some sock ∧
      sock.readyState ≠ ReadyState.CLOSED ∧
      step w st = onClose
        { w with sockets := w.sockets.set k { sock with readyState := ReadyState.CLOSED } } := by
  cases st with
  | socketClose k =>
    cases hs : w.sockets[k]? with
    | none => simp [isClosure, hs] at h
    | some sock =>
      have hne : sock.readyState ≠ ReadyState.CLOSED := by simpa [isClosure, hs] using h
      refine ⟨k, sock, rfl, hs, hne, ?_⟩
      simp only [step, hs, hne, if_false]
  | connect => simp [isClosure] at h
  | timerFired => simp [isClosure] at h
  | socketOpen k => simp [isClosure] at h
  | socketError k m => simp [isClosure] at h
  | disconnect => simp [isClosure] at h

theorem step_closure_below (w : World) (st : Step) (h : isClosure w st = true)
    (hc : w.client.reconnectAttempts < w.client.maxReconnectAttempts) :
    (step w st).client.reconnectAttempts = w.client.reconnectAttempts + 1 ∧
    (step w st).client.maxReconnectAttempts = w.client.maxReconnectAttempts ∧
    (step w st).scheduled = w.scheduled ++ [2 ^ (w.client.reconnectAttempts + 1) * 1000] ∧
    (step w st).emitted = w.emitted := by
  obtain ⟨k, sock, _, _, _, hstep⟩ := step_closure w st h
  rw [hstep]
  exact onClose_below _ hc

theorem step_closure_ceiling (w : World) (st : Step) (h : isClosure w st = true)
    (hc : ¬ w.client.reconnectAttempts < w.client.maxReconnectAttempts) :
    (step w st).client.reconnectAttempts = w.client.reconnectAttempts ∧
    (step w st).client.maxReconnectAttempts = w.client.maxReconnectAttempts ∧
    (step w st).scheduled = w.scheduled ∧
    (step w st).emitted = w.emitted ++ [Emitted.error maxAttemptsMessage] := by
  obtain ⟨k, sock, _, _, _, hstep⟩ := step_closure w st h
  rw [hstep]
  exact onClose_ceiling _ hc

theorem fatalErrors_congr (w w' : World) (h : w'.emitted = w.emitted) :
    fatalErrors w' = fatalErrors w := by
  simp only [fatalErrors, h]

theorem fatalErrors_fatal (w w' : World)
    (h : w'.emitted = w.emitted ++ [Emitted.error maxAttemptsMessage]) :
    fatalErrors w' = fatalErrors w + 1 := by
  simp [fatalErrors, h, List.filter_append, Emitted.isFatal]

theorem fatalErrors_other (w w' : World) (message : String) (hm : message ≠ maxAttemptsMessage)
    (h : w'.emitted = w.emitted ++ [Emitted.error message]) :
    fatalErrors w' = fatalErrors w := by
  simp [fatalErrors, h, List.filter_append, Emitted.isFatal, hm]

theorem step_quiet (w : World) (st : Step) (hq : st.quiet = true)
    (h : isClosure w st = false) :
    (step w st).client.reconnectAttempts = w.client.reconnectAttempts ∧
    (step w st).client.maxReconnectAttempts = w.client.maxReconnectAttempts ∧
    (step w st).scheduled = w.scheduled ∧
    fatalErrors (step w st) = fatalErrors w := by
  cases st with
  | connect =>
    cases hc : connect w with
    | error e => simp only [step, hc, and_self]
    | ok w' =>
      obtain ⟨h1, h2, h3, h4, _⟩ := connect_fields w w' hc
      simp only [step, hc, h1, h2, h3, fatalErrors_congr w w' h4, and_self]
  | timerFired =>
    by_cases hf : w.fired < w.scheduled.length
    · cases hc : connect { w with fired := w.fired + 1 } with
      | error e =>
        simp only [step, hf, if_true, hc, true_and]
        exact fatalErrors_congr _ _ rfl
      | ok w' =>
        obtain ⟨h1, h2, h3, h4, _⟩ := connect_fields _ w' hc
        simp only [step, hf, if_true, hc, h1, h2, h3, true_and]
        exact fatalErrors_congr _ _ h4
    · simp only [step, hf, if_false, and_self]
  | socketOpen k => simp [Step.quiet] at hq
  | socketError k m =>
    have hm : m ≠ maxAttemptsMessage := by simpa [Step.quiet] using hq
    by_cases hk : k < w.sockets.length
    · simp only [step, hk, if_true, onError, true_and]
      exact fatalErrors_other _ _ m hm rfl
    · simp only [step, hk, if_false, and_self]
  | socketClose k =>
    cases hs : w.sockets[k]? with
    | none => simp only [step, hs, and_self]
    | some sock =>
      have hcl : sock.readyState = ReadyState.CLOSED := by simpa [isClosure, hs] using h
      simp only [step, hs, hcl, if_true, and_self]
  | disconnect =>
    cases hws : w.client.ws with
    | none => simp only [step, disconnect, hws, and_self]
    | some k =>
      simp only [step, disconnect, hws, true_and]
      exact fatalErrors_congr _ _ rfl

/-- C8, amended.  When a transport closes while the reconnect counter is `n < 5`, exactly one
reconnect is scheduled, with delay `2 ^ (n + 1) * 1000` ms (the exponent is the counter as
incremented), the counter becomes `n + 1` and nothing is emitted. -/
theorem close_schedules_backoff (w : World) (k : ℕ)
    (hk : isClosure w (Step.socketClose k) = true)
    (hmax : w.client.maxReconnectAttempts = 5) (hn : w.client.reconnectAttempts < 5) :
    (step w (Step.socketClose k)).scheduled
      = w.scheduled ++ [2 ^ (w.client.reconnectAttempts + 1) * 1000] ∧
    (step w (Step.socketClose k)).client.reconnectAttempts = w.client.reconnectAttempts + 1 ∧
    (step w (Step.socketClose k)).emitted = w.emitted := by
  obtain ⟨h1, _, h3, h4⟩ := step_closure_below w (Step.socketClose k) hk (by omega)
  exact ⟨h3, h1, h4⟩

theorem close_schedules_backoff_witness :
    isClosure connectingWorld (Step.socketClose 0) = true ∧
    connectingWorld.client.maxReconnectAttempts = 5 ∧
    connectingWorld.client.reconnectAttempts < 5 ∧
    (step connectingWorld (Step.socketClose 0)).scheduled
      = connectingWorld.scheduled ++ [2 ^ (connectingWorld.client.reconnectAttempts + 1) * 1000] :=
  ⟨rfl, rfl, by decide,
    (close_schedules_backoff connectingWorld 0 rfl rfl (by decide)).1⟩

/-- C8, as stated, fails at the first closure: the counter is 0 and the delay scheduled is
2000 ms, not `2 ^ 0 * 1000 = 1000` ms. -/
theorem first_close_delay_2000 :
    connectingWorld.client.reconnectAttempts = 0 ∧
    isClosure connectingWorld (Step.socketClose 0) = true ∧
    (step connectingWorld (Step.socketClose 0)).scheduled = [2000] ∧
    (step connectingWorld (Step.socketClose 0)).scheduled
      ≠ connectingWorld.scheduled ++ [2 ^ connectingWorld.client.reconnectAttempts * 1000] :=
  ⟨rfl, rfl, rfl, by
    intro h
    have h2 : ([2000] : List ℕ) = [1000] := h
    exact absurd h2 (by decide)⟩

theorem backoffFrom_ceiling (c k : ℕ) (h : ¬ c < 5) : backoffFrom c k = [] := by
  cases k with
  | zero => rfl
  | succ k => simp only [backoffFrom, h, if_false]

theorem backoffFrom_zero (k : ℕ) :
    backoffFrom 0 k = List.take k [2000, 4000, 8000, 16000, 32000] := by
  rcases k with _ | _ | _ | _ | _ | _ | k <;> simp [backoffFrom]

theorem run_closures (steps : List Step) :
    ∀ w : World, w.client.maxReconnectAttempts = 5 → w.client.reconnectAttempts ≤ 5 →
      (∀ st ∈ steps, st.quiet = true) →
      (run w steps).scheduled
        = w.scheduled ++ backoffFrom w.client.reconnectAttempts (closures w steps) ∧
      fatalErrors (run w steps)
        = fatalErrors w + (closures w steps - (5 - w.client.reconnectAttempts)) := by
  induction steps with
  | nil =>
    intro w _ _ _
    simp [run, closures, backoffFrom]
  | cons st rest ih =>
    intro w hmax hc hq
    have hq' : ∀ s ∈ rest, s.quiet = true := fun s hs => hq s (List.mem_cons_of_mem _ hs)
    have hrun : run w (st :: rest) = run (step w st) rest := rfl
    by_cases hcl : isClosure w st = true
    · by_cases hlt : w.client.reconnectAttempts < 5
      · obtain ⟨h1, h2, h3, h4⟩ := step_closure_below w st hcl (by omega)
        obtain ⟨ihs, ihe⟩ := ih (step w st) (by rw [h2]; exact hmax) (by omega) hq'
        rw [hrun, ihs, ihe, h3, fatalErrors_congr _ _ h4, h1]
        simp only [closures, hcl, if_true, Nat.add_comm 1, backoffFrom, hlt,
          List.append_assoc, List.singleton_append, true_and]
        omega
      · obtain ⟨h1, h2, h3, h4⟩ := step_closure_ceiling w st hcl (by omega)
        obtain ⟨ihs, ihe⟩ := ih (step w st) (by rw [h2]; exact hmax) (by omega) hq'
        rw [hrun, ihs, ihe, h3, fatalErrors_fatal _ _ h4, h1]
        simp only [closures, hcl, if_true, backoffFrom_ceiling _ _ hlt, true_and]
        omega
    · have hcl' : isClosure w st = false := by simpa using hcl
      obtain ⟨h1, h2, h3, h4⟩ := step_quiet w st (hq st (List.mem_cons_self _ _)) hcl'
      obtain ⟨ihs, ihe⟩ := ih (step w st) (by rw [h2]; exact hmax) (by omega) hq'
      rw [hrun, ihs, ihe, h3, h4, h1]
      simp [closures, hcl']

/-- C9, amended.  In a run of steps without a successful open, started with the reconnect
counter at 0, the first five closures schedule one reconnect each, after 2000, 4000, 8000,
16000 and 32000 ms (the last being `2 ^ 5 * 1000` ms after the fifth closure), and no later
closure schedules one; every closure from the sixth on emits the error
"Connection lost and max reconnection attempts reached", so a run of `k` closures emits it
`k - 5` times: once if the run ends with the sixth closure, once more for each further one. -/
theorem closure_run_backoff (w : World) (steps : List Step)
    (h0 : w.client.reconnectAttempts = 0) (hmax : w.client.maxReconnectAttempts = 5)
    (hq : ∀ st ∈ steps, st.quiet = true) :
    (run w steps).scheduled
      = w.scheduled ++ List.take (closures w steps) [2000, 4000, 8000, 16000, 32000] ∧
    fatalErrors (run w steps) = fatalErrors w + (closures w steps - 5) := by
  have h := run_closures steps w hmax (by omega) hq
  rw [h0, backoffFrom_zero] at h
  exact h

theorem closure_run_backoff_witness :
    (World.fresh (some "sk-test")).client.reconnectAttempts = 0 ∧
    (World.fresh (some "sk-test")).client.maxReconnectAttempts = 5 ∧
    (∀ st ∈ sevenClosures, st.quiet = true) ∧
    (run (World.fresh (some "sk-test")) sevenClosures).scheduled
      = (World.fresh (some "sk-test")).scheduled
        ++ List.take (closures (World.fresh (some "sk-test")) sevenClosures)
            [2000, 4000, 8000, 16000, 32000] ∧
    fatalErrors (run (World.fresh (some "sk-test")) sevenClosures)
      = fatalErrors (World.fresh (some "sk-test"))
        + (closures (World.fresh (some "sk-test")) sevenClosures - 5) :=
  ⟨rfl, rfl, by decide,
    closure_run_backoff (World.fresh (some "sk-test")) sevenClosures rfl rfl (by decide)⟩

/-- C9, as stated, fails on a run of seven closures: the error is emitted at the sixth
closure and again at the seventh, twice in all and not exactly once. -/
theorem seven_closures_emit_twice :
    (World.fresh (some "sk-test")).client.reconnectAttempts = 0 ∧
    sevenClosures.all Step.quiet = true ∧
    closures (World.fresh (some "sk-test")) sevenClosures = 7 ∧
    (run (World.fresh (some "sk-test")) sevenClosures).scheduled
      = [2000, 4000, 8000, 16000, 32000] ∧
    ((run (World.fresh (some "sk-test")) sevenClosures).emitted.drop 6)
      = [Emitted.error maxAttemptsMessage, Emitted.error "connect ECONNREFUSED",
          Emitted.error maxAttemptsMessage] ∧
    fatalErrors (run (World.fresh (some "sk-test")) sevenClosures) = 2 ∧
    fatalErrors (run (World.fresh (some "sk-test")) sevenClosures) ≠ 1 :=
  ⟨rfl, by decide, rfl, rfl, rfl, rfl, by
    intro h
    have h2 : fatalErrors (run (World.fresh (some "sk-test")) sevenClosures) = 2 := rfl
    omega⟩

theorem onOpen_fields (w : World) :
    (onOpen w).client.reconnectAttempts = 0 ∧
    (onOpen w).client.isConnected = true ∧
    (onOpen w).client.maxReconnectAttempts = w.client.maxReconnectAttempts := by
  simp only [onOpen, setupSession, (sendEvent_client _ _).1, and_self]

theorem step_socketOpen (w : World) (k : ℕ) (sock : Socket) (hs : w.sockets[k]? = some sock)
    (hc : sock.readyState = ReadyState.CONNECTING) :
    (step w (Step.socketOpen k)).client.reconnectAttempts = 0 ∧
    (step w (Step.socketOpen k)).client.maxReconnectAttempts = w.client.maxReconnectAttempts := by
  simp only [step, hs, hc, if_true]
  exact ⟨(onOpen_fields _).1, (onOpen_fields _).2.2⟩

theorem step_bounds (w : World) (st : Step) (hmax : w.client.maxReconnectAttempts = 5)
    (hc : w.client.reconnectAttempts ≤ 5) :
    (step w st).client.maxReconnectAttempts = 5 ∧ (step w st).client.reconnectAttempts ≤ 5 := by
  by_cases hcl : isClosure w st = true
  · by_cases hlt : w.client.reconnectAttempts < 5
    · obtain ⟨h1, h2, _, _⟩ := step_closure_below w st hcl (by omega)
      exact ⟨by rw [h2]; exact hmax, by omega⟩
    · obtain ⟨h1, h2, _, _⟩ := step_closure_ceiling w st hcl (by omega)
      exact ⟨by rw [h2]; exact hmax, by omega⟩
  · have hcl' : isClosure w st = false := by simpa using hcl
    by_cases hq : st.quiet = true
    · obtain ⟨h1, h2, _, _⟩ := step_quiet w st hq hcl'
      exact ⟨by rw [h2]; exact hmax, by omega⟩
    · cases st with
      | socketOpen k =>
        cases hs : w.sockets[k]? with
        | none => simp only [step, hs]; exact ⟨hmax, hc⟩
        | some sock =>
          by_cases hcon : sock.readyState = ReadyState.CONNECTING
          · obtain ⟨h1, h2⟩ := step_socketOpen w k sock hs hcon
            exact ⟨by rw [h2]; exact hmax, by omega⟩
          · simp only [step, hs, hcon, if_false]
            exact ⟨hmax, hc⟩
      | socketError k m =>
        by_cases hk : k < w.sockets.length
        · simp only [step, hk, if_true, onError]
          exact ⟨hmax, hc⟩
        · simp only [step, hk, if_false]
          exact ⟨hmax, hc⟩
      | connect => simp [Step.quiet] at hq
      | timerFired => simp [Step.quiet] at hq
      | socketClose k => simp [Step.quiet] at hq
      | disconnect => simp [Step.quiet] at hq

theorem reachable_bounds (w : World) (h : Reachable w) :
    w.client.maxReconnectAttempts = 5 ∧ w.client.reconnectAttempts ≤ 5 := by
  induction h with
  | fresh apiKey => exact ⟨rfl, by simp [World.fresh]⟩
  | step w st _ ih => exact step_bounds w st ih.1 ih.2

/-- C10.  In every state reachable from a freshly constructed session by `connect`, timer,
`open`, `close`, `error` and `disconnect` steps, the reconnect counter is between 0 and 5;
an `open` step of a connecting transport leaves it at 0; and a `close` step increments it by
one when it is a closure met with the counter below 5, and leaves it as it is otherwise. -/
theorem reconnectAttempts_invariant (w : World) (h : Reachable w) :
    0 ≤ w.client.reconnectAttempts ∧ w.client.reconnectAttempts ≤ 5 ∧
    (∀ k sock, w.sockets[k]? = some sock → sock.readyState = ReadyState.CONNECTING →
      (step w (Step.socketOpen k)).client.reconnectAttempts = 0) ∧
    (∀ k, (step w (Step.socketClose k)).client.reconnectAttempts =
      if isClosure w (Step.socketClose k) = true ∧ w.client.reconnectAttempts < 5
      then w.client.reconnectAttempts + 1 else w.client.reconnectAttempts) := by
  obtain ⟨hmax, hc⟩ := reachable_bounds w h
  refine ⟨Nat.zero_le _, hc, fun k sock hs hcon => (step_socketOpen w k sock hs hcon).1, ?_⟩
  intro k
  by_cases hcl : isClosure w (Step.socketClose k) = true
  · by_cases hlt : w.client.reconnectAttempts < 5
    · rw [if_pos ⟨hcl, hlt⟩]
      exact (step_closure_below w _ hcl (by omega)).1
    · rw [if_neg (fun hh => hlt hh.2)]
      exact (step_closure_ceiling w _ hcl (by omega)).1
  · rw [if_neg (fun hh => hcl hh.1)]
    have hcl' : isClosure w (Step.socketClose k) = false := by simpa using hcl
    exact (step_quiet w (Step.socketClose k) rfl hcl').1

theorem reconnectAttempts_invariant_witness :
    Reachable (run (World.fresh (some "sk-test")) [Step.connect, Step.socketClose 0]) ∧
    (run (World.fresh (some "sk-test")) [Step.connect, Step.socketClose 0]).client.reconnectAttempts
      ≤ 5 :=
  have hr : Reachable (run (World.fresh (some "sk-test")) [Step.connect, Step.socketClose 0]) :=
    Reachable.step (step (World.fresh (some "sk-test")) Step.connect) (Step.socketClose 0)
      (Reachable.step (World.fresh (some "sk-test")) Step.connect
        (Reachable.fresh (some "sk-test")))
  ⟨hr, (reconnectAttempts_invariant _ hr).2.1⟩

/-! ## The upstream session: disconnect, credentials, live transports -/

theorem disconnect_fields (w : World) :
    (disconnect w).client.reconnectAttempts = w.client.reconnectAttempts ∧
    (disconnect w).client.maxReconnectAttempts = w.client.maxReconnectAttempts ∧
    (disconnect w).scheduled = w.scheduled ∧
    (disconnect w).emitted = w.emitted := by
  cases hws : w.client.ws with
  | none => simp only [disconnect, hws, and_self]
  | some k => simp only [disconnect, hws, and_self]

theorem disconnect_socket (w : World) (k : ℕ) (sock : Socket) (hws : w.client.ws = some k)
    (hs : w.sockets[k]? = some sock) :
    (disconnect w).sockets[k]? = some sock.close ∧ (disconnect w).client.ws = none := by
  have hlt : k < w.sockets.length := by
    by_contra hge
    rw [List.getElem?_eq_none (by omega)] at hs
    cases hs
  simp only [disconnect, hws, hs, List.getElem?_set_self hlt, and_self]

theorem close_live (sock : Socket) (h : sock.readyState ≠ ReadyState.CLOSED) :
    sock.close.readyState = ReadyState.CLOSING := by
  simp only [Socket.close, h, if_false]

theorem disconnect_closure (w : World) (k : ℕ) (sock : Socket) (hws : w.client.ws = some k)
    (hs : w.sockets[k]? = some sock) (hlive : sock.readyState ≠ ReadyState.CLOSED) :
    isClosure (disconnect w) (Step.socketClose k) = true := by
  simp [isClosure, (disconnect_socket w k sock hws hs).1, close_live sock hlive]

/-- C11, amended.  In every reachable state whose transport is live, `disconnect()` followed by
the `close` event of the transport it closed runs the reconnection path like any other
closure: with the counter `n` below 5 exactly one reconnect is scheduled, after
`2 ^ (n + 1) * 1000` ms, and the counter becomes `n + 1`; only with the counter at 5 is no
reconnect scheduled and the counter left as it is. -/
theorem disconnect_then_close (w : World) (hr : Reachable w) (k : ℕ) (sock : Socket)
    (hws : w.client.ws = some k) (hs : w.sockets[k]? = some sock)
    (hlive : sock.readyState ≠ ReadyState.CLOSED) :
    (w.client.reconnectAttempts < 5 →
      (run w [Step.disconnect, Step.socketClose k]).scheduled
        = w.scheduled ++ [2 ^ (w.client.reconnectAttempts + 1) * 1000] ∧
      (run w [Step.disconnect, Step.socketClose k]).client.reconnectAttempts
        = w.client.reconnectAttempts + 1) ∧
    (w.client.reconnectAttempts = 5 →
      (run w [Step.disconnect, Step.socketClose k]).scheduled = w.scheduled ∧
      (run w [Step.disconnect, Step.socketClose k]).client.reconnectAttempts = 5) := by
  obtain ⟨hmax, _⟩ := reachable_bounds w hr
  obtain ⟨d1, d2, d3, _⟩ := disconnect_fields w
  have hcl := disconnect_closure w k sock hws hs hlive
  have hrun : run w [Step.disconnect, Step.socketClose k]
      = step (disconnect w) (Step.socketClose k) := rfl
  rw [hrun]
  constructor
  · intro hn
    obtain ⟨h1, _, h3, _⟩ := step_closure_below (disconnect w) _ hcl (by rw [d1, d2]; omega)
    rw [h3, h1, d1, d3]
    exact ⟨rfl, rfl⟩
  · intro hn
    obtain ⟨h1, _, h3, _⟩ := step_closure_ceiling (disconnect w) _ hcl (by rw [d1, d2]; omega)
    rw [h3, h1, d1, d3]
    exact ⟨rfl, hn⟩

theorem openWorld_reachable : Reachable openWorld :=
  Reachable.step (step (World.fresh (some "sk-test")) Step.connect) (Step.socketOpen 0)
    (Reachable.step (World.fresh (some "sk-test")) Step.connect
      (Reachable.fresh (some "sk-test")))

theorem disconnect_then_close_witness :
    Reachable openWorld ∧ openWorld.client.reconnectAttempts < 5 ∧
    (run openWorld [Step.disconnect, Step.socketClose 0]).scheduled
      = openWorld.scheduled ++ [2 ^ (openWorld.client.reconnectAttempts + 1) * 1000] :=
  ⟨openWorld_reachable, by decide,
    ((disconnect_then_close openWorld openWorld_reachable 0
      { readyState := ReadyState.OPEN, sent := [sessionConfig] } rfl rfl (by decide)).1
        (by decide)).1⟩

/-- C11, as stated, fails on an open session: `disconnect()` and then the `close` event of
the transport schedule a reconnect after 2000 ms and move the counter from 0 to 1. -/
theorem disconnect_then_close_reconnects :
    openWorld.client.ws = some 0 ∧
    openWorld.scheduled = [] ∧ openWorld.client.reconnectAttempts = 0 ∧
    (run openWorld [Step.disconnect, Step.socketClose 0]).scheduled = [2000] ∧
    (run openWorld [Step.disconnect, Step.socketClose 0]).client.reconnectAttempts = 1 :=
  ⟨rfl, rfl, rfl, rfl, rfl⟩

/-- C13.  When the API key is absent or empty, `connect()` fails with an error, creates no
socket and registers no handler: the state after the failed call is the state before it
(transport reference, connected flag, reconnect counter and all the rest). -/
theorem connect_without_key (w : World)
    (h : w.client.apiKey = none ∨ w.client.apiKey = some "") :
    connect w
      = Except.error "OpenAI API key not found. Please set OPENAI_API_KEY in your .env file" ∧
    step w Step.connect = w ∧
    (step w Step.connect).sockets = w.sockets ∧
    (step w Step.connect).client.ws = w.client.ws ∧
    (step w Step.connect).client.isConnected = w.client.isConnected ∧
    (step w Step.connect).client.reconnectAttempts = w.client.reconnectAttempts := by
  have hc : connect w
      = Except.error "OpenAI API key not found. Please set OPENAI_API_KEY in your .env file" := by
    simp only [connect, h, if_true]
  have hst : step w Step.connect = w := by simp only [step, hc]
  rw [hst]
  exact ⟨hc, rfl, rfl, rfl, rfl, rfl⟩

theorem connect_without_key_witness :
    ((World.fresh none).client.apiKey = none ∨ (World.fresh none).client.apiKey = some "") ∧
    step (World.fresh none) Step.connect = World.fresh none ∧
    step (World.fresh (some "")) Step.connect = World.fresh (some "") :=
  ⟨Or.inl rfl, (connect_without_key (World.fresh none) (Or.inl rfl)).2.1,
    (connect_without_key (World.fresh (some "")) (Or.inr rfl)).2.1⟩

theorem live_set_le (sockets : List Socket) (k : ℕ) (sock sock' : Socket)
    (hs : sockets[k]? = some sock) (h : sock'.live = true → sock.live = true) :
    ((sockets.set k sock').filter Socket.live).length ≤ (sockets.filter Socket.live).length := by
  induction sockets generalizing k with
  | nil => simp at hs
  | cons s0 rest ih =>
    cases k with
    | zero =>
      simp only [List.getElem?_cons_zero, Option.some.injEq] at hs
      subst hs
      simp only [List.set_cons_zero, List.filter_cons]
      cases h1 : sock'.live <;> cases h2 : s0.live <;> simp [h1, h2] at h ⊢
    | succ k =>
      simp only [List.getElem?_cons_succ] at hs
      have := ih k hs
      simp only [List.set_cons_succ, List.filter_cons]
      cases h0 : s0.live <;> simp only [Bool.false_eq_true, if_false, if_true, List.length_cons]
        <;> omega

theorem liveSockets_sendEvent (w : World) (event : Json) :
    liveSockets (sendEvent w event).1 ≤ liveSockets w := by
  cases hws : w.client.ws with
  | none => simp only [sendEvent, hws, le_refl]
  | some k =>
    cases hs : w.sockets[k]? with
    | none => simp only [sendEvent, hws, hs, le_refl]
    | some sock =>
      by_cases hopen : sock.readyState = ReadyState.OPEN
      · simp only [sendEvent, hws, hs, hopen, if_true, World.send, liveSockets]
        exact live_set_le w.sockets k sock _ hs (fun _ => by simp [Socket.live, hopen])
      · simp only [sendEvent, hws, hs, hopen, if_false, le_refl]

theorem liveSockets_onClose (w : World) : liveSockets (onClose w) = liveSockets w := by
  simp only [onClose, handleReconnection, liveSockets]
  split_ifs <;> rfl

theorem liveSockets_connect (w w' : World) (h : connect w = Except.ok w') :
    liveSockets w' = liveSockets w + 1 := by
  unfold connect at h
  split_ifs at h
  cases h
  simp [liveSockets, List.filter_append, Socket.live]

theorem liveSockets_step (w : World) (st : Step) :
    liveSockets (step w st) ≤ liveSockets w + (if st.connects = true then 1 else 0) := by
  cases st with
  | connect =>
    cases hc : connect w with
    | error e => simp only [step, hc, Step.connects, if_true]; omega
    | ok w' =>
      simp only [step, hc, Step.connects, if_true, liveSockets_connect w w' hc, le_refl]
  | timerFired =>
    by_cases hf : w.fired < w.scheduled.length
    · cases hc : connect { w with fired := w.fired + 1 } with
      | error e =>
        simp only [step, hf, if_true, hc, Step.connects]
        exact Nat.le_succ _
      | ok w' =>
        have := liveSockets_connect _ w' hc
        simp only [step, hf, if_true, hc, Step.connects, this]
        exact le_refl _
    · simp only [step, hf, if_false, Step.connects, if_true]
      omega
  | socketOpen k =>
    cases hs : w.sockets[k]? with
    | none => simp [step, hs, Step.connects]
    | some sock =>
      by_cases hcon : sock.readyState = ReadyState.CONNECTING
      · simp only [step, hs, hcon, if_true, onOpen, setupSession, Step.connects]
        refine le_trans (liveSockets_sendEvent _ _) ?_
        simp only [liveSockets]
        exact le_trans (live_set_le w.sockets k sock _ hs
          (fun _ => by simp [Socket.live, hcon])) (Nat.le_add_right _ _)
      · simp [step, hs, hcon, Step.connects]
  | socketError k m =>
    by_cases hk : k < w.sockets.length
    · simp [step, hk, onError, Step.connects, liveSockets]
    · simp [step, hk, Step.connects]
  | socketClose k =>
    cases hs : w.sockets[k]? with
    | none => simp [step, hs, Step.connects]
    | some sock =>
      by_cases hcl : sock.readyState = ReadyState.CLOSED
      · simp [step, hs, hcl, Step.connects]
      · simp only [step, hs, hcl, if_false, Step.connects]
        have hle := live_set_le w.sockets k sock
          { sock with readyState := ReadyState.CLOSED } hs (fun h => by simp [Socket.live] at h)
        rw [liveSockets_onClose]
        simp only [liveSockets]
        omega
  | disconnect =>
    cases hws : w.client.ws with
    | none => simp [step, disconnect, hws, Step.connects]
    | some k =>
      cases hs : w.sockets[k]? with
      | none => simp [step, disconnect, hws, hs, Step.connects, liveSockets]
      | some sock =>
        simp only [step, disconnect, hws, hs, Step.connects, liveSockets]
        refine le_trans (live_set_le w.sockets k sock sock.close hs ?_) (Nat.le_add_right _ _)
        intro h
        by_cases hcl : sock.readyState = ReadyState.CLOSED
        · simp [Socket.live, Socket.close, hcl] at h
        · simp [Socket.live, hcl]

theorem liveSockets_run (steps : List Step) :
    ∀ w : World, liveSockets w ≤ 1 → connectsWhenIdle w steps = true →
      liveSockets (run w steps) ≤ 1 := by
  induction steps with
  | nil => intro w h _; exact h
  | cons st rest ih =>
    intro w h hg
    simp only [connectsWhenIdle, Bool.and_eq_true, Bool.or_eq_true, Bool.not_eq_true',
      decide_eq_true_eq] at hg
    have hstep := liveSockets_step w st
    refine ih (step w st) ?_ hg.2
    rcases hg.1 with hc | hz
    · rw [hc] at hstep
      simp only [Bool.false_eq_true, if_false] at hstep
      omega
    · split_ifs at hstep <;> omega

/-- C19, amended.  `connect()` makes no check for a live transport: with an API key, every call
adds one live transport to those already there.  At most one transport of the session is
live in every state reached by steps (connect calls, reconnect timers, opens, errors, closes,
disconnects) in which each `connect()`, by the relay or by a timer, happens while no
transport is live. -/
theorem live_transports (w : World) (steps : List Step) :
    (∀ w', connect w = Except.ok w' → liveSockets w' = liveSockets w + 1) ∧
    (liveSockets w ≤ 1 → connectsWhenIdle w steps = true → liveSockets (run w steps) ≤ 1) :=
  ⟨fun w' h => liveSockets_connect w w' h, liveSockets_run steps w⟩

theorem live_transports_witness :
    liveSockets (World.fresh (some "sk-test")) ≤ 1 ∧
    connectsWhenIdle (World.fresh (some "sk-test"))
      [Step.connect, Step.socketOpen 0, Step.socketClose 0, Step.timerFired] = true ∧
    liveSockets (run (World.fresh (some "sk-test"))
      [Step.connect, Step.socketOpen 0, Step.socketClose 0, Step.timerFired]) ≤ 1 :=
  ⟨by decide, rfl,
    (live_transports (World.fresh (some "sk-test"))
      [Step.connect, Step.socketOpen 0, Step.socketClose 0, Step.timerFired]).2
        (by decide) rfl⟩

/-- C19, as stated, fails: a second `connect()` on a session whose transport is open creates
a second transport, and both are live. -/
theorem two_live_transports :
    Reachable (run (World.fresh (some "sk-test"))
      [Step.connect, Step.socketOpen 0, Step.connect]) ∧
    (run (World.fresh (some "sk-test")) [Step.connect, Step.socketOpen 0, Step.connect]).sockets.map
        Socket.readyState = [ReadyState.OPEN, ReadyState.CONNECTING] ∧
    liveSockets (run (World.fresh (some "sk-test"))
      [Step.connect, Step.socketOpen 0, Step.connect]) = 2 :=
  ⟨Reachable.step openWorld Step.connect openWorld_reachable, rfl, rfl⟩

/-! ## Inbound upstream events -/

theorem emit_fields (w : World) (e : Emitted) :
    (w.emit e).client = w.client ∧ (w.emit e).sockets = w.sockets ∧
    (w.emit e).scheduled = w.scheduled ∧ (w.emit e).fired = w.fired ∧
    (w.emit e).emitted = w.emitted ++ [e] :=
  ⟨rfl, rfl, rfl, rfl, rfl⟩

theorem isText_ne (v : JSValue) (a b : String) (h : isText v a = true) (hab : a ≠ b) :
    isText v b = false := by
  cases v with
  | none => simp [isText] at h
  | some j =>
    cases j <;> simp [isText] at h ⊢
    subst h
    exact hab

theorem handleServerEvent_error (P : Platform) (w : World) (event err : Json)
    (htype : isText (event.prop "type") "error" = true)
    (herr : event.prop "error" = some err) (hnn : err ≠ Json.null) :
    handleServerEvent P w event =
      if truthy (err.prop "message") then
        match toStringJS P (err.prop "message") with
        | some text =>
          ((w.emit (Emitted.message event)).emit (Emitted.error text), Completion.normal)
        | none => (w.emit (Emitted.message event), Completion.thrown)
      else
        ((w.emit (Emitted.message event)).emit (Emitted.error "Unknown API error"),
          Completion.normal) := by
  have h1 := isText_ne _ "error" "session.created" htype (by decide)
  have h2 := isText_ne _ "error" "response.function_call_arguments.done" htype (by decide)
  cases event with
  | null => simp [Json.prop, isText] at htype
  | bool b => simp [Json.prop, isText] at htype
  | num q => simp [Json.prop, isText] at htype
  | str t => simp [Json.prop, isText] at htype
  | arr items => simp [Json.prop, isText] at htype
  | obj fields =>
    simp only [handleServerEvent, h1, h2, htype, herr, Bool.false_eq_true, if_false, if_true]

theorem handleServerEvent_error_fields (P : Platform) (w : World) (event err : Json)
    (htype : isText (event.prop "type") "error" = true)
    (herr : event.prop "error" = some err) (hnn : err ≠ Json.null) :
    (handleServerEvent P w event).1.client = w.client ∧
    (handleServerEvent P w event).1.sockets = w.sockets := by
  rw [handleServerEvent_error P w event err htype herr hnn]
  split_ifs
  · split <;> exact ⟨rfl, rfl⟩
  · exact ⟨rfl, rfl⟩

/-- C14, amended.  For every inbound event of type `error` whose `error` payload is present
and not `null`, `handleServerEvent` first forwards the event unmodified to the `message`
subscribers.  When `error.message` is truthy and converts to a string, it then emits exactly
one `error` with that string as message, without throwing (a non-empty string message is
taken as it is); when `error.message` is absent or falsy (`null`, `false`, `0`, the empty
string) it emits exactly one `error` with the message "Unknown API error".  When the message
is truthy and its conversion throws (an object with a key `toString`), the handler throws
after the forward and emits no `error`.  The fields of the session and its sockets are
unchanged in every case. -/
theorem error_event_reraised (P : Platform) (w : World) (event err : Json)
    (htype : isText (event.prop "type") "error" = true)
    (herr : event.prop "error" = some err) (hnn : err ≠ Json.null) :
    (∀ text : String, truthy (err.prop "message") = true →
      toStringJS P (err.prop "message") = some text →
      (handleServerEvent P w event).2 = Completion.normal ∧
      (handleServerEvent P w event).1.emitted
        = w.emitted ++ [Emitted.message event, Emitted.error text]) ∧
    (∀ s : String, err.prop "message" = some (Json.str s) → s ≠ "" →
      (handleServerEvent P w event).2 = Completion.normal ∧
      (handleServerEvent P w event).1.emitted
        = w.emitted ++ [Emitted.message event, Emitted.error s]) ∧
    (truthy (err.prop "message") = false →
      (handleServerEvent P w event).2 = Completion.normal ∧
      (handleServerEvent P w event).1.emitted
        = w.emitted ++ [Emitted.message event, Emitted.error "Unknown API error"]) ∧
    (truthy (err.prop "message") = true → toStringJS P (err.prop "message") = none →
      handleServerEvent P w event = (w.emit (Emitted.message event), Completion.thrown)) ∧
    (handleServerEvent P w event).1.client = w.client ∧
    (handleServerEvent P w event).1.sockets = w.sockets := by
  have hfields := handleServerEvent_error_fields P w event err htype herr hnn
  have heq := handleServerEvent_error P w event err htype herr hnn
  refine ⟨?_, ?_, ?_, ?_, hfields.1, hfields.2⟩
  · intro text ht hs
    rw [heq, if_pos ht, hs]
    exact ⟨rfl, by simp [World.emit]⟩
  · intro s hs hne
    have ht : truthy (err.prop "message") = true := by simp [hs, truthy, hne]
    have hc : toStringJS P (err.prop "message") = some s := by
      simp [hs, toStringJS, Json.toStringJS]
    rw [heq, if_pos ht, hc]
    exact ⟨rfl, by simp [World.emit]⟩
  · intro hf
    rw [heq, if_neg (by simp [hf])]
    exact ⟨rfl, by simp [World.emit]⟩
  · intro ht hs
    rw [heq, if_pos ht, hs]

theorem error_event_reraised_witness :
    isText (apiErrorEvent.prop "type") "error" = true ∧
    (handleServerEvent samplePlatform openWorld apiErrorEvent).2 = Completion.normal ∧
    (handleServerEvent samplePlatform openWorld apiErrorEvent).1.emitted
      = openWorld.emitted ++ [Emitted.message apiErrorEvent, Emitted.error "Invalid value"] :=
  ⟨rfl,
    (error_event_reraised samplePlatform openWorld apiErrorEvent
      (Json.obj [("type", Json.str "invalid_request_error"),
        ("message", Json.str "Invalid value")]) rfl rfl (by simp)).2.1
        "Invalid value" rfl (by decide)⟩

/-- C14, as stated, fails.  On an `error` event without an `error` payload the event is
forwarded, then reading `event.error.message` throws and no `error` is emitted; on a payload
whose message is an object with a key `toString`, `new Error` throws and no `error` is
emitted either; and a payload whose message is present but empty is re-raised as "Unknown
API error". -/
theorem error_event_without_payload :
    isText (bareErrorEvent.prop "type") "error" = true ∧
    bareErrorEvent.prop "error" = none ∧
    handleServerEvent samplePlatform openWorld bareErrorEvent
      = (openWorld.emit (Emitted.message bareErrorEvent), Completion.thrown) ∧
    (handleServerEvent samplePlatform openWorld bareErrorEvent).1.emitted
      = [Emitted.message bareErrorEvent] ∧
    (onMessage samplePlatform openWorld (Frame.json bareErrorEvent)).emitted
      = [Emitted.message bareErrorEvent] ∧
    isText (unprintableErrorEvent.prop "type") "error" = true ∧
    handleServerEvent samplePlatform openWorld unprintableErrorEvent
      = (openWorld.emit (Emitted.message unprintableErrorEvent), Completion.thrown) ∧
    (handleServerEvent samplePlatform openWorld unprintableErrorEvent).1.emitted
      = [Emitted.message unprintableErrorEvent] ∧
    (handleServerEvent samplePlatform openWorld emptyMessageErrorEvent).1.emitted
      = [Emitted.message emptyMessageErrorEvent, Emitted.error "Unknown API error"] :=
  ⟨rfl, rfl, rfl, rfl, rfl, rfl, rfl, rfl, rfl⟩

theorem handleServerEvent_done (P : Platform) (w : World) (event : Json)
    (htype : isText (event.prop "type") "response.function_call_arguments.done" = true) :
    handleServerEvent P w event
      = (handleFunctionCall P (w.emit (Emitted.message event)) event, Completion.normal) := by
  have h1 := isText_ne _ "response.function_call_arguments.done" "session.created" htype
    (by decide)
  cases event with
  | null => simp [Json.prop, isText] at htype
  | bool b => simp [Json.prop, isText] at htype
  | num q => simp [Json.prop, isText] at htype
  | str t => simp [Json.prop, isText] at htype
  | arr items => simp [Json.prop, isText] at htype
  | obj fields =>
    simp only [handleServerEvent, h1, htype, Bool.false_eq_true, if_false, if_true]

theorem handleFunctionCall_result (P : Platform) (w : World) (event c result : Json)
    (hc : event.prop "call_id" = some c)
    (hres : functionResult P (event.prop "name") = some result) :
    handleFunctionCall P w event
      = (sendEvent w (functionCallOutput c (P.stringify result))).1 := by
  simp [handleFunctionCall, hres, hc, jsObject, functionCallOutput]

theorem handleFunctionCall_caught (P : Platform) (w : World) (event c : Json)
    (hc : event.prop "call_id" = some c)
    (hres : functionResult P (event.prop "name") = none) :
    handleFunctionCall P w event
      = (sendEvent w (functionCallOutput c
          (P.stringify (Json.obj [("error", Json.str toPrimitiveTypeMessage)])))).1 := by
  simp [handleFunctionCall, hres, hc, jsObject, functionCallOutput]

theorem handleFunctionCall_one_send (P : Platform) (w : World) (event c : Json)
    (hc : event.prop "call_id" = some c) :
    ∃ output : String,
      handleFunctionCall P w event = (sendEvent w (functionCallOutput c output)).1 := by
  cases hres : functionResult P (event.prop "name") with
  | some result => exact ⟨_, handleFunctionCall_result P w event c result hc hres⟩
  | none => exact ⟨_, handleFunctionCall_caught P w event c hc hres⟩

/-- C15, amended.  For every `response.function_call_arguments.done` event with call
identifier `c`, `handleFunctionCall` makes exactly one call of `sendEvent`, with an event
`{type: 'conversation.item.create', item: {type: 'function_call_output', call_id: c,
output: <JSON text>}}`: the text is that of `{time, timezone}` for the name
`'get_current_time'`; that of `{error: 'Unknown function: n'}` for every other name, `n`
being the name converted to a string (the name itself when it is a string); and, when that
conversion throws, the exception is caught and the text is that of `{error: <message of
the exception>}`.  The handling of the event ends without an exception.  The answer leaves
as one frame exactly when the transport of the session is `OPEN` at that moment; otherwise
nothing is sent and the state is as before, so the call stays without an answer. -/
theorem function_call_answered (P : Platform) (w : World) (event c : Json)
    (htype : isText (event.prop "type") "response.function_call_arguments.done" = true)
    (hc : event.prop "call_id" = some c) :
    (isText (event.prop "name") "get_current_time" = true →
      handleFunctionCall P w event = (sendEvent w (functionCallOutput c
        (P.stringify (Json.obj [("time", Json.str P.localeString),
          ("timezone", Json.str P.timeZone)])))).1) ∧
    (∀ text : String, isText (event.prop "name") "get_current_time" = false →
      toStringJS P (event.prop "name") = some text →
      handleFunctionCall P w event = (sendEvent w (functionCallOutput c
        (P.stringify (Json.obj [("error", Json.str ("Unknown function: " ++ text))])))).1) ∧
    (∀ n : String, event.prop "name" = some (Json.str n) → n ≠ "get_current_time" →
      handleFunctionCall P w event = (sendEvent w (functionCallOutput c
        (P.stringify (Json.obj [("error", Json.str ("Unknown function: " ++ n))])))).1) ∧
    (isText (event.prop "name") "get_current_time" = false →
      toStringJS P (event.prop "name") = none →
      handleFunctionCall P w event = (sendEvent w (functionCallOutput c
        (P.stringify (Json.obj [("error", Json.str toPrimitiveTypeMessage)])))).1) ∧
    handleServerEvent P w event
      = (handleFunctionCall P (w.emit (Emitted.message event)) event, Completion.normal) ∧
    (∃ output : String,
      handleFunctionCall P w event = (sendEvent w (functionCallOutput c output)).1 ∧
      (transportOpen w → ∃ k sock, w.client.ws = some k ∧ w.sockets[k]? = some sock ∧
        (handleFunctionCall P w event).sockets
          = w.sockets.set k { sock with sent := sock.sent ++ [functionCallOutput c output] } ∧
        framesSent (handleFunctionCall P w event) = framesSent w + 1)) ∧
    (¬ transportOpen w → handleFunctionCall P w event = w) ∧
    (handleFunctionCall P w event).client = w.client := by
  obtain ⟨output, hout⟩ := handleFunctionCall_one_send P w event c hc
  refine ⟨?_, ?_, ?_, ?_, handleServerEvent_done P w event htype, ⟨output, hout, ?_⟩, ?_, ?_⟩
  · intro hname
    exact handleFunctionCall_result P w event c _ hc (by simp [functionResult, hname])
  · intro text hname htext
    exact handleFunctionCall_result P w event c _ hc (by simp [functionResult, hname, htext])
  · intro n hn hname
    exact handleFunctionCall_result P w event c _ hc
      (by simp [functionResult, hn, isText, hname, toStringJS, Json.toStringJS])
  · intro hname htext
    exact handleFunctionCall_caught P w event c hc (by simp [functionResult, hname, htext])
  · intro hopen
    rw [hout]
    exact sendEvent_frames w _ hopen
  · intro hclosed
    rw [hout, sendEvent_closed w _ hclosed]
  · rw [hout]
    exact (sendEvent_client w _).1

theorem function_call_answered_witness :
    isText (timeCallEvent.prop "type") "response.function_call_arguments.done" = true ∧
    handleFunctionCall samplePlatform openWorld timeCallEvent = (sendEvent openWorld
      (functionCallOutput (Json.str "call_1") (samplePlatform.stringify
        (Json.obj [("time", Json.str samplePlatform.localeString),
          ("timezone", Json.str samplePlatform.timeZone)])))).1 ∧
    handleFunctionCall samplePlatform openWorld unknownCallEvent = (sendEvent openWorld
      (functionCallOutput (Json.str "call_3") (samplePlatform.stringify
        (Json.obj [("error", Json.str ("Unknown function: " ++ "get_weather"))])))).1 ∧
    handleFunctionCall samplePlatform openWorld unprintableCallEvent = (sendEvent openWorld
      (functionCallOutput (Json.str "call_2") (samplePlatform.stringify
        (Json.obj [("error", Json.str toPrimitiveTypeMessage)])))).1 ∧
    handleServerEvent samplePlatform openWorld unprintableCallEvent
      = (handleFunctionCall samplePlatform
          (openWorld.emit (Emitted.message unprintableCallEvent)) unprintableCallEvent,
        Completion.normal) :=
  ⟨rfl,
    (function_call_answered samplePlatform openWorld timeCallEvent (Json.str "call_1")
      rfl rfl).1 rfl,
    (function_call_answered samplePlatform openWorld unknownCallEvent (Json.str "call_3")
      rfl rfl).2.2.1 "get_weather" rfl (by decide),
    (function_call_answered samplePlatform openWorld unprintableCallEvent (Json.str "call_2")
      rfl rfl).2.2.2.1 rfl rfl,
    (function_call_answered samplePlatform openWorld unprintableCallEvent (Json.str "call_2")
      rfl rfl).2.2.2.2.1⟩

/-- C15, as stated, fails.  After a second `connect()` on an open session (a reachable
state) the first socket is open and delivers a completed call of `get_current_time`, while
`this.ws` is the new socket, still connecting: the event is handled without an exception,
`sendEvent` sends nothing, and the state is the one before apart from the forward to the
`message` subscribers.  No frame leaves on either socket: the call stays unanswered. -/
theorem function_call_unanswered :
    Reachable reconnectingWorld ∧
    reconnectingWorld.client.ws = some 1 ∧
    (reconnectingWorld.sockets.map Socket.readyState)
      = [ReadyState.OPEN, ReadyState.CONNECTING] ∧
    isText (timeCallEvent.prop "type") "response.function_call_arguments.done" = true ∧
    handleFunctionCall samplePlatform reconnectingWorld timeCallEvent = reconnectingWorld ∧
    handleServerEvent samplePlatform reconnectingWorld timeCallEvent
      = (reconnectingWorld.emit (Emitted.message timeCallEvent), Completion.normal) ∧
    (handleServerEvent samplePlatform reconnectingWorld timeCallEvent).1.sockets
      = reconnectingWorld.sockets ∧
    framesSent (handleServerEvent samplePlatform reconnectingWorld timeCallEvent).1
      = framesSent reconnectingWorld :=
  ⟨Reachable.step _ Step.connect (Reachable.step _ (Step.socketOpen 0)
      (Reachable.step _ Step.connect (Reachable.fresh (some "sk-test")))),
    rfl, rfl, rfl, rfl, rfl, rfl, rfl⟩

/-! ## `VoiceChat.jsx`: `getErrorMessage` -/

/-- What `getErrorMessage` gets right: a string payload is returned as it is; an object none
of whose fields `message`, `error.message`, `details` is truthy, and an array, yield the
JSON dump; `undefined`, `null`, a number and a boolean yield "Unknown error occurred"; and
the result is a string whenever the first truthy one of the three fields is a string. -/
theorem getErrorMessage_strings (P : Platform) :
    (∀ s, getErrorMessage P (some (Json.str s)) = Json.str s) ∧
    (∀ fields, truthy ((Json.obj fields).prop "message") = false →
      truthy (optProp ((Json.obj fields).prop "error") "message") = false →
      truthy ((Json.obj fields).prop "details") = false →
      getErrorMessage P (some (Json.obj fields)) = Json.str (P.stringify (Json.obj fields))) ∧
    (∀ items, getErrorMessage P (some (Json.arr items))
      = Json.str (P.stringify (Json.arr items))) ∧
    getErrorMessage P none = Json.str "Unknown error occurred" ∧
    getErrorMessage P (some Json.null) = Json.str "Unknown error occurred" ∧
    (∀ q, getErrorMessage P (some (Json.num q)) = Json.str "Unknown error occurred") ∧
    (∀ b, getErrorMessage P (some (Json.bool b)) = Json.str "Unknown error occurred") ∧
    (∀ fields s, (Json.obj fields).prop "message" = some (Json.str s) → s ≠ "" →
      getErrorMessage P (some (Json.obj fields)) = Json.str s) := by
  refine ⟨fun s => rfl, ?_, fun items => rfl, rfl, rfl, fun q => rfl, fun b => rfl, ?_⟩
  · intro fields h1 h2 h3
    simp only [getErrorMessage, h1, h2, h3, Bool.false_eq_true, if_false]
  · intro fields s hs hne
    simp [getErrorMessage, hs, truthy, hne]

/-- C20, the failing input.  On the payload `{message: 42}` the function `getErrorMessage`
returns the number 42, not a string; on `{message: {code: 1}}` it returns the object. -/
theorem getErrorMessage_returns_number (P : Platform) :
    getErrorMessage P (some (Json.obj [("message", Json.num 42)])) = Json.num 42 ∧
    (getErrorMessage P (some (Json.obj [("message", Json.num 42)]))).isString = false ∧
    getErrorMessage P (some (Json.obj [("message", Json.obj [("code", Json.num 1)])]))
      = Json.obj [("code", Json.num 1)] ∧
    (getErrorMessage P (some (Json.obj [("message", Json.obj [("code", Json.num 1)])]))).isString
      = false := by
  have h42 : truthy (some (Json.num 42)) = true := by simp [truthy]
  refine ⟨?_, ?_, rfl, rfl⟩
  · simp [getErrorMessage, Json.prop, List.lookup, h42]
  · simp [getErrorMessage, Json.prop, List.lookup, h42, Json.isString]

/-! ## The relay: disconnect twice, malformed frames -/

theorem disconnect_disconnect (w : World) : disconnect (disconnect w) = disconnect w := by
  cases hws : w.client.ws with
  | none => simp only [disconnect, hws]
  | some k => simp only [disconnect, hws]

theorem disconnectLog_fst (w : World) : (disconnectLog w).1 = disconnect w := by
  cases hws : w.client.ws with
  | none => simp only [disconnectLog, disconnect, hws]
  | some k => simp only [disconnectLog, hws]

theorem disconnectLog_disconnect (w : World) : (disconnectLog (disconnect w)).2 = [] := by
  cases hws : w.client.ws with
  | none => simp only [disconnectLog, disconnect, hws]
  | some k => simp only [disconnectLog, disconnect, hws]

theorem disconnectLog_length (w : World) : (disconnectLog w).2.length ≤ 1 := by
  cases hws : w.client.ws with
  | none => simp [disconnectLog, hws]
  | some k => simp [disconnectLog, hws]

theorem onMessage_disconnectCommand (c : Connection) :
    c.onMessage disconnectCommand = c.disconnect := by
  simp [Connection.onMessage, disconnectCommand, Json.prop, List.lookup, isText]

theorem getElem?_set_some (l : List Connection) (i : ℕ) (c c' : Connection)
    (h : l[i]? = some c) : (l.set i c')[i]? = some c' := by
  have hlt : i < l.length := by
    by_contra hge
    rw [List.getElem?_eq_none (by omega)] at h
    cases h
  exact List.getElem?_set_self hlt

theorem disconnectAt_ne (l : List Connection) (i j : ℕ) (h : j ≠ i) :
    (disconnectAt l j)[i]? = l[i]? := by
  unfold disconnectAt
  cases l[j]? with
  | none => rfl
  | some cj => exact List.getElem?_set_ne h

theorem disconnectAt_self (l : List Connection) (i : ℕ) (c : Connection)
    (h : l[i]? = some c) : (disconnectAt l i)[i]? = some c.disconnect := by
  unfold disconnectAt
  rw [h]
  exact getElem?_set_some l i c _ h

theorem onClose_self (r : Relay) (i : ℕ) (c : Connection) (hc : r.accepted[i]? = some c)
    (hne : ¬ c.ws.readyState = ReadyState.CLOSED) :
    (r.onClose i).accepted[i]? = some c.closed ∨
    (mapGet r.connections c.connectionId = some i ∧
      (r.onClose i).accepted[i]? = some c.closed.disconnect) := by
  have hclosed : (r.accepted.set i c.closed)[i]? = some c.closed :=
    getElem?_set_some _ _ _ _ hc
  cases hm : mapGet r.connections c.connectionId with
  | none =>
    left
    simp only [Relay.onClose, hc, hne, if_false, hm]
    exact hclosed
  | some j =>
    by_cases hji : j = i
    · subst hji
      right
      simp only [Relay.onClose, hc, hne, if_false, hm, true_and]
      exact disconnectAt_self _ _ _ hclosed
    · left
      simp only [Relay.onClose, hc, hne, if_false, hm]
      rw [disconnectAt_ne _ _ _ hji]
      exact hclosed

theorem disconnect_twice_relay (r : Relay) (i : ℕ) (c : Connection)
    (hc : r.accepted[i]? = some c) (hopen : c.ws.readyState = ReadyState.OPEN) :
    ∃ c', ((r.onMessage i disconnectCommand).onClose i).accepted[i]? = some c' ∧
      c'.realtimeClient = disconnect c.realtimeClient ∧
      c'.upstreamCloses = c.upstreamCloses ++ (disconnectLog c.realtimeClient).2 := by
  have hne : ¬ c.ws.readyState = ReadyState.CLOSED := by rw [hopen]; decide
  have h1 : r.onMessage i disconnectCommand
      = { r with accepted := r.accepted.set i c.disconnect } := by
    simp only [Relay.onMessage, hc, hne, if_false, onMessage_disconnectCommand]
  have hget : (r.onMessage i disconnectCommand).accepted[i]? = some c.disconnect := by
    rw [h1]
    exact getElem?_set_some _ _ _ _ hc
  rcases onClose_self (r.onMessage i disconnectCommand) i c.disconnect hget hne with h | ⟨_, h⟩
  · exact ⟨_, h, disconnectLog_fst _, rfl⟩
  · refine ⟨_, h, ?_, ?_⟩
    · simp only [Connection.disconnect, Connection.closed, disconnectLog_fst,
        disconnect_disconnect]
    · simp only [Connection.disconnect, Connection.closed, disconnectLog_fst,
        disconnectLog_disconnect, List.append_nil]

/-- C12.  The method `disconnect` is idempotent and total: a second call changes nothing and
calls `close()` on no socket, and on a session without a transport the first call already
changes nothing.  In the relay, a `disconnect` command followed by the `close` of the
browser channel calls `close()` on the transport at most once: the second `disconnect()`
finds no transport. -/
theorem disconnect_idempotent (w : World) :
    disconnect (disconnect w) = disconnect w ∧
    (disconnectLog (disconnect w)).2 = [] ∧
    (w.client.ws = none → disconnect w = w ∧ (disconnectLog w).2 = []) ∧
    (∀ (r : Relay) (i : ℕ) (c : Connection), r.accepted[i]? = some c →
      c.ws.readyState = ReadyState.OPEN → c.realtimeClient = w →
      ∃ c', ((r.onMessage i disconnectCommand).onClose i).accepted[i]? = some c' ∧
        c'.realtimeClient = disconnect w ∧
        c'.upstreamCloses = c.upstreamCloses ++ (disconnectLog w).2 ∧
        (disconnectLog w).2.length ≤ 1) := by
  refine ⟨disconnect_disconnect w, disconnectLog_disconnect w, ?_, ?_⟩
  · intro hws
    simp only [disconnect, disconnectLog, hws, and_self]
  · intro r i c hc hopen hw
    subst hw
    obtain ⟨c', h1, h2, h3⟩ := disconnect_twice_relay r i c hc hopen
    exact ⟨c', h1, h2, h3, disconnectLog_length _⟩

theorem disconnect_idempotent_witness :
    (World.fresh none).client.ws = none ∧
    disconnect (World.fresh none) = World.fresh none ∧
    disconnect (disconnect openWorld) = disconnect openWorld ∧
    ∃ c', (((Relay.empty.accept 1000 (some "sk-test")).onMessage 0 connectCommand).onMessage 0
        disconnectCommand).onClose 0 |>.accepted[0]? = some c' ∧
      c'.realtimeClient = disconnect connectingWorld ∧
      c'.upstreamCloses = [] ++ (disconnectLog connectingWorld).2 ∧
      (disconnectLog connectingWorld).2.length ≤ 1 :=
  ⟨rfl, ((disconnect_idempotent (World.fresh none)).2.2.1 rfl).1,
    (disconnect_idempotent openWorld).1,
    (disconnect_idempotent connectingWorld).2.2.2
      ((Relay.empty.accept 1000 (some "sk-test")).onMessage 0 connectCommand) 0
      ((Connection.fresh 1000 (some "sk-test")).onMessage connectCommand) rfl rfl rfl⟩

theorem onMessage_after_write (c : Connection) (extra : Json) (frame : Frame)
    (hopen : c.ws.readyState = ReadyState.OPEN) :
    ({ c with ws := c.ws.send extra }).onMessage frame =
      { c.onMessage frame with
        ws := { (c.onMessage frame).ws with
          sent := c.ws.sent ++ extra :: (c.onMessage frame).ws.sent.drop c.ws.sent.length } } := by
  cases frame with
  | malformed e => simp [Connection.onMessage, Channel.send, hopen]
  | json data =>
    cases data with
    | null => simp [Connection.onMessage, Channel.send, hopen]
    | bool b => simp [Connection.onMessage, Json.prop, isText, Channel.send, hopen]
    | num q => simp [Connection.onMessage, Json.prop, isText, Channel.send, hopen]
    | str t => simp [Connection.onMessage, Json.prop, isText, Channel.send, hopen]
    | arr items => simp [Connection.onMessage, Json.prop, isText, Channel.send, hopen]
    | obj fields =>
      simp only [Connection.onMessage]
      split_ifs
      · cases hcon : connect c.realtimeClient with
        | error m => simp [Channel.send, hopen]
        | ok w' => simp [Channel.send, hopen]
      · simp [Channel.send, hopen]
      · simp [Channel.send, hopen]
      · simp [Channel.send, hopen]
      · simp [Channel.send, hopen, Connection.disconnect]
      · simp [Channel.send, hopen]

/-- C16.  For every frame from the browser that `JSON.parse` rejects, on an open channel, the
message handler writes exactly one frame `{type: 'error', error: <message>}` to that
channel and does nothing else: the session, its listeners and the record of the connection
are as before, the map and the other connections are untouched, and any following frame is
handled as it would have been without the malformed one, the error frame being the only
difference in what the browser has received. -/
theorem malformed_frame_reported (c : Connection) (syntaxError : String)
    (hopen : c.ws.readyState = ReadyState.OPEN) :
    (c.onMessage (Frame.malformed syntaxError)).ws.sent
      = c.ws.sent ++ [errorFrame syntaxError] ∧
    (c.onMessage (Frame.malformed syntaxError)).ws.readyState = ReadyState.OPEN ∧
    (c.onMessage (Frame.malformed syntaxError)).realtimeClient = c.realtimeClient ∧
    (c.onMessage (Frame.malformed syntaxError)).messageListeners = c.messageListeners ∧
    (c.onMessage (Frame.malformed syntaxError)).errorListeners = c.errorListeners ∧
    (c.onMessage (Frame.malformed syntaxError)).upstreamCloses = c.upstreamCloses ∧
    (c.onMessage (Frame.malformed syntaxError)).connectionId = c.connectionId ∧
    (∀ frame : Frame, (c.onMessage (Frame.malformed syntaxError)).onMessage frame =
      { c.onMessage frame with
        ws := { (c.onMessage frame).ws with
          sent := c.ws.sent ++ errorFrame syntaxError
            :: (c.onMessage frame).ws.sent.drop c.ws.sent.length } }) ∧
    (∀ (r : Relay) (i : ℕ), r.accepted[i]? = some c →
      (r.onMessage i (Frame.malformed syntaxError)).connections = r.connections ∧
      (r.onMessage i (Frame.malformed syntaxError)).accepted[i]?
        = some (c.onMessage (Frame.malformed syntaxError)) ∧
      ∀ j, j ≠ i →
        (r.onMessage i (Frame.malformed syntaxError)).accepted[j]? = r.accepted[j]?) := by
  have hne : ¬ c.ws.readyState = ReadyState.CLOSED := by rw [hopen]; decide
  refine ⟨by simp [Connection.onMessage, Channel.send, hopen],
    by simp [Connection.onMessage, Channel.send, hopen], rfl, rfl, rfl, rfl, rfl, ?_, ?_⟩
  · intro frame
    exact onMessage_after_write c (errorFrame syntaxError) frame hopen
  · intro r i hc
    simp only [Relay.onMessage, hc, hne, if_false, true_and]
    refine ⟨getElem?_set_some _ _ _ _ hc, ?_⟩
    intro j hji
    exact List.getElem?_set_ne (Ne.symm hji)

theorem malformed_frame_reported_witness :
    (Connection.fresh 1000 (some "sk-test")).ws.readyState = ReadyState.OPEN ∧
    ((Connection.fresh 1000 (some "sk-test")).onMessage
      (Frame.malformed "Unexpected token h in JSON at position 0")).ws.sent
      = (Connection.fresh 1000 (some "sk-test")).ws.sent
        ++ [errorFrame "Unexpected token h in JSON at position 0"] :=
  ⟨rfl, (malformed_frame_reported (Connection.fresh 1000 (some "sk-test"))
    "Unexpected token h in JSON at position 0" rfl).1⟩

/-! ## The relay: forwarding of upstream events -/

theorem sendTimes_open (ch : Channel) (frame : Json) (n : ℕ)
    (hopen : ch.readyState = ReadyState.OPEN) :
    ch.sendTimes frame n
      = { readyState := ReadyState.OPEN, sent := ch.sent ++ List.replicate n frame } := by
  induction n generalizing ch with
  | zero =>
    cases ch
    simp only [Channel.sendTimes, List.replicate_zero, List.append_nil]
    simp only at hopen
    rw [hopen]
  | succ n ih =>
    have hs : ch.send frame = { readyState := ReadyState.OPEN, sent := ch.sent ++ [frame] } := by
      simp only [Channel.send, hopen, if_true]
    rw [Channel.sendTimes, hs, ih _ rfl]
    simp [List.replicate_succ]

theorem handleFunctionCall_emitted (P : Platform) (w : World) (event : Json) :
    (handleFunctionCall P w event).emitted = w.emitted := by
  unfold handleFunctionCall
  split <;> exact (sendEvent_client w _).2.2.2

theorem handleServerEvent_emitted (P : Platform) (w : World) (event : Json)
    (h : isText (event.prop "type") "error" = false) :
    (handleServerEvent P w event).1.emitted = w.emitted ++ [Emitted.message event] := by
  cases event with
  | null => rfl
  | bool b => rfl
  | num q => rfl
  | str t => rfl
  | arr items => rfl
  | obj fields =>
    simp only [handleServerEvent, h, Bool.false_eq_true, if_false]
    split_ifs
    · split <;> rfl
    · exact handleFunctionCall_emitted P _ _
    · rfl

theorem upstreamMessage_forward (P : Platform) (c : Connection) (event : Json)
    (h : isText (event.prop "type") "error" = false) :
    (c.upstreamMessage P (Frame.json event)).ws = c.ws.sendTimes event c.messageListeners ∧
    (c.upstreamMessage P (Frame.json event)).messageListeners = c.messageListeners := by
  simp only [Connection.upstreamMessage, Connection.upstream, onMessage,
    handleServerEvent_emitted P c.realtimeClient event h, List.drop_left, List.foldl_cons,
    List.foldl_nil, Connection.deliver, and_self]

theorem upstreamMessages_forward (P : Platform) (events : List Json) :
    ∀ c : Connection, c.ws.readyState = ReadyState.OPEN →
      (∀ e ∈ events, isText (e.prop "type") "error" = false) →
      (c.upstreamMessages P events).ws.sent
        = c.ws.sent ++ events.flatMap (fun e => List.replicate c.messageListeners e) := by
  induction events with
  | nil => intro c _ _; simp [Connection.upstreamMessages]
  | cons e rest ih =>
    intro c hopen hne
    obtain ⟨hws, hl⟩ := upstreamMessage_forward P c e (hne e (List.mem_cons_self _ _))
    have hws' := hws
    rw [sendTimes_open c.ws e c.messageListeners hopen] at hws'
    have hrun : c.upstreamMessages P (e :: rest)
        = (c.upstreamMessage P (Frame.json e)).upstreamMessages P rest := rfl
    rw [hrun, ih _ (by rw [hws']) (fun x hx => hne x (List.mem_cons_of_mem _ hx)), hl, hws']
    simp [List.flatMap_cons]

theorem flatMap_replicate_one (l : List Json) :
    l.flatMap (fun e => List.replicate 1 e) = l := by
  induction l with
  | nil => rfl
  | cons e rest ih =>
    simp only [List.flatMap_cons, List.replicate_one, List.singleton_append, List.cons.injEq,
      true_and]
    simp

/-- C17, amended.  On a connection whose browser channel is open and on which `k` `connect`
commands have succeeded (each registers one more `message` listener), every sequence of
upstream events `e1..en` of types other than `error` appears on the browser channel as each
event verbatim `k` times, in the order received: exactly the frames `e1, ..., en` when
`k = 1`, each event twice when `k = 2`. -/
theorem upstream_events_forwarded (P : Platform) (c : Connection) (events : List Json)
    (hopen : c.ws.readyState = ReadyState.OPEN)
    (hne : ∀ e ∈ events, isText (e.prop "type") "error" = false) :
    (c.upstreamMessages P events).ws.sent
      = c.ws.sent ++ events.flatMap (fun e => List.replicate c.messageListeners e) ∧
    (c.messageListeners = 1 → (c.upstreamMessages P events).ws.sent = c.ws.sent ++ events) ∧
    (∀ w', connect c.realtimeClient = Except.ok w' →
      (c.onMessage connectCommand).messageListeners = c.messageListeners + 1 ∧
      (c.onMessage connectCommand).ws.sent = c.ws.sent ++ [connectedFrame]) := by
  have h := upstreamMessages_forward P events c hopen hne
  refine ⟨h, ?_, ?_⟩
  · intro h1
    rw [h, h1, flatMap_replicate_one]
  · intro w' hw
    simp [Connection.onMessage, connectCommand, Json.prop, List.lookup, isText, hw,
      Channel.send, hopen]

theorem upstream_events_forwarded_witness :
    connectedOnce.ws.readyState = ReadyState.OPEN ∧
    (∀ e ∈ [textDeltaEvent, timeCallEvent], isText (e.prop "type") "error" = false) ∧
    connectedOnce.messageListeners = 1 ∧
    (connectedOnce.upstreamMessages samplePlatform [textDeltaEvent, timeCallEvent]).ws.sent
      = connectedOnce.ws.sent ++ [textDeltaEvent, timeCallEvent] :=
  ⟨rfl, by decide, rfl,
    (upstream_events_forwarded samplePlatform connectedOnce [textDeltaEvent, timeCallEvent]
      rfl (by decide)).2.1 rfl⟩

/-- C17, as stated, fails.  After two `connect` commands one upstream event reaches the
browser twice; and after a single `connect` an upstream `error` event is followed on the
channel by an error frame of the relay, so the frames are not exactly the events. -/
theorem upstream_event_duplicated :
    connectedTwice.ws.readyState = ReadyState.OPEN ∧
    connectedTwice.ws.sent = [connectedFrame, connectedFrame] ∧
    (connectedTwice.upstreamMessages samplePlatform [textDeltaEvent]).ws.sent
      = [connectedFrame, connectedFrame, textDeltaEvent, textDeltaEvent] ∧
    connectedOnce.ws.sent = [connectedFrame] ∧
    (connectedOnce.upstreamMessages samplePlatform [apiErrorEvent]).ws.sent
      = [connectedFrame, apiErrorEvent, errorFrame "Invalid value"] :=
  ⟨rfl, rfl, rfl, rfl, rfl⟩

/-! ## The relay: connection identifiers -/

theorem ids_set (l : List Connection) (i : ℕ) (c c' : Connection) (h : l[i]? = some c)
    (hid : c'.connectionId = c.connectionId) :
    (l.set i c').map Connection.connectionId = l.map Connection.connectionId := by
  induction l generalizing i with
  | nil => rfl
  | cons c0 rest ih =>
    cases i with
    | zero =>
      simp only [List.getElem?_cons_zero, Option.some.injEq] at h
      subst h
      simp only [List.set_cons_zero, List.map_cons, hid]
    | succ i =>
      simp only [List.getElem?_cons_succ] at h
      simp only [List.set_cons_succ, List.map_cons, ih i h]

theorem ids_disconnectAt (l : List Connection) (j : ℕ) :
    (disconnectAt l j).map Connection.connectionId = l.map Connection.connectionId := by
  unfold disconnectAt
  cases h : l[j]? with
  | none => rfl
  | some cj => exact ids_set l j cj _ h rfl

theorem onMessage_connectionId (c : Connection) (frame : Frame) :
    (c.onMessage frame).connectionId = c.connectionId := by
  cases frame with
  | malformed e => rfl
  | json data =>
    cases data with
    | null => rfl
    | bool b => rfl
    | num q => rfl
    | str t => rfl
    | arr items => rfl
    | obj fields =>
      simp only [Connection.onMessage]
      split_ifs
      · cases connect c.realtimeClient <;> rfl
      all_goals rfl

theorem mapGet_mem (m : List (ℕ × ℕ)) (key j : ℕ) (h : mapGet m key = some j) :
    (key, j) ∈ m := by
  unfold mapGet at h
  cases hf : m.find? (fun e => decide (e.1 = key)) with
  | none => simp [hf] at h
  | some e =>
    rw [hf] at h
    simp only [Option.map_some', Option.some.injEq] at h
    have h1 := List.find?_some hf
    have h2 := List.mem_of_find?_eq_some hf
    simp only [decide_eq_true_eq] at h1
    obtain ⟨a, b⟩ := e
    simp only at h h1
    subst h h1
    exact h2

theorem mapSet_new (m : List (ℕ × ℕ)) (key value : ℕ) (h : ∀ e ∈ m, e.1 ≠ key) :
    mapSet m key value = m ++ [(key, value)] := by
  have hany : (m.any fun e => decide (e.1 = key)) = false := by
    rw [List.any_eq_false]
    intro e he
    simpa using h e he
  simp only [mapSet, hany, Bool.false_eq_true, if_false]

theorem mapGet_append_left (m l : List (ℕ × ℕ)) (key j : ℕ) (h : mapGet m key = some j) :
    mapGet (m ++ l) key = some j := by
  unfold mapGet at h ⊢
  cases hf : m.find? (fun e => decide (e.1 = key)) with
  | none => simp [hf] at h
  | some e =>
    rw [hf] at h
    rw [List.find?_append, hf]
    exact h

theorem mapGet_append_new (m : List (ℕ × ℕ)) (key value : ℕ) (h : ∀ e ∈ m, e.1 ≠ key) :
    mapGet (m ++ [(key, value)]) key = some value := by
  have hf : m.find? (fun e => decide (e.1 = key)) = none := by
    rw [List.find?_eq_none]
    intro e he
    simpa using h e he
  unfold mapGet
  rw [List.find?_append, hf]
  simp

theorem mapGet_mapDelete_self (m : List (ℕ × ℕ)) (key : ℕ) :
    mapGet (mapDelete m key) key = none := by
  unfold mapGet mapDelete
  rw [Option.map_eq_none', List.find?_eq_none]
  intro e he
  simp only [List.mem_filter, decide_eq_true_eq] at he
  simpa using he.2

theorem mapGet_mapDelete_ne (m : List (ℕ × ℕ)) (key other : ℕ) (h : other ≠ key) :
    mapGet (mapDelete m key) other = mapGet m other := by
  unfold mapGet mapDelete
  induction m with
  | nil => rfl
  | cons e rest ih =>
    by_cases he : e.1 = key
    · have hne : ¬ e.1 = other := fun ho => h (ho.symm.trans he)
      rw [List.filter_cons_of_neg (by simpa using he),
        List.find?_cons_of_neg _ (by simpa using hne)]
      exact ih
    · rw [List.filter_cons_of_pos (by simpa using he)]
      by_cases ho : e.1 = other
      · rw [List.find?_cons_of_pos _ (by simpa using ho),
          List.find?_cons_of_pos _ (by simpa using ho)]
      · rw [List.find?_cons_of_neg _ (by simpa using ho),
          List.find?_cons_of_neg _ (by simpa using ho)]
        exact ih

theorem send_readyState (ch : Channel) (frame : Json) :
    (ch.send frame).readyState = ch.readyState := by
  unfold Channel.send
  split_ifs <;> rfl

theorem onMessage_readyState (c : Connection) (frame : Frame) :
    (c.onMessage frame).ws.readyState = c.ws.readyState := by
  cases frame with
  | malformed e => exact send_readyState _ _
  | json data =>
    cases data with
    | null => exact send_readyState _ _
    | bool b => rfl
    | num q => rfl
    | str t => rfl
    | arr items => rfl
    | obj fields =>
      simp only [Connection.onMessage]
      split_ifs
      · cases connect c.realtimeClient <;> exact send_readyState _ _
      all_goals rfl

theorem ids_getElem (r : Relay) (i : ℕ) (c : Connection) (hc : r.accepted[i]? = some c) :
    r.ids[i]? = some c.connectionId ∧ i < r.ids.length := by
  have hi : r.ids[i]? = some c.connectionId := by
    simp only [Relay.ids, List.getElem?_map, hc, Option.map_some']
  refine ⟨hi, ?_⟩
  by_contra hge
  rw [List.getElem?_eq_none (by omega)] at hi
  cases hi

theorem consistent_key (r : Relay) (h : r.consistent) (i j : ℕ) (c : Connection)
    (hc : r.accepted[i]? = some c) (hm : mapGet r.connections c.connectionId = some j) :
    j = i := by
  have hmem := mapGet_mem _ _ _ hm
  have hj := h.2.1 _ hmem
  obtain ⟨hi, hlt⟩ := ids_getElem r i c hc
  exact (List.getElem?_inj hlt h.1 (hi.trans hj.symm)).symm

theorem consistent_ids_ne (r : Relay) (h : r.consistent) (i k : ℕ) (c ck : Connection)
    (hc : r.accepted[i]? = some c) (hck : r.accepted[k]? = some ck) (hki : k ≠ i) :
    ck.connectionId ≠ c.connectionId := by
  intro heq
  obtain ⟨hi, hlt⟩ := ids_getElem r i c hc
  obtain ⟨hk, _⟩ := ids_getElem r k ck hck
  rw [heq] at hk
  exact hki (List.getElem?_inj hlt h.1 (hi.trans hk.symm)).symm

theorem accept_consistent (r : Relay) (h : r.consistent) (now : ℕ) (apiKey : Option String)
    (hnew : ∀ c ∈ r.accepted, c.connectionId ≠ now) :
    (r.accept now apiKey).connections = r.connections ++ [(now, r.accepted.length)] ∧
    (r.accept now apiKey).consistent := by
  have hkeys : ∀ e ∈ r.connections, e.1 ≠ now := by
    intro e he hk
    have hj := h.2.1 e he
    simp only [Relay.ids, List.getElem?_map] at hj
    cases hc : r.accepted[e.2]? with
    | none => simp [hc] at hj
    | some c =>
      rw [hc] at hj
      simp only [Option.map_some', Option.some.injEq] at hj
      exact hnew c (List.getElem?_mem hc) (hj.trans hk)
  have hconn := mapSet_new r.connections now r.accepted.length hkeys
  refine ⟨hconn, ?_, ?_, ?_⟩
  · simp only [Relay.ids, Relay.accept, List.map_append, List.map_cons, List.map_nil]
    rw [List.nodup_append]
    refine ⟨h.1, List.nodup_singleton _, ?_⟩
    intro a ha hb
    simp only [List.mem_singleton] at hb
    subst hb
    obtain ⟨c, hc, hid⟩ := List.mem_map.mp ha
    exact hnew c hc hid
  · intro e he
    have he' : e ∈ r.connections ++ [(now, r.accepted.length)] := by
      rw [← hconn]
      exact he
    simp only [Relay.ids, Relay.accept, List.map_append, List.map_cons, List.map_nil]
    rcases List.mem_append.mp he' with hin | hlast
    · have hj := h.2.1 e hin
      have hlt : e.2 < (r.accepted.map Connection.connectionId).length := by
        by_contra hge
        simp only [Relay.ids] at hj
        rw [List.getElem?_eq_none (by omega)] at hj
        cases hj
      rw [List.getElem?_append_left hlt]
      exact hj
    · simp only [List.mem_singleton] at hlast
      subst hlast
      simp [Connection.fresh]
  · intro i c hc hopen
    have hconn' : (r.accept now apiKey).connections
        = r.connections ++ [(now, r.accepted.length)] := hconn
    rw [hconn']
    have hacc : (r.accept now apiKey).accepted = r.accepted ++ [Connection.fresh now apiKey] :=
      rfl
    rw [hacc] at hc
    by_cases hlt : i < r.accepted.length
    · rw [List.getElem?_append_left hlt] at hc
      exact mapGet_append_left _ _ _ _ (h.2.2 i c hc hopen)
    · rw [List.getElem?_append_right (by omega)] at hc
      have hi0 : i - r.accepted.length = 0 := by
        by_contra hpos
        rw [List.getElem?_eq_none (by simp; omega)] at hc
        cases hc
      rw [hi0] at hc
      simp only [List.getElem?_cons_zero, Option.some.injEq] at hc
      subst hc
      have hi : i = r.accepted.length := by omega
      subst hi
      exact mapGet_append_new _ _ _ hkeys

theorem onClose_consistent (r : Relay) (h : r.consistent) (i : ℕ) (c : Connection)
    (hc : r.accepted[i]? = some c) (hne : ¬ c.ws.readyState = ReadyState.CLOSED) :
    (r.onClose i).accepted[i]? = some c.closed.disconnect ∧
    (r.onClose i).connections = mapDelete r.connections c.connectionId ∧
    (∀ j, j ≠ i → (r.onClose i).accepted[j]? = r.accepted[j]?) ∧
    (r.onClose i).consistent := by
  have hids : (r.accepted.set i c.closed).map Connection.connectionId
      = r.accepted.map Connection.connectionId := ids_set _ _ c _ hc rfl
  have hm : mapGet r.connections c.connectionId = some i := h.2.2 i c hc hne
  have hacc : (r.onClose i).accepted = disconnectAt (r.accepted.set i c.closed) i := by
    simp only [Relay.onClose, hc, hne, if_false, hm]
  have hcon : (r.onClose i).connections = mapDelete r.connections c.connectionId := by
    simp only [Relay.onClose, hc, hne, if_false, hm]
  have hself : (r.onClose i).accepted[i]? = some c.closed.disconnect := by
    rw [hacc]
    exact disconnectAt_self _ _ _ (getElem?_set_some _ _ _ _ hc)
  have hother : ∀ j, j ≠ i → (r.onClose i).accepted[j]? = r.accepted[j]? := by
    intro k hk
    rw [hacc, disconnectAt_ne _ _ _ (Ne.symm hk)]
    exact List.getElem?_set_ne (Ne.symm hk)
  refine ⟨hself, hcon, hother, ?_, ?_, ?_⟩
  · simp only [Relay.ids, hacc, ids_disconnectAt, hids]
    exact h.1
  · intro e he
    rw [hcon] at he
    simp only [mapDelete, List.mem_filter] at he
    simp only [Relay.ids, hacc, ids_disconnectAt, hids]
    exact h.2.1 e he.1
  · intro k ck hck hopen
    by_cases hki : k = i
    · subst hki
      rw [hself] at hck
      simp only [Option.some.injEq] at hck
      subst hck
      exact absurd rfl hopen
    · rw [hother k hki] at hck
      rw [hcon, mapGet_mapDelete_ne _ _ _ (consistent_ids_ne r h i k c ck hc hck hki)]
      exact h.2.2 k ck hck hopen

theorem onMessage_consistent (r : Relay) (h : r.consistent) (i : ℕ) (frame : Frame) :
    (r.onMessage i frame).connections = r.connections ∧ (r.onMessage i frame).consistent := by
  cases hc : r.accepted[i]? with
  | none =>
    simp only [Relay.onMessage, hc, true_and]
    exact h
  | some c =>
    by_cases hcl : c.ws.readyState = ReadyState.CLOSED
    · simp only [Relay.onMessage, hc, hcl, if_true, true_and]
      exact h
    · simp only [Relay.onMessage, hc, hcl, if_false, true_and]
      have hids := ids_set r.accepted i c (c.onMessage frame) hc (onMessage_connectionId c frame)
      refine ⟨?_, ?_, ?_⟩
      · simp only [Relay.ids, hids]
        exact h.1
      · intro e he
        simp only [Relay.ids, hids]
        exact h.2.1 e he
      · intro k ck hck hopen
        simp only at hck ⊢
        by_cases hki : k = i
        · subst hki
          rw [getElem?_set_some _ _ _ _ hc] at hck
          simp only [Option.some.injEq] at hck
          subst hck
          rw [onMessage_connectionId]
          rw [onMessage_readyState] at hopen
          exact h.2.2 k c hc hopen
        · rw [List.getElem?_set_ne (Ne.symm hki)] at hck
          exact h.2.2 k ck hck hopen

theorem empty_consistent : Relay.empty.consistent :=
  ⟨List.nodup_nil, fun e he => by simp [Relay.empty] at he,
    fun i c hc => by simp [Relay.empty] at hc⟩

theorem twoTickRelay_consistent : twoTickRelay.consistent :=
  (onMessage_consistent _
    (accept_consistent _
      (accept_consistent _ empty_consistent 1000 (some "sk-test")
        (fun c hc => by simp [Relay.empty] at hc)).2
      1001 (some "sk-test")
      (fun c hc => by
        simp only [Relay.accept, Relay.empty, List.nil_append, List.mem_singleton] at hc
        subst hc
        simp [Connection.fresh])).2
    0 connectCommand).2

/-- C18, amended.  As long as connections are accepted at clock readings that differ from
one another, their identifiers are distinct and every connection whose browser channel is
open has its own record in the map: each accept adds a new record without replacing
another; frames from a browser leave the map as it is; and the `close` handler of a
connection closes that connection, disconnects its own session (`this.ws` becomes `null` and
`close()` is called on the socket it held, and on no other), removes its own record from the
map, and leaves every other connection and every other record as they were. -/
theorem relay_records (r : Relay) (h : r.consistent) :
    (∀ (now : ℕ) (apiKey : Option String), (∀ c ∈ r.accepted, c.connectionId ≠ now) →
      (r.accept now apiKey).connections = r.connections ++ [(now, r.accepted.length)] ∧
      (r.accept now apiKey).accepted = r.accepted ++ [Connection.fresh now apiKey] ∧
      mapGet (r.accept now apiKey).connections now = some r.accepted.length ∧
      (∀ key, key ≠ now →
        mapGet (r.accept now apiKey).connections key = mapGet r.connections key) ∧
      (r.accept now apiKey).consistent) ∧
    (∀ (i : ℕ) (frame : Frame),
      (r.onMessage i frame).connections = r.connections ∧ (r.onMessage i frame).consistent) ∧
    (∀ (i : ℕ) (c : Connection), r.accepted[i]? = some c →
      ¬ c.ws.readyState = ReadyState.CLOSED →
      mapGet r.connections c.connectionId = some i ∧
      (∃ c', (r.onClose i).accepted[i]? = some c' ∧
        c'.connectionId = c.connectionId ∧
        c'.ws.readyState = ReadyState.CLOSED ∧
        c'.realtimeClient = disconnect c.realtimeClient ∧
        c'.realtimeClient.client.ws = none ∧
        c'.upstreamCloses = c.upstreamCloses ++ c.realtimeClient.client.ws.toList) ∧
      (r.onClose i).connections = mapDelete r.connections c.connectionId ∧
      mapGet (r.onClose i).connections c.connectionId = none ∧
      (∀ j, j ≠ i → (r.onClose i).accepted[j]? = r.accepted[j]?) ∧
      (∀ key, key ≠ c.connectionId →
        mapGet (r.onClose i).connections key = mapGet r.connections key) ∧
      (r.onClose i).consistent) := by
  refine ⟨?_, fun i frame => onMessage_consistent r h i frame, ?_⟩
  · intro now apiKey hnew
    obtain ⟨hconn, hcons⟩ := accept_consistent r h now apiKey hnew
    have hkeys : ∀ e ∈ r.connections, e.1 ≠ now := by
      intro e he hk
      have hj := h.2.1 e he
      simp only [Relay.ids, List.getElem?_map] at hj
      cases hc : r.accepted[e.2]? with
      | none => simp [hc] at hj
      | some c =>
        rw [hc] at hj
        simp only [Option.map_some', Option.some.injEq] at hj
        exact hnew c (List.getElem?_mem hc) (hj.trans hk)
    refine ⟨hconn, rfl, ?_, ?_, hcons⟩
    · rw [hconn]
      exact mapGet_append_new _ _ _ hkeys
    · intro key hkey
      rw [hconn]
      unfold mapGet
      rw [List.find?_append]
      cases hf : r.connections.find? (fun e => decide (e.1 = key)) with
      | some e => rfl
      | none =>
        have : ¬ now = key := fun hk => hkey hk.symm
        simp [List.find?_cons, this]
  · intro i c hc hne
    obtain ⟨hself, hcon, hother, hcons⟩ := onClose_consistent r h i c hc hne
    refine ⟨h.2.2 i c hc hne, ⟨_, hself, rfl, rfl, ?_, ?_, ?_⟩, hcon, ?_, hother, ?_, hcons⟩
    · exact disconnectLog_fst _
    · show (disconnectLog c.realtimeClient).1.client.ws = none
      rw [disconnectLog_fst]
      unfold disconnect
      split <;> simp_all
    · show c.upstreamCloses ++ (disconnectLog c.realtimeClient).2 = _
      unfold disconnectLog
      cases c.realtimeClient.client.ws <;> rfl
    · rw [hcon]
      exact mapGet_mapDelete_self _ _
    · intro key hkey
      rw [hcon]
      exact mapGet_mapDelete_ne _ _ _ hkey

theorem relay_records_witness :
    twoTickRelay.consistent ∧
    twoTickRelay.accepted.map (fun c => c.realtimeClient.client.ws) = [some 0, none] ∧
    mapGet twoTickRelay.connections 1000 = some 0 ∧
    (∃ c', (twoTickRelay.onClose 0).accepted[0]? = some c' ∧
      c'.connectionId = 1000 ∧
      c'.ws.readyState = ReadyState.CLOSED ∧
      c'.realtimeClient.client.ws = none ∧
      c'.upstreamCloses = [0]) ∧
    mapGet (twoTickRelay.onClose 0).connections 1000 = none ∧
    (twoTickRelay.onClose 0).accepted[1]? = twoTickRelay.accepted[1]? ∧
    mapGet (twoTickRelay.onClose 0).connections 1001 = mapGet twoTickRelay.connections 1001 ∧
    mapGet twoTickRelay.connections 1001 = some 1 ∧
    (twoTickRelay.onClose 0).consistent :=
  have hc : twoTickRelay.accepted[0]?
      = some ((Connection.fresh 1000 (some "sk-test")).onMessage connectCommand) := rfl
  have hopen : ¬ ((Connection.fresh 1000 (some "sk-test")).onMessage connectCommand).ws.readyState
      = ReadyState.CLOSED := by decide
  have h := (relay_records twoTickRelay twoTickRelay_consistent).2.2 0 _ hc hopen
  ⟨twoTickRelay_consistent, rfl, h.1,
    h.2.1.imp fun _ hx => ⟨hx.1, hx.2.1, hx.2.2.1, hx.2.2.2.2.1, hx.2.2.2.2.2⟩,
    h.2.2.2.1, h.2.2.2.2.1 1 (by decide), h.2.2.2.2.2.1 1001 (by decide), rfl,
    h.2.2.2.2.2.2⟩

/-- C18, as stated, fails when two connections are accepted at the same clock reading: the
second record replaces the first, and the `close` handler of the first connection
disconnects the session of the second, whose browser is still there, and not its own. -/
theorem same_tick_collision :
    ((Relay.empty.accept 1000 (some "sk-test")).accept 1000 (some "sk-test")).ids
      = [1000, 1000] ∧
    ((Relay.empty.accept 1000 (some "sk-test")).accept 1000 (some "sk-test")).connections
      = [(1000, 1)] ∧
    sameTickRelay.accepted.map (fun c => c.realtimeClient.client.ws) = [some 0, some 0] ∧
    (sameTickRelay.onClose 0).accepted.map (fun c => c.ws.readyState)
      = [ReadyState.CLOSED, ReadyState.OPEN] ∧
    (sameTickRelay.onClose 0).accepted.map (fun c => c.realtimeClient.client.ws)
      = [some 0, none] ∧
    (sameTickRelay.onClose 0).accepted.map Connection.upstreamCloses = [[], [0]] ∧
    (sameTickRelay.onClose 0).connections = [] :=
  ⟨rfl, rfl, rfl, rfl, rfl, rfl, rfl⟩

/-! ## Resampling: every read is in range -/

/-- C21.  For a non-empty input of length `L` and positive rates `R ≠ T`: in exact
arithmetic, for every `i < round(L * T / R)` the indices `floor(i * R / T)` and
`min(floor(i * R / T) + 1, L - 1)` lie between 0 and `L - 1`; and in the run of
`resampleAudio` itself, with its binary64 roundings, for `L < 2 ^ 53` and
`L * T ≤ 2 ^ 49 * R` (an output of fewer than `2 ^ 50` samples), every iteration `i` of the
loop reads two indices `f` and `c` below `L`, each `readAt` returns the element stored there,
and output sample `i` is `NaN` only when one of these two elements is, so that an input
without `NaN` gives an output without `NaN`: no read falls outside the input buffer. -/
theorem resampleAudio_reads_in_bounds (inputData : List Num) (R T : ℚ)
    (hne : inputData ≠ []) (hR : 0 < R) (hT : 0 < T) (hRT : R ≠ T) :
    (∀ i : ℕ, (i : ℤ) < Math_round ((inputData.length : ℚ) * T / R) →
      0 ≤ ⌊(i : ℚ) * R / T⌋ ∧ ⌊(i : ℚ) * R / T⌋ ≤ (inputData.length : ℤ) - 1 ∧
      0 ≤ min (⌊(i : ℚ) * R / T⌋ + 1) ((inputData.length : ℤ) - 1) ∧
      min (⌊(i : ℚ) * R / T⌋ + 1) ((inputData.length : ℤ) - 1)
        ≤ (inputData.length : ℤ) - 1) ∧
    (inputData.length < 2 ^ 53 → (inputData.length : ℚ) * T ≤ R * 2 ^ 49 →
      ∃ out, resampleAudio inputData R T = some out ∧
        (out.length : ℤ) = Math_round (fl64 ((inputData.length : ℚ) / fl64 (R / T))) ∧
        (∀ i : ℕ, i < out.length →
          ∃ (f c : ℕ) (va vb : Num), f < inputData.length ∧ c < inputData.length ∧
            (f : ℤ) = ⌊fl64 ((i : ℚ) * fl64 (R / T))⌋ ∧
            c = min (f + 1) (inputData.length - 1) ∧
            inputData[f]? = some va ∧ inputData[c]? = some vb ∧
            readAt inputData ⌊fl64 ((i : ℚ) * fl64 (R / T))⌋ = va ∧
            readAt inputData
              (min (⌊fl64 ((i : ℚ) * fl64 (R / T))⌋ + 1) ((inputData.length : ℤ) - 1)) = vb ∧
            out[i]? = some (resampleAt inputData (fl64 (R / T)) i) ∧
            (resampleAt inputData (fl64 (R / T)) i = none ↔ va = none ∨ vb = none)) ∧
        ((∀ v ∈ inputData, v ≠ none) → ∀ y ∈ out, y ≠ none)) := by
  have hlen : ((inputData.length : ℚ) / (R / T)) = (inputData.length : ℚ) * T / R :=
    div_div_eq_mul_div _ _ _
  have hpos : 0 < inputData.length := List.length_pos.mpr hne
  constructor
  · intro i hi
    rw [← hlen] at hi
    obtain ⟨h0, h1⟩ := resample_index_bounds inputData.length R T hR hT i hi
    rw [mul_div_assoc]
    exact ⟨h0, h1, le_min (by omega) (by omega), min_le_right _ _⟩
  · intro hL53 hL
    obtain ⟨out, hout, hl, hget⟩ := resampleAudio_getElem inputData R T hT hRT hL53 hL
    have hreads : ∀ i : ℕ, i < out.length →
        ∃ (f c : ℕ) (va vb : Num), f < inputData.length ∧ c < inputData.length ∧
          (f : ℤ) = ⌊fl64 ((i : ℚ) * fl64 (R / T))⌋ ∧
          c = min (f + 1) (inputData.length - 1) ∧
          inputData[f]? = some va ∧ inputData[c]? = some vb ∧
          readAt inputData ⌊fl64 ((i : ℚ) * fl64 (R / T))⌋ = va ∧
          readAt inputData
            (min (⌊fl64 ((i : ℚ) * fl64 (R / T))⌋ + 1) ((inputData.length : ℤ) - 1)) = vb ∧
          out[i]? = some (resampleAt inputData (fl64 (R / T)) i) ∧
          (resampleAt inputData (fl64 (R / T)) i = none ↔ va = none ∨ vb = none) := by
      intro i hi
      obtain ⟨f, c, va, vb, hf, hc, hfe, hce, ha, hb, hra, hrb, hres⟩ :=
        resampleAt_reads inputData R T hT hL i (by omega)
      refine ⟨f, c, va, vb, hf, hc, hfe, hce, ha, hb, hra, hrb, hget i hi, ?_⟩
      rw [hres]
      cases va <;> cases vb <;> simp
    refine ⟨out, hout, hl, hreads, ?_⟩
    intro hfin y hy
    obtain ⟨i, hi, hyi⟩ := List.getElem_of_mem hy
    obtain ⟨f, c, va, vb, _, _, _, _, ha, hb, _, _, hoi, hnan⟩ := hreads i hi
    have hy2 : y = resampleAt inputData (fl64 (R / T)) i := by
      rw [List.getElem?_eq_getElem hi, hyi] at hoi
      exact Option.some.inj hoi
    rw [hy2]
    intro hnone
    rcases hnan.mp hnone with h1 | h1
    · exact hfin va (List.getElem?_mem ha) h1
    · exact hfin vb (List.getElem?_mem hb) h1

theorem resampleAudio_reads_in_bounds_witness :
    ([some 1, some 2, some 3, some 4] : List Num) ≠ [] ∧ (0 : ℚ) < 44100 ∧ (0 : ℚ) < 24000 ∧
    (44100 : ℚ) ≠ 24000 ∧
    ∃ out, resampleAudio [some 1, some 2, some 3, some 4] 44100 24000 = some out ∧
      (out.length : ℤ)
        = Math_round (fl64 ((([some 1, some 2, some 3, some 4] : List Num).length : ℚ)
            / fl64 (44100 / 24000))) ∧
      ∀ y ∈ out, y ≠ none :=
  ⟨by simp, by norm_num, by norm_num, by norm_num,
    ((resampleAudio_reads_in_bounds [some 1, some 2, some 3, some 4] 44100 24000 (by simp)
      (by norm_num) (by norm_num) (by norm_num)).2 (by simp) (by simp; norm_num)).imp
      fun _ h => ⟨h.1, h.2.1, h.2.2.2 (by simp)⟩⟩

/-! ## Quantisation and decoding together -/

theorem Math_round_near (z : ℚ) :
    (Math_round z : ℚ) ≤ z + 1 / 2 ∧ z - 1 / 2 < (Math_round z : ℚ) := by
  unfold Math_round
  have h1 := Int.floor_le (z + 1 / 2)
  have h2 := Int.lt_floor_add_one (z + 1 / 2)
  constructor <;> linarith

theorem Math_round_mono (a b : ℚ) (h : a ≤ b) : Math_round a ≤ Math_round b := by
  unfold Math_round
  exact Int.floor_mono (by linarith)

theorem convertSample_mono (x1 x2 : ℚ) (h : x1 ≤ x2) :
    convertSample (some x1) ≤ convertSample (some x2) := by
  rw [convertSample_finite, convertSample_finite]
  apply Math_round_mono
  have hc : max (-1) (min 1 x1) ≤ max (-1) (min 1 x2) :=
    max_le_max (le_refl _) (min_le_min (le_refl _) h)
  linarith

/-- C22.  For every sample `x` with `-1 ≤ x ≤ 1`, quantising with `convertToPCM16` and
converting back as `playAudioFromBase64` does gives `y = round(32767 * x) / 32768` with
`|y - x| ≤ 1.5 / 32768`; the round trip is not exact, 1 coming back as `32767 / 32768`; and
quantisation is monotone. -/
theorem quantise_then_decode (x : ℚ) (h1 : -1 ≤ x) (h2 : x ≤ 1) :
    channelDataOfPCM16 (convertToPCM16 [some x])
      = [(Math_round (32767 * x) : ℚ) / 32768] ∧
    |(Math_round (32767 * x) : ℚ) / 32768 - x| ≤ (3 / 2) / 32768 ∧
    channelDataOfPCM16 (convertToPCM16 [some 1]) = [32767 / 32768] ∧
    (32767 / 32768 : ℚ) ≠ 1 ∧
    (∀ x1 x2 : ℚ, x1 ≤ x2 → convertSample (some x1) ≤ convertSample (some x2)) ∧
    (∀ x1 x2 : ℚ, x1 ≤ x2 → ∃ n1 n2 : ℤ, convertToPCM16 [some x1] = [n1] ∧
      convertToPCM16 [some x2] = [n2] ∧ n1 ≤ n2) := by
  have hclamp : max (-1) (min 1 x) = x := by
    rw [min_eq_right h2, max_eq_right h1]
  have hone : Math_round ((1 : ℚ) * 32767) = 32767 := by
    have := Math_round_int 32767
    norm_num at this ⊢
    exact this
  obtain ⟨hu, hl⟩ := Math_round_near (32767 * x)
  refine ⟨?_, ?_, ?_, by norm_num, convertSample_mono, ?_⟩
  · simp only [channelDataOfPCM16, convertToPCM16, List.map_cons, List.map_nil,
      convertSample_finite, hclamp, mul_comm x 32767]
  · rw [abs_le]
    constructor
    · rw [le_sub_iff_add_le, ← sub_eq_neg_add, le_div_iff₀ (by norm_num)]
      linarith
    · rw [sub_le_iff_le_add, div_le_iff₀ (by norm_num)]
      linarith
  · simp only [channelDataOfPCM16, convertToPCM16, List.map_cons, List.map_nil,
      convertSample_finite]
    rw [min_self, max_eq_right (by norm_num), hone]
    norm_num
  · intro x1 x2 h
    exact ⟨convertSample (some x1), convertSample (some x2), rfl, rfl,
      convertSample_mono x1 x2 h⟩

theorem quantise_then_decode_witness :
    (-1 : ℚ) ≤ 1 / 2 ∧ (1 / 2 : ℚ) ≤ 1 ∧
    channelDataOfPCM16 (convertToPCM16 [some (1 / 2)])
      = [(Math_round (32767 * (1 / 2)) : ℚ) / 32768] ∧
    |(Math_round (32767 * (1 / 2)) : ℚ) / 32768 - 1 / 2| ≤ (3 / 2) / 32768 :=
  ⟨by norm_num, by norm_num,
    (quantise_then_decode (1 / 2) (by norm_num) (by norm_num)).1,
    (quantise_then_decode (1 / 2) (by norm_num) (by norm_num)).2.1⟩

end RealtimeVoice
